import Mathlib

/-!
Verification of the `note-core` vault indexing engine of the `yapper`
repository: a shallow embedding of the Markdown note parser
(`crates/note-core/src/parser.rs`), the in-memory index store
(`crates/note-core/src/index.rs`) and the domain orchestrator's
`weekly_summary` (`crates/note-core/src/domain.rs`), together with theorems
settling the stated properties of these components.

Rust strings are modelled as lists of Unicode scalar values (`List Char`);
byte-level operations (`String::len`, byte slicing in `build_excerpt`) are
modelled through the UTF-8 size of each scalar.  A Rust function that can
panic is modelled with an `Option` result, `none` standing for the panic.
-/

set_option maxRecDepth 100000

namespace Yapper

/-- Strings of the Rust source, as lists of Unicode scalar values. -/
abbrev Str := List Char

/-- Unicode `White_Space` test, the semantics of Rust `char::is_whitespace`
(used by `trim`, `split_whitespace` and the regex class `\s`). -/
def isWs (c : Char) : Bool :=
  (0x9 ≤ c.toNat && c.toNat ≤ 0xD) || c.toNat == 0x20 || c.toNat == 0x85 ||
  c.toNat == 0xA0 || c.toNat == 0x1680 ||
  (0x2000 ≤ c.toNat && c.toNat ≤ 0x200A) ||
  c.toNat == 0x2028 || c.toNat == 0x2029 || c.toNat == 0x202F ||
  c.toNat == 0x205F || c.toNat == 0x3000

/-- Rust `str::trim_start`. -/
def trimStart (s : Str) : Str := s.dropWhile isWs

/-- Rust `str::trim_end`. -/
def trimEnd (s : Str) : Str := (s.reverse.dropWhile isWs).reverse

/-- Rust `str::trim`. -/
def trim (s : Str) : Str := trimEnd (trimStart s)

/-- Rust `str::starts_with` for a literal pattern. -/
def startsWithS (pat : String) (s : Str) : Bool := pat.toList.isPrefixOf s

/-- Rust `str::strip_prefix` for a literal pattern. -/
def stripPre (pat : String) (s : Str) : Option Str :=
  if pat.toList.isPrefixOf s then some (s.drop pat.toList.length) else none

/-- Helper of `splitLines`: drops the single carriage return that ends a
line terminated by `\r\n` (Rust `str::lines` semantics). -/
def stripCR (l : Str) : Str :=
  if l.getLast? = some '\r' then l.dropLast else l

/-- Helper of `splitLines`: splits at each newline; a final newline does not
open an extra empty line. -/
def splitLinesAux : Str → Str → List Str
  | acc, [] => [stripCR acc.reverse]
  | acc, '\n' :: rest =>
      stripCR acc.reverse :: (if rest.isEmpty then [] else splitLinesAux [] rest)
  | acc, c :: rest => splitLinesAux (c :: acc) rest

/-- Rust `str::lines`: the lines of a string, split at `\n` or `\r\n`,
with no trailing empty line for a final newline. -/
def splitLines (s : Str) : List Str :=
  if s.isEmpty then [] else splitLinesAux [] s

/-- ASCII lowercasing of one character (Rust `u8::to_ascii_lowercase`). -/
def asciiLower (c : Char) : Char :=
  if 'A' ≤ c ∧ c ≤ 'Z' then Char.ofNat (c.toNat + 32) else c

/-- Rust `str::eq_ignore_ascii_case`. -/
def eqIgnoreAsciiCase (a : Str) (b : String) : Bool :=
  a.map asciiLower == b.toList.map asciiLower

/-- Helper of `splitWs`: accumulates the current token in reverse. -/
def splitWsAux : Str → Str → List Str
  | [], acc => if acc.isEmpty then [] else [acc.reverse]
  | c :: rest, acc =>
      if isWs c then
        if acc.isEmpty then splitWsAux rest [] else acc.reverse :: splitWsAux rest []
      else splitWsAux rest (c :: acc)

/-- Rust `str::split_whitespace`: the maximal whitespace-free tokens. -/
def splitWs (s : Str) : List Str := splitWsAux s []

/-- Joins tokens with single spaces (Rust `Vec::join(" ")`). -/
def joinSpaces : List Str → Str
  | [] => []
  | [x] => x
  | x :: xs => x ++ ' ' :: joinSpaces xs

/-- Decimal digits of a natural number (Rust `format!` of a `usize`). -/
def natToStr (n : Nat) : Str := (Nat.repr n).toList

/-- Character class `[0-9A-Za-z_-]` of the task-id regexes. -/
def isIdChar (c : Char) : Bool :=
  c.isDigit || ('A' ≤ c && c ≤ 'Z') || ('a' ≤ c && c ≤ 'z') || c == '_' || c == '-'

/-- UTF-8 byte count of one Unicode scalar value. -/
def csize (c : Char) : Nat :=
  if c.toNat < 0x80 then 1
  else if c.toNat < 0x800 then 2
  else if c.toNat < 0x10000 then 3
  else 4

/-- Rust `String::len`: the UTF-8 byte length. -/
def utf8Len (s : Str) : Nat := (s.map csize).sum

/-- Takes the scalar values spanning exactly `n` leading UTF-8 bytes;
`none` when byte position `n` falls strictly inside a scalar's encoding,
which is where Rust byte slicing `&s[..n]` panics. -/
def takeBytes : Nat → Str → Option Str
  | 0, _ => some []
  | _ + 1, [] => none
  | n + 1, c :: rest =>
      if csize c ≤ n + 1 then (takeBytes (n + 1 - csize c) rest).map (c :: ·)
      else none

/-! ## Data model (`crates/note-core/src/model.rs`) -/

/-- Model of `chrono::NaiveDateTime`: a calendar day (as in
`chrono::NaiveDate`, modelled by an integer day number) and a time of day. -/
structure DateTime where
  day : Int
  tod : Nat
deriving DecidableEq, Repr

/-- Rust `NaiveDateTime::date`. -/
def DateTime.date (t : DateTime) : Int := t.day

/-- Status enum `TaskStatus`. -/
inductive TaskStatus where
  | Open
  | InProgress
  | Done
  | Blocked
deriving DecidableEq, Repr

/-- Struct `Note` (ids are the underlying strings of the newtypes). -/
structure Note where
  id : Str
  path : Str
  title : Str
  date : Option Int
  content : Str
deriving DecidableEq, Repr

/-- Struct `Task`. -/
structure Task where
  id : Str
  title : Str
  status : TaskStatus
  created_at : DateTime
  updated_at : DateTime
  closed_at : Option DateTime
  tags : List Str
  description_md : Option Str
  source_note_id : Option Str
deriving DecidableEq, Repr

/-- Struct `LogEntry`. -/
structure LogEntry where
  id : Str
  note_id : Str
  line_number : Nat
  timestamp : Option Str
  content_md : Str
  tags : List Str
  task_ids : List Str
deriving DecidableEq, Repr

/-- Struct `TaskMention`. -/
structure TaskMention where
  task_id : Str
  note_id : Str
  log_entry_id : Option Str
  excerpt : Str
deriving DecidableEq, Repr

/-- Struct `ParsedNote`. -/
structure ParsedNote where
  note : Note
  tasks : List Task
  log_entries : List LogEntry
  mentions : List TaskMention
deriving DecidableEq, Repr

/-- Struct `NoteMeta`. -/
structure NoteMeta where
  id : Str
  path : Str
  title : Str
  date : Option Int
deriving DecidableEq, Repr

/-- Struct `TaskFilter`. -/
structure TaskFilter where
  status : Option TaskStatus
  tags : List Str
  text_search : Option Str
  touched_since : Option Int
deriving DecidableEq, Repr

/-- Rust `TaskFilter::default()`: the all-inclusive filter. -/
def TaskFilter.default : TaskFilter := ⟨none, [], none, none⟩

/-- Struct `DateRange` (inclusive bounds). -/
structure DateRange where
  start : Int
  stop : Int
deriving DecidableEq, Repr

/-- Struct `TagResult`. -/
structure TagResult where
  tag : Str
  tasks : List Task
  log_entries : List LogEntry
deriving DecidableEq, Repr

/-- Struct `WeeklySummary`. -/
structure WeeklySummary where
  new_tasks : List Task
  completed_tasks : List Task
  notes : List NoteMeta
  top_tags : List (Str × Nat)
deriving DecidableEq, Repr

/-! ## Parser (`crates/note-core/src/parser.rs`)

The three regexes `TASK_LINE_RE`, `TIME_PREFIX_RE` and `LOG_TASK_REF_RE`
are hand-translated into deterministic matchers with the same semantics
(greedy repetition with backtracking where the pattern allows it). -/

/-- Section state machine of `parse_note_internal`. -/
inductive Section where
  | Tasks
  | Log
  | Other
deriving DecidableEq, Repr

/-- Regex `\s+`: requires at least one whitespace character, then consumes
the maximal whitespace run. -/
def wsPlus (s : Str) : Option Str :=
  match s with
  | c :: rest => if isWs c then some (rest.dropWhile isWs) else none
  | [] => none

/-- Matcher for `TASK_LINE_RE =
`^\s*-\s*\[(?P<mark> |x)\]\s+\[(?P<id>T-[0-9A-Za-z_-]+)\]\s*(?P<rest>.*)$`;
returns the three captures `(mark, id, rest)` on a match. -/
def taskLineMatch (s : Str) : Option (Char × Str × Str) :=
  match (trimStart s : Str) with
  | '-' :: s1 =>
    match (s1.dropWhile isWs : Str) with
    | '[' :: m :: ']' :: s2 =>
      if m = ' ' ∨ m = 'x' then
        match wsPlus s2 with
        | some s3 =>
          match s3 with
          | '[' :: 'T' :: '-' :: s4 =>
            let idTail := s4.takeWhile isIdChar
            match (s4.dropWhile isIdChar : Str) with
            | ']' :: s5 =>
                if idTail.isEmpty then none
                else some (m, 'T' :: '-' :: idTail, s5.dropWhile isWs)
            | _ => none
          | _ => none
        | none => none
      else none
    | _ => none
  | _ => none

/-- Alternation `am|pm|AM|PM` of `TIME_PREFIX_RE`. -/
def ampmTok (s : Str) : Option Str :=
  match s with
  | 'a' :: 'm' :: rest => some rest
  | 'p' :: 'm' :: rest => some rest
  | 'A' :: 'M' :: rest => some rest
  | 'P' :: 'M' :: rest => some rest
  | _ => none

/-- Group `(?:\s?(?:am|pm|AM|PM))` of `TIME_PREFIX_RE`: an optional single
whitespace character, then the meridiem token (greedy, with backtracking
over the optional whitespace). -/
def optAmPm (s : Str) : Option Str :=
  match s with
  | c :: rest =>
      if isWs c then
        match ampmTok rest with
        | some r => some r
        | none => ampmTok s
      else ampmTok s
  | [] => none

/-- Clock pattern `[0-9]{1,2}:[0-9]{2}` with one digit of hour. -/
def timeCore1 (s : Str) : Option (Str × Str) :=
  match s with
  | a :: ':' :: c :: d :: rest =>
      if a.isDigit && c.isDigit && d.isDigit then some ([a, ':', c, d], rest) else none
  | _ => none

/-- Clock pattern `[0-9]{1,2}:[0-9]{2}`: greedy two-digit hour first, then
the one-digit fallback. -/
def timeCore (s : Str) : Option (Str × Str) :=
  match s with
  | a :: b :: ':' :: c :: d :: rest =>
      if a.isDigit && b.isDigit && c.isDigit && d.isDigit then some ([a, b, ':', c, d], rest)
      else timeCore1 s
  | _ => timeCore1 s

/-- Matcher for `TIME_PREFIX_RE =
`^\s*-\s*(?P<time>[0-9]{1,2}:[0-9]{2}(?:\s?(?:am|pm|AM|PM))?)\s+(?P<rest>.*)$`;
returns the captures `(time, rest)` on a match.  The optional meridiem
group is given up when the following `\s+` cannot be satisfied, as the
regex engine's backtracking does. -/
def timeMatch (line : Str) : Option (Str × Str) :=
  match (trimStart line : Str) with
  | '-' :: s1 =>
    let s2 := s1.dropWhile isWs
    match timeCore s2 with
    | some (t, s3) =>
      let withMeridiem : Option (Str × Str) :=
        match optAmPm s3 with
        | some s4 =>
          match wsPlus s4 with
          | some s5 => some (t ++ s3.take (s3.length - s4.length), s5)
          | none => none
        | none => none
      match withMeridiem with
      | some r => some r
      | none =>
        match wsPlus s3 with
        | some s5 => some (t, s5)
        | none => none
    | none => none
  | _ => none

/-- Single anchored attempt of `LOG_TASK_REF_RE = \[(T-[0-9A-Za-z_-]+)\]`:
on a match at the head of the string, the captured id and the rest after
the closing bracket. -/
def tryRef (s : Str) : Option (Str × Str) :=
  match s with
  | '[' :: 'T' :: '-' :: rest =>
      let idTail := rest.takeWhile isIdChar
      match (rest.dropWhile isIdChar : Str) with
      | ']' :: r3 => if idTail.isEmpty then none else some ('T' :: '-' :: idTail, r3)
      | _ => none
  | _ => none

/-- Fuel-driven scan of `LOG_TASK_REF_RE` as `captures_iter` performs it:
successive non-overlapping matches, advancing one character past a failed
start position.  Each step consumes at least one character, so fuel equal
to the string length never runs out. -/
def findTaskRefsGo : Nat → Str → List Str
  | _, [] => []
  | 0, _ :: _ => []
  | fuel + 1, c :: rest =>
      match tryRef (c :: rest) with
      | some (tid, r3) => tid :: findTaskRefsGo fuel r3
      | none => findTaskRefsGo fuel rest

/-- Global scan of `LOG_TASK_REF_RE` over a string. -/
def findTaskRefs (s : Str) : List Str := findTaskRefsGo s.length s

/-- Function `split_title_and_tags`, inner token loop: splits the
whitespace tokens into title parts and tags (a tag is a token beginning
with `#` whose remainder is nonempty). -/
def splitTT : List Str → List Str × List Str
  | [] => ([], [])
  | t :: rest =>
    let (ps, gs) := splitTT rest
    match t with
    | '#' :: tag => if tag.isEmpty then (t :: ps, gs) else (ps, tag :: gs)
    | _ => (t :: ps, gs)

/-- Function `split_title_and_tags`: extracts `#`-tags from a fragment and
rejoins the remaining tokens with single spaces; a fragment with no
non-tag token keeps its trimmed original text. -/
def splitTitleAndTags (input : Str) : Str × List Str :=
  let (ps, gs) := splitTT (splitWs input)
  (if ps.isEmpty then trim input else joinSpaces ps, gs)

/-- The three scalar values of the marker string appended by
`build_excerpt` (the literal bytes found in the source file). -/
def excerptMarker : Str := ['â', '€', '¦']

/-- Function `build_excerpt`: the content itself when its UTF-8 length is
at most 120 bytes, else the 120-byte slice `&content[..120]` with the
marker appended; `none` models the byte-slice panic when position 120 is
not a character boundary. -/
def buildExcerpt (content : Str) : Option Str :=
  if utf8Len content ≤ 120 then some content
  else (takeBytes 120 content).map (· ++ excerptMarker)

/-- Function `combine_with_continuation`: the trimmed base, then each
continuation line (trimmed), newline-joined; no newline is put before the
first nonempty piece. -/
def combineWithContinuation (base : Str) (cont : List Str) : Str :=
  cont.foldl
    (fun comb extra =>
      if comb.isEmpty then comb ++ trim extra else comb ++ '\n' :: trim extra)
    (trim base)

/-- Function `collect_continuation`: consumes the following indented lines,
stopping before a heading, a new list item, a blank line or a non-indented
line; returns the trimmed continuation texts and the unconsumed rest. -/
def collectContinuation : List (Nat × Str) → List Str × List (Nat × Str)
  | [] => ([], [])
  | (i, nl) :: rest =>
    let t := trimStart nl
    if startsWithS "## " t || startsWithS "- " t || (trim nl).isEmpty then
      ([], (i, nl) :: rest)
    else if nl.head? = some ' ' ∨ nl.head? = some '\t' then
      let (ex, r) := collectContinuation rest
      (trim nl :: ex, r)
    else ([], (i, nl) :: rest)

/-- Function `str::trim_start_matches("- ")`: strips every leading
repetition of the pattern. -/
def stripDashMatches : Str → Str
  | '-' :: ' ' :: rest => stripDashMatches rest
  | s => s

/-- Function `build_task_from_caps`: builds a `Task` from the regex
captures and the combined (continuation-joined) remainder text. -/
def buildTask (note : Note) (mark : Char) (taskId : Str) (combined : Str)
    (now : DateTime) : Task :=
  let status : TaskStatus := if mark = 'x' ∨ mark = 'X' then .Done else .Open
  let (title, tags) := splitTitleAndTags combined
  { id := taskId
    title := title
    status := status
    created_at := now
    updated_at := now
    closed_at := if status = .Done then some now else none
    tags := tags
    description_md := none
    source_note_id := some note.id }

/-- The remainder of a log line after the time prefix (regex branch) or
after stripping leading `- ` repetitions (fallback branch), paired with
the captured clock-time text. -/
def logTimeSplit (line : Str) : Option Str × Str :=
  match timeMatch line with
  | some (t, r) => (some t, trim r)
  | none => (none, trim (stripDashMatches line))

/-- Function `parse_log_line`.  The first component is `none` exactly when
building a mention's excerpt panics; `some none` stands for Rust's `None`
(the line is not a list item, no continuation is consumed); the second
component is the unconsumed rest of the line iterator. -/
def parseLogLine (note : Note) (line : Str) (lineNumber : Nat)
    (lines : List (Nat × Str)) :
    Option (Option (LogEntry × List TaskMention)) × List (Nat × Str) :=
  if ¬ startsWithS "- " (trimStart line) then (some none, lines)
  else
    let rest := (collectContinuation lines).2
    let combined := combineWithContinuation (logTimeSplit line).2 (collectContinuation lines).1
    let refs := findTaskRefs combined
    let entryId := note.id ++ ':' :: natToStr lineNumber
    let entry : LogEntry :=
      { id := entryId
        note_id := note.id
        line_number := lineNumber
        timestamp := (logTimeSplit line).1
        content_md := (splitTitleAndTags combined).1
        tags := (splitTitleAndTags combined).2
        task_ids := refs }
    if refs.isEmpty then (some (some (entry, [])), rest)
    else
      match buildExcerpt combined with
      | none => (none, rest)
      | some exc =>
          let mentions := refs.map fun tid =>
            { task_id := tid
              note_id := note.id
              log_entry_id := some entryId
              excerpt := exc : TaskMention }
          (some (some (entry, mentions)), rest)

/-- The combined body of a log line: the remainder after the time prefix
(or after stripping leading `- `), continuation-joined — the string from
which `parse_log_line` builds content, tags, references and excerpts. -/
def logCombined (line : Str) (ls : List (Nat × Str)) : Str :=
  combineWithContinuation (logTimeSplit line).2 (collectContinuation ls).1

/-- Length bound for the continuation collector: it only consumes from the
front of the line list. -/
theorem collectContinuation_length_le (ls : List (Nat × Str)) :
    (collectContinuation ls).2.length ≤ ls.length := by
  induction ls with
  | nil => simp [collectContinuation]
  | cons hd tl ih =>
    obtain ⟨i, nl⟩ := hd
    simp only [collectContinuation]
    split
    · simp
    · split
      · simpa using Nat.le_succ_of_le ih
      · simp

/-- Length bound for `parseLogLine`'s unconsumed rest. -/
theorem parseLogLine_length_le (note : Note) (line : Str) (n : Nat)
    (ls : List (Nat × Str)) : (parseLogLine note line n ls).2.length ≤ ls.length := by
  unfold parseLogLine
  split
  · simp
  · simp only []
    have h := collectContinuation_length_le ls
    split <;> simp_all <;> (try split) <;> simp_all

/-- Fuel-driven main loop of `parse_note_internal`: scans the enumerated
lines with the section state machine, collecting tasks, log entries and
mentions; `none` models a panic while building a mention excerpt.  Every
step consumes at least one line, so fuel equal to the number of lines
never runs out. -/
def parseLoopGo (note : Note) (now : DateTime) :
    Nat → List (Nat × Str) → Section → Option (List Task × List LogEntry × List TaskMention)
  | _, [], _ => some ([], [], [])
  | 0, _ :: _, _ => none
  | fuel + 1, (idx, rawLine) :: rest, sec =>
    let line := trimEnd rawLine
    let trimmed := trimStart line
    match stripPre "## " trimmed with
    | some stripped =>
      let heading := trim stripped
      let sec' : Section :=
        if eqIgnoreAsciiCase heading "tasks" then .Tasks
        else if eqIgnoreAsciiCase heading "log" then .Log
        else .Other
      parseLoopGo note now fuel rest sec'
    | none =>
      match sec with
      | .Tasks =>
        match taskLineMatch trimmed with
        | some (mark, taskId, restCap) =>
          let combined :=
            combineWithContinuation (trim restCap) (collectContinuation rest).1
          let task := buildTask note mark taskId combined now
          (parseLoopGo note now fuel (collectContinuation rest).2 .Tasks).map fun r =>
            (task :: r.1, r.2.1, r.2.2)
        | none => parseLoopGo note now fuel rest .Tasks
      | .Log =>
        match parseLogLine note rawLine (idx + 1) rest with
        | (none, _) => none
        | (some none, _) => parseLoopGo note now fuel rest .Log
        | (some (some (entry, ms)), rest') =>
          (parseLoopGo note now fuel rest' .Log).map fun r =>
            (r.1, entry :: r.2.1, ms ++ r.2.2)
      | .Other => parseLoopGo note now fuel rest .Other

/-- Main loop of `parse_note_internal` at sufficient fuel. -/
def parseLoop (note : Note) (now : DateTime) (ls : List (Nat × Str)) (sec : Section) :
    Option (List Task × List LogEntry × List TaskMention) :=
  parseLoopGo note now ls.length ls sec

/-- Function `parse_note_internal` / `MarkdownParser::parse`: `none` models
the excerpt-building panic, otherwise the `ParsedNote`. -/
def parseNote (now : DateTime) (note : Note) : Option ParsedNote :=
  (parseLoop note now (splitLines note.content).enum .Other).map fun r =>
    ⟨note, r.1, r.2.1, r.2.2⟩

/-! ## Index store (`crates/note-core/src/index.rs`)

The `HashMap`s of `VaultIndex` are modelled as association lists with
unique keys: `mapInsert` replaces in place, `mapRemove` deletes the key,
`mapPush` models `entry(k).or_default().push(x)`. -/

/-- Association-list model of a `HashMap`. -/
abbrev Map (K V : Type) := List (K × V)

/-- Rust `HashMap::get` (first matching key). -/
def mapGet {K V : Type} [DecidableEq K] : Map K V → K → Option V
  | [], _ => none
  | (k', v) :: rest, k => if k' = k then some v else mapGet rest k

/-- Rust `HashMap::insert`: replaces the value in place, or appends a new
entry. -/
def mapInsert {K V : Type} [DecidableEq K] : Map K V → K → V → Map K V
  | [], k, v => [(k, v)]
  | (k', v') :: rest, k, v =>
      if k' = k then (k, v) :: rest else (k', v') :: mapInsert rest k v

/-- Rust `HashMap::remove` (dropping the key). -/
def mapRemove {K V : Type} [DecidableEq K] (m : Map K V) (k : K) : Map K V :=
  m.filter fun kv => ¬ kv.1 = k

/-- Rust `map.entry(k).or_default().push(x)` on a map of vectors. -/
def mapPush {K V : Type} [DecidableEq K] : Map K (List V) → K → V → Map K (List V)
  | [], k, x => [(k, [x])]
  | (k', l) :: rest, k, x =>
      if k' = k then (k, l ++ [x]) :: rest else (k', l) :: mapPush rest k x

/-- Pattern `if let Some(ids) = map.get_mut(k) { ids.retain(|i| i != x); if
ids.is_empty() { map.remove(k); } }` of the internal removal helpers. -/
def pruneBucket {K V : Type} [DecidableEq K] [DecidableEq V]
    (m : Map K (List V)) (k : K) (x : V) : Map K (List V) :=
  match mapGet m k with
  | none => m
  | some ids =>
      let ids' := ids.filter fun i => ¬ i = x
      if ids'.isEmpty then mapRemove m k else mapInsert m k ids'

/-- Struct `VaultIndex`: the aggregate state of `InMemoryIndexStore`. -/
structure VaultIndex where
  notes : Map Str NoteMeta
  note_content : Map Str Note
  tasks : Map Str Task
  log_entries : Map Str LogEntry
  mentions_by_task : Map Str (List TaskMention)
  tags_to_tasks : Map Str (List Str)
  tags_to_log_entries : Map Str (List Str)
  task_refs_by_task : Map Str (List Str)
  note_to_task_ids : Map Str (List Str)
  note_to_log_entry_ids : Map Str (List Str)
deriving DecidableEq, Repr

/-- Rust `InMemoryIndexStore::new` / `VaultIndex::default`. -/
def emptyIndex : VaultIndex := ⟨[], [], [], [], [], [], [], [], [], []⟩

/-- Method `remove_task_internal`. -/
def removeTaskInternal (S : VaultIndex) (taskId : Str) : VaultIndex :=
  let S1 :=
    match mapGet S.tasks taskId with
    | some task =>
        (task.tags).foldl
          (fun (acc : VaultIndex) tag => { acc with tags_to_tasks := pruneBucket acc.tags_to_tasks tag taskId })
          ({ S with tasks := mapRemove S.tasks taskId } : VaultIndex)
    | none => S
  { S1 with
    mentions_by_task := mapRemove S1.mentions_by_task taskId
    task_refs_by_task := mapRemove S1.task_refs_by_task taskId }

/-- Method `remove_log_entry_internal`. -/
def removeLogEntryInternal (S : VaultIndex) (entryId : Str) : VaultIndex :=
  match mapGet S.log_entries entryId with
  | none => S
  | some entry =>
      let S1 :=
        (entry.tags).foldl
          (fun (acc : VaultIndex) tag =>
            { acc with tags_to_log_entries := pruneBucket acc.tags_to_log_entries tag entryId })
          { S with log_entries := mapRemove S.log_entries entryId }
      (entry.task_ids).foldl
        (fun (acc : VaultIndex) tid =>
          { acc with task_refs_by_task := pruneBucket acc.task_refs_by_task tid entryId })
        S1

/-- Method `remove_note`. -/
def removeNote (S : VaultIndex) (noteId : Str) : VaultIndex :=
  let S1 := { S with
    notes := mapRemove S.notes noteId
    note_content := mapRemove S.note_content noteId }
  let S2 :=
    match mapGet S1.note_to_task_ids noteId with
    | some ids =>
        ids.foldl removeTaskInternal
          { S1 with note_to_task_ids := mapRemove S1.note_to_task_ids noteId }
    | none => S1
  let S3 :=
    match mapGet S2.note_to_log_entry_ids noteId with
    | some ids =>
        ids.foldl removeLogEntryInternal
          { S2 with note_to_log_entry_ids := mapRemove S2.note_to_log_entry_ids noteId }
    | none => S2
  { S3 with
    mentions_by_task :=
      S3.mentions_by_task.map fun kv => (kv.1, kv.2.filter fun m => ¬ m.note_id = noteId) }

/-- Staged formulation of `remove_note`: note maps and ownership list
first, then the task cascade, then the entry cascade, then the mention
retain; the absent ownership-list cases take the `getD []` form. -/
def removeNotePhases (S : VaultIndex) (nid : Str) : VaultIndex :=
  let S1 : VaultIndex :=
    { S with
      notes := mapRemove S.notes nid
      note_content := mapRemove S.note_content nid
      note_to_task_ids := mapRemove S.note_to_task_ids nid }
  let S2 := ((mapGet S.note_to_task_ids nid).getD []).foldl removeTaskInternal S1
  let S3 : VaultIndex :=
    { S2 with note_to_log_entry_ids := mapRemove S2.note_to_log_entry_ids nid }
  let S4 := ((mapGet S2.note_to_log_entry_ids nid).getD []).foldl removeLogEntryInternal S3
  { S4 with
    mentions_by_task :=
      S4.mentions_by_task.map fun kv => (kv.1, kv.2.filter fun m => ¬ m.note_id = nid) }

/-- Stage 1 of `remove_note`: drop the note record, its content and its
task-ownership list. -/
def phaseA (S : VaultIndex) (nid : Str) : VaultIndex :=
  { S with
    notes := mapRemove S.notes nid
    note_content := mapRemove S.note_content nid
    note_to_task_ids := mapRemove S.note_to_task_ids nid }

/-- Stage 2 of `remove_note`: remove the owned tasks. -/
def phaseB (S : VaultIndex) (nid : Str) (tids : List Str) : VaultIndex :=
  tids.foldl removeTaskInternal (phaseA S nid)

/-- Stage 3 of `remove_note`: drop the entry-ownership list. -/
def phaseC (S : VaultIndex) (nid : Str) (tids : List Str) : VaultIndex :=
  { phaseB S nid tids with
    note_to_log_entry_ids := mapRemove (phaseB S nid tids).note_to_log_entry_ids nid }

/-- Stage 4 of `remove_note`: remove the owned log entries. -/
def phaseD (S : VaultIndex) (nid : Str) (tids eids : List Str) : VaultIndex :=
  eids.foldl removeLogEntryInternal (phaseC S nid tids)

/-- Stage 5 of `remove_note`: retain only foreign mentions. -/
def phaseE (S : VaultIndex) (nid : Str) (tids eids : List Str) : VaultIndex :=
  { phaseD S nid tids eids with
    mentions_by_task :=
      (phaseD S nid tids eids).mentions_by_task.map
        fun kv => (kv.1, kv.2.filter fun m => ¬ m.note_id = nid) }

/-- A task id is live for tag `g`: the task map resolves it to a task
carrying `g`. -/
def taskLive (S : VaultIndex) (g tid : Str) : Prop :=
  ∃ t, mapGet S.tasks tid = some t ∧ g ∈ t.tags

/-- A log-entry id is live for tag `g`: the entry map resolves it to an
entry carrying `g`. -/
def entryLive (S : VaultIndex) (g eid : Str) : Prop :=
  ∃ e, mapGet S.log_entries eid = some e ∧ g ∈ e.tags

/-- The tag-liveness invariant: every bucket of either tag index is
nonempty and holds only live ids carrying that tag. -/
def TagInv (S : VaultIndex) : Prop :=
  (∀ g b, mapGet S.tags_to_tasks g = some b →
    b ≠ [] ∧ ∀ tid ∈ b, taskLive S g tid) ∧
  (∀ g b, mapGet S.tags_to_log_entries g = some b →
    b ≠ [] ∧ ∀ eid ∈ b, entryLive S g eid)

/-- Method `upsert_parsed_note`. -/
def upsertParsedNote (S : VaultIndex) (p : ParsedNote) : VaultIndex :=
  let noteId := p.note.id
  let S0 := removeNote S noteId
  let meta : NoteMeta := ⟨p.note.id, p.note.path, p.note.title, p.note.date⟩
  let S1 := { S0 with
    notes := mapInsert S0.notes noteId meta
    note_content := mapInsert S0.note_content noteId p.note }
  let S2 :=
    p.tasks.foldl
      (fun (acc : VaultIndex) task =>
        let acc1 :=
          task.tags.foldl
            (fun (a : VaultIndex) tag => { a with tags_to_tasks := mapPush a.tags_to_tasks tag task.id }) acc
        { acc1 with tasks := mapInsert acc1.tasks task.id task })
      S1
  let taskIds := p.tasks.map (·.id)
  let S3 :=
    if taskIds.isEmpty then S2
    else { S2 with note_to_task_ids := mapInsert S2.note_to_task_ids noteId taskIds }
  let S4 :=
    p.log_entries.foldl
      (fun (acc : VaultIndex) e =>
        let a1 :=
          e.tags.foldl
            (fun (a : VaultIndex) tag => { a with tags_to_log_entries := mapPush a.tags_to_log_entries tag e.id })
            acc
        let a2 :=
          e.task_ids.foldl
            (fun (a : VaultIndex) tid => { a with task_refs_by_task := mapPush a.task_refs_by_task tid e.id }) a1
        { a2 with log_entries := mapInsert a2.log_entries e.id e })
      S3
  let entryIds := p.log_entries.map (·.id)
  let S5 :=
    if entryIds.isEmpty then S4
    else { S4 with note_to_log_entry_ids := mapInsert S4.note_to_log_entry_ids noteId entryIds }
  p.mentions.foldl
    (fun (acc : VaultIndex) m => { acc with mentions_by_task := mapPush acc.mentions_by_task m.task_id m })
    S5

/-- Method `get_task`. -/
def getTask (S : VaultIndex) (id : Str) : Option Task := mapGet S.tasks id

/-- Method `get_note`. -/
def getNote (S : VaultIndex) (id : Str) : Option Note := mapGet S.note_content id

/-- The Unicode simple lowercase mapping of Rust `char::to_lowercase`
(the `conversions::to_lower` table), as code-point pairs.  The sole
multi-character lowercase mapping, `U+0130` to `i` followed by
`U+0307`, is handled in `lowerChar`. -/
def lowerTable1 : List (Nat × Nat) := [
  (0x41, 0x61), (0x42, 0x62), (0x43, 0x63), (0x44, 0x64),
  (0x45, 0x65), (0x46, 0x66), (0x47, 0x67), (0x48, 0x68),
  (0x49, 0x69), (0x4A, 0x6A), (0x4B, 0x6B), (0x4C, 0x6C),
  (0x4D, 0x6D), (0x4E, 0x6E), (0x4F, 0x6F), (0x50, 0x70),
  (0x51, 0x71), (0x52, 0x72), (0x53, 0x73), (0x54, 0x74),
  (0x55, 0x75), (0x56, 0x76), (0x57, 0x77), (0x58, 0x78),
  (0x59, 0x79), (0x5A, 0x7A), (0xC0, 0xE0), (0xC1, 0xE1),
  (0xC2, 0xE2), (0xC3, 0xE3), (0xC4, 0xE4), (0xC5, 0xE5),
  (0xC6, 0xE6), (0xC7, 0xE7), (0xC8, 0xE8), (0xC9, 0xE9),
  (0xCA, 0xEA), (0xCB, 0xEB), (0xCC, 0xEC), (0xCD, 0xED),
  (0xCE, 0xEE), (0xCF, 0xEF), (0xD0, 0xF0), (0xD1, 0xF1),
  (0xD2, 0xF2), (0xD3, 0xF3), (0xD4, 0xF4), (0xD5, 0xF5),
  (0xD6, 0xF6), (0xD8, 0xF8), (0xD9, 0xF9), (0xDA, 0xFA),
  (0xDB, 0xFB), (0xDC, 0xFC), (0xDD, 0xFD), (0xDE, 0xFE),
  (0x100, 0x101), (0x102, 0x103), (0x104, 0x105), (0x106, 0x107),
  (0x108, 0x109), (0x10A, 0x10B), (0x10C, 0x10D), (0x10E, 0x10F),
  (0x110, 0x111), (0x112, 0x113), (0x114, 0x115), (0x116, 0x117),
  (0x118, 0x119), (0x11A, 0x11B), (0x11C, 0x11D), (0x11E, 0x11F),
  (0x120, 0x121), (0x122, 0x123), (0x124, 0x125), (0x126, 0x127),
  (0x128, 0x129), (0x12A, 0x12B), (0x12C, 0x12D), (0x12E, 0x12F),
  (0x132, 0x133), (0x134, 0x135), (0x136, 0x137), (0x139, 0x13A),
  (0x13B, 0x13C), (0x13D, 0x13E), (0x13F, 0x140), (0x141, 0x142),
  (0x143, 0x144), (0x145, 0x146), (0x147, 0x148), (0x14A, 0x14B),
  (0x14C, 0x14D), (0x14E, 0x14F), (0x150, 0x151), (0x152, 0x153),
  (0x154, 0x155), (0x156, 0x157), (0x158, 0x159), (0x15A, 0x15B),
  (0x15C, 0x15D), (0x15E, 0x15F), (0x160, 0x161), (0x162, 0x163),
  (0x164, 0x165), (0x166, 0x167), (0x168, 0x169), (0x16A, 0x16B),
  (0x16C, 0x16D), (0x16E, 0x16F), (0x170, 0x171), (0x172, 0x173),
  (0x174, 0x175), (0x176, 0x177), (0x178, 0xFF), (0x179, 0x17A),
  (0x17B, 0x17C), (0x17D, 0x17E), (0x181, 0x253), (0x182, 0x183),
  (0x184, 0x185), (0x186, 0x254), (0x187, 0x188), (0x189, 0x256),
  (0x18A, 0x257), (0x18B, 0x18C), (0x18E, 0x1DD), (0x18F, 0x259),
  (0x190, 0x25B), (0x191, 0x192), (0x193, 0x260), (0x194, 0x263),
  (0x196, 0x269), (0x197, 0x268), (0x198, 0x199), (0x19C, 0x26F),
  (0x19D, 0x272), (0x19F, 0x275), (0x1A0, 0x1A1), (0x1A2, 0x1A3),
  (0x1A4, 0x1A5), (0x1A6, 0x280), (0x1A7, 0x1A8), (0x1A9, 0x283),
  (0x1AC, 0x1AD), (0x1AE, 0x288), (0x1AF, 0x1B0), (0x1B1, 0x28A),
  (0x1B2, 0x28B), (0x1B3, 0x1B4), (0x1B5, 0x1B6), (0x1B7, 0x292),
  (0x1B8, 0x1B9), (0x1BC, 0x1BD), (0x1C4, 0x1C6), (0x1C5, 0x1C6),
  (0x1C7, 0x1C9), (0x1C8, 0x1C9), (0x1CA, 0x1CC), (0x1CB, 0x1CC),
  (0x1CD, 0x1CE), (0x1CF, 0x1D0), (0x1D1, 0x1D2), (0x1D3, 0x1D4),
  (0x1D5, 0x1D6), (0x1D7, 0x1D8), (0x1D9, 0x1DA), (0x1DB, 0x1DC),
  (0x1DE, 0x1DF), (0x1E0, 0x1E1), (0x1E2, 0x1E3), (0x1E4, 0x1E5),
  (0x1E6, 0x1E7), (0x1E8, 0x1E9), (0x1EA, 0x1EB), (0x1EC, 0x1ED),
  (0x1EE, 0x1EF), (0x1F1, 0x1F3), (0x1F2, 0x1F3), (0x1F4, 0x1F5),
  (0x1F6, 0x195), (0x1F7, 0x1BF), (0x1F8, 0x1F9), (0x1FA, 0x1FB),
  (0x1FC, 0x1FD), (0x1FE, 0x1FF), (0x200, 0x201), (0x202, 0x203),
  (0x204, 0x205), (0x206, 0x207), (0x208, 0x209), (0x20A, 0x20B),
  (0x20C, 0x20D), (0x20E, 0x20F), (0x210, 0x211), (0x212, 0x213),
  (0x214, 0x215), (0x216, 0x217), (0x218, 0x219), (0x21A, 0x21B)
]

/-- Continuation of the lowercase mapping table. -/
def lowerTable2 : List (Nat × Nat) := [
  (0x21C, 0x21D), (0x21E, 0x21F), (0x220, 0x19E), (0x222, 0x223),
  (0x224, 0x225), (0x226, 0x227), (0x228, 0x229), (0x22A, 0x22B),
  (0x22C, 0x22D), (0x22E, 0x22F), (0x230, 0x231), (0x232, 0x233),
  (0x23A, 0x2C65), (0x23B, 0x23C), (0x23D, 0x19A), (0x23E, 0x2C66),
  (0x241, 0x242), (0x243, 0x180), (0x244, 0x289), (0x245, 0x28C),
  (0x246, 0x247), (0x248, 0x249), (0x24A, 0x24B), (0x24C, 0x24D),
  (0x24E, 0x24F), (0x370, 0x371), (0x372, 0x373), (0x376, 0x377),
  (0x37F, 0x3F3), (0x386, 0x3AC), (0x388, 0x3AD), (0x389, 0x3AE),
  (0x38A, 0x3AF), (0x38C, 0x3CC), (0x38E, 0x3CD), (0x38F, 0x3CE),
  (0x391, 0x3B1), (0x392, 0x3B2), (0x393, 0x3B3), (0x394, 0x3B4),
  (0x395, 0x3B5), (0x396, 0x3B6), (0x397, 0x3B7), (0x398, 0x3B8),
  (0x399, 0x3B9), (0x39A, 0x3BA), (0x39B, 0x3BB), (0x39C, 0x3BC),
  (0x39D, 0x3BD), (0x39E, 0x3BE), (0x39F, 0x3BF), (0x3A0, 0x3C0),
  (0x3A1, 0x3C1), (0x3A3, 0x3C3), (0x3A4, 0x3C4), (0x3A5, 0x3C5),
  (0x3A6, 0x3C6), (0x3A7, 0x3C7), (0x3A8, 0x3C8), (0x3A9, 0x3C9),
  (0x3AA, 0x3CA), (0x3AB, 0x3CB), (0x3CF, 0x3D7), (0x3D8, 0x3D9),
  (0x3DA, 0x3DB), (0x3DC, 0x3DD), (0x3DE, 0x3DF), (0x3E0, 0x3E1),
  (0x3E2, 0x3E3), (0x3E4, 0x3E5), (0x3E6, 0x3E7), (0x3E8, 0x3E9),
  (0x3EA, 0x3EB), (0x3EC, 0x3ED), (0x3EE, 0x3EF), (0x3F4, 0x3B8),
  (0x3F7, 0x3F8), (0x3F9, 0x3F2), (0x3FA, 0x3FB), (0x3FD, 0x37B),
  (0x3FE, 0x37C), (0x3FF, 0x37D), (0x400, 0x450), (0x401, 0x451),
  (0x402, 0x452), (0x403, 0x453), (0x404, 0x454), (0x405, 0x455),
  (0x406, 0x456), (0x407, 0x457), (0x408, 0x458), (0x409, 0x459),
  (0x40A, 0x45A), (0x40B, 0x45B), (0x40C, 0x45C), (0x40D, 0x45D),
  (0x40E, 0x45E), (0x40F, 0x45F), (0x410, 0x430), (0x411, 0x431),
  (0x412, 0x432), (0x413, 0x433), (0x414, 0x434), (0x415, 0x435),
  (0x416, 0x436), (0x417, 0x437), (0x418, 0x438), (0x419, 0x439),
  (0x41A, 0x43A), (0x41B, 0x43B), (0x41C, 0x43C), (0x41D, 0x43D),
  (0x41E, 0x43E), (0x41F, 0x43F), (0x420, 0x440), (0x421, 0x441),
  (0x422, 0x442), (0x423, 0x443), (0x424, 0x444), (0x425, 0x445),
  (0x426, 0x446), (0x427, 0x447), (0x428, 0x448), (0x429, 0x449),
  (0x42A, 0x44A), (0x42B, 0x44B), (0x42C, 0x44C), (0x42D, 0x44D),
  (0x42E, 0x44E), (0x42F, 0x44F), (0x460, 0x461), (0x462, 0x463),
  (0x464, 0x465), (0x466, 0x467), (0x468, 0x469), (0x46A, 0x46B),
  (0x46C, 0x46D), (0x46E, 0x46F), (0x470, 0x471), (0x472, 0x473),
  (0x474, 0x475), (0x476, 0x477), (0x478, 0x479), (0x47A, 0x47B),
  (0x47C, 0x47D), (0x47E, 0x47F), (0x480, 0x481), (0x48A, 0x48B),
  (0x48C, 0x48D), (0x48E, 0x48F), (0x490, 0x491), (0x492, 0x493),
  (0x494, 0x495), (0x496, 0x497), (0x498, 0x499), (0x49A, 0x49B),
  (0x49C, 0x49D), (0x49E, 0x49F), (0x4A0, 0x4A1), (0x4A2, 0x4A3),
  (0x4A4, 0x4A5), (0x4A6, 0x4A7), (0x4A8, 0x4A9), (0x4AA, 0x4AB),
  (0x4AC, 0x4AD), (0x4AE, 0x4AF), (0x4B0, 0x4B1), (0x4B2, 0x4B3),
  (0x4B4, 0x4B5), (0x4B6, 0x4B7), (0x4B8, 0x4B9), (0x4BA, 0x4BB),
  (0x4BC, 0x4BD), (0x4BE, 0x4BF), (0x4C0, 0x4CF), (0x4C1, 0x4C2),
  (0x4C3, 0x4C4), (0x4C5, 0x4C6), (0x4C7, 0x4C8), (0x4C9, 0x4CA),
  (0x4CB, 0x4CC), (0x4CD, 0x4CE), (0x4D0, 0x4D1), (0x4D2, 0x4D3),
  (0x4D4, 0x4D5), (0x4D6, 0x4D7), (0x4D8, 0x4D9), (0x4DA, 0x4DB),
  (0x4DC, 0x4DD), (0x4DE, 0x4DF), (0x4E0, 0x4E1), (0x4E2, 0x4E3),
  (0x4E4, 0x4E5), (0x4E6, 0x4E7), (0x4E8, 0x4E9), (0x4EA, 0x4EB),
  (0x4EC, 0x4ED), (0x4EE, 0x4EF), (0x4F0, 0x4F1), (0x4F2, 0x4F3)
]

/-- Continuation of the lowercase mapping table. -/
def lowerTable3 : List (Nat × Nat) := [
  (0x4F4, 0x4F5), (0x4F6, 0x4F7), (0x4F8, 0x4F9), (0x4FA, 0x4FB),
  (0x4FC, 0x4FD), (0x4FE, 0x4FF), (0x500, 0x501), (0x502, 0x503),
  (0x504, 0x505), (0x506, 0x507), (0x508, 0x509), (0x50A, 0x50B),
  (0x50C, 0x50D), (0x50E, 0x50F), (0x510, 0x511), (0x512, 0x513),
  (0x514, 0x515), (0x516, 0x517), (0x518, 0x519), (0x51A, 0x51B),
  (0x51C, 0x51D), (0x51E, 0x51F), (0x520, 0x521), (0x522, 0x523),
  (0x524, 0x525), (0x526, 0x527), (0x528, 0x529), (0x52A, 0x52B),
  (0x52C, 0x52D), (0x52E, 0x52F), (0x531, 0x561), (0x532, 0x562),
  (0x533, 0x563), (0x534, 0x564), (0x535, 0x565), (0x536, 0x566),
  (0x537, 0x567), (0x538, 0x568), (0x539, 0x569), (0x53A, 0x56A),
  (0x53B, 0x56B), (0x53C, 0x56C), (0x53D, 0x56D), (0x53E, 0x56E),
  (0x53F, 0x56F), (0x540, 0x570), (0x541, 0x571), (0x542, 0x572),
  (0x543, 0x573), (0x544, 0x574), (0x545, 0x575), (0x546, 0x576),
  (0x547, 0x577), (0x548, 0x578), (0x549, 0x579), (0x54A, 0x57A),
  (0x54B, 0x57B), (0x54C, 0x57C), (0x54D, 0x57D), (0x54E, 0x57E),
  (0x54F, 0x57F), (0x550, 0x580), (0x551, 0x581), (0x552, 0x582),
  (0x553, 0x583), (0x554, 0x584), (0x555, 0x585), (0x556, 0x586),
  (0x10A0, 0x2D00), (0x10A1, 0x2D01), (0x10A2, 0x2D02), (0x10A3, 0x2D03),
  (0x10A4, 0x2D04), (0x10A5, 0x2D05), (0x10A6, 0x2D06), (0x10A7, 0x2D07),
  (0x10A8, 0x2D08), (0x10A9, 0x2D09), (0x10AA, 0x2D0A), (0x10AB, 0x2D0B),
  (0x10AC, 0x2D0C), (0x10AD, 0x2D0D), (0x10AE, 0x2D0E), (0x10AF, 0x2D0F),
  (0x10B0, 0x2D10), (0x10B1, 0x2D11), (0x10B2, 0x2D12), (0x10B3, 0x2D13),
  (0x10B4, 0x2D14), (0x10B5, 0x2D15), (0x10B6, 0x2D16), (0x10B7, 0x2D17),
  (0x10B8, 0x2D18), (0x10B9, 0x2D19), (0x10BA, 0x2D1A), (0x10BB, 0x2D1B),
  (0x10BC, 0x2D1C), (0x10BD, 0x2D1D), (0x10BE, 0x2D1E), (0x10BF, 0x2D1F),
  (0x10C0, 0x2D20), (0x10C1, 0x2D21), (0x10C2, 0x2D22), (0x10C3, 0x2D23),
  (0x10C4, 0x2D24), (0x10C5, 0x2D25), (0x10C7, 0x2D27), (0x10CD, 0x2D2D),
  (0x13A0, 0xAB70), (0x13A1, 0xAB71), (0x13A2, 0xAB72), (0x13A3, 0xAB73),
  (0x13A4, 0xAB74), (0x13A5, 0xAB75), (0x13A6, 0xAB76), (0x13A7, 0xAB77),
  (0x13A8, 0xAB78), (0x13A9, 0xAB79), (0x13AA, 0xAB7A), (0x13AB, 0xAB7B),
  (0x13AC, 0xAB7C), (0x13AD, 0xAB7D), (0x13AE, 0xAB7E), (0x13AF, 0xAB7F),
  (0x13B0, 0xAB80), (0x13B1, 0xAB81), (0x13B2, 0xAB82), (0x13B3, 0xAB83),
  (0x13B4, 0xAB84), (0x13B5, 0xAB85), (0x13B6, 0xAB86), (0x13B7, 0xAB87),
  (0x13B8, 0xAB88), (0x13B9, 0xAB89), (0x13BA, 0xAB8A), (0x13BB, 0xAB8B),
  (0x13BC, 0xAB8C), (0x13BD, 0xAB8D), (0x13BE, 0xAB8E), (0x13BF, 0xAB8F),
  (0x13C0, 0xAB90), (0x13C1, 0xAB91), (0x13C2, 0xAB92), (0x13C3, 0xAB93),
  (0x13C4, 0xAB94), (0x13C5, 0xAB95), (0x13C6, 0xAB96), (0x13C7, 0xAB97),
  (0x13C8, 0xAB98), (0x13C9, 0xAB99), (0x13CA, 0xAB9A), (0x13CB, 0xAB9B),
  (0x13CC, 0xAB9C), (0x13CD, 0xAB9D), (0x13CE, 0xAB9E), (0x13CF, 0xAB9F),
  (0x13D0, 0xABA0), (0x13D1, 0xABA1), (0x13D2, 0xABA2), (0x13D3, 0xABA3),
  (0x13D4, 0xABA4), (0x13D5, 0xABA5), (0x13D6, 0xABA6), (0x13D7, 0xABA7),
  (0x13D8, 0xABA8), (0x13D9, 0xABA9), (0x13DA, 0xABAA), (0x13DB, 0xABAB),
  (0x13DC, 0xABAC), (0x13DD, 0xABAD), (0x13DE, 0xABAE), (0x13DF, 0xABAF),
  (0x13E0, 0xABB0), (0x13E1, 0xABB1), (0x13E2, 0xABB2), (0x13E3, 0xABB3),
  (0x13E4, 0xABB4), (0x13E5, 0xABB5), (0x13E6, 0xABB6), (0x13E7, 0xABB7),
  (0x13E8, 0xABB8), (0x13E9, 0xABB9), (0x13EA, 0xABBA), (0x13EB, 0xABBB),
  (0x13EC, 0xABBC), (0x13ED, 0xABBD), (0x13EE, 0xABBE), (0x13EF, 0xABBF),
  (0x13F0, 0x13F8), (0x13F1, 0x13F9), (0x13F2, 0x13FA), (0x13F3, 0x13FB),
  (0x13F4, 0x13FC), (0x13F5, 0x13FD), (0x1C90, 0x10D0), (0x1C91, 0x10D1),
  (0x1C92, 0x10D2), (0x1C93, 0x10D3), (0x1C94, 0x10D4), (0x1C95, 0x10D5)
]

/-- Continuation of the lowercase mapping table. -/
def lowerTable4 : List (Nat × Nat) := [
  (0x1C96, 0x10D6), (0x1C97, 0x10D7), (0x1C98, 0x10D8), (0x1C99, 0x10D9),
  (0x1C9A, 0x10DA), (0x1C9B, 0x10DB), (0x1C9C, 0x10DC), (0x1C9D, 0x10DD),
  (0x1C9E, 0x10DE), (0x1C9F, 0x10DF), (0x1CA0, 0x10E0), (0x1CA1, 0x10E1),
  (0x1CA2, 0x10E2), (0x1CA3, 0x10E3), (0x1CA4, 0x10E4), (0x1CA5, 0x10E5),
  (0x1CA6, 0x10E6), (0x1CA7, 0x10E7), (0x1CA8, 0x10E8), (0x1CA9, 0x10E9),
  (0x1CAA, 0x10EA), (0x1CAB, 0x10EB), (0x1CAC, 0x10EC), (0x1CAD, 0x10ED),
  (0x1CAE, 0x10EE), (0x1CAF, 0x10EF), (0x1CB0, 0x10F0), (0x1CB1, 0x10F1),
  (0x1CB2, 0x10F2), (0x1CB3, 0x10F3), (0x1CB4, 0x10F4), (0x1CB5, 0x10F5),
  (0x1CB6, 0x10F6), (0x1CB7, 0x10F7), (0x1CB8, 0x10F8), (0x1CB9, 0x10F9),
  (0x1CBA, 0x10FA), (0x1CBD, 0x10FD), (0x1CBE, 0x10FE), (0x1CBF, 0x10FF),
  (0x1E00, 0x1E01), (0x1E02, 0x1E03), (0x1E04, 0x1E05), (0x1E06, 0x1E07),
  (0x1E08, 0x1E09), (0x1E0A, 0x1E0B), (0x1E0C, 0x1E0D), (0x1E0E, 0x1E0F),
  (0x1E10, 0x1E11), (0x1E12, 0x1E13), (0x1E14, 0x1E15), (0x1E16, 0x1E17),
  (0x1E18, 0x1E19), (0x1E1A, 0x1E1B), (0x1E1C, 0x1E1D), (0x1E1E, 0x1E1F),
  (0x1E20, 0x1E21), (0x1E22, 0x1E23), (0x1E24, 0x1E25), (0x1E26, 0x1E27),
  (0x1E28, 0x1E29), (0x1E2A, 0x1E2B), (0x1E2C, 0x1E2D), (0x1E2E, 0x1E2F),
  (0x1E30, 0x1E31), (0x1E32, 0x1E33), (0x1E34, 0x1E35), (0x1E36, 0x1E37),
  (0x1E38, 0x1E39), (0x1E3A, 0x1E3B), (0x1E3C, 0x1E3D), (0x1E3E, 0x1E3F),
  (0x1E40, 0x1E41), (0x1E42, 0x1E43), (0x1E44, 0x1E45), (0x1E46, 0x1E47),
  (0x1E48, 0x1E49), (0x1E4A, 0x1E4B), (0x1E4C, 0x1E4D), (0x1E4E, 0x1E4F),
  (0x1E50, 0x1E51), (0x1E52, 0x1E53), (0x1E54, 0x1E55), (0x1E56, 0x1E57),
  (0x1E58, 0x1E59), (0x1E5A, 0x1E5B), (0x1E5C, 0x1E5D), (0x1E5E, 0x1E5F),
  (0x1E60, 0x1E61), (0x1E62, 0x1E63), (0x1E64, 0x1E65), (0x1E66, 0x1E67),
  (0x1E68, 0x1E69), (0x1E6A, 0x1E6B), (0x1E6C, 0x1E6D), (0x1E6E, 0x1E6F),
  (0x1E70, 0x1E71), (0x1E72, 0x1E73), (0x1E74, 0x1E75), (0x1E76, 0x1E77),
  (0x1E78, 0x1E79), (0x1E7A, 0x1E7B), (0x1E7C, 0x1E7D), (0x1E7E, 0x1E7F),
  (0x1E80, 0x1E81), (0x1E82, 0x1E83), (0x1E84, 0x1E85), (0x1E86, 0x1E87),
  (0x1E88, 0x1E89), (0x1E8A, 0x1E8B), (0x1E8C, 0x1E8D), (0x1E8E, 0x1E8F),
  (0x1E90, 0x1E91), (0x1E92, 0x1E93), (0x1E94, 0x1E95), (0x1E9E, 0xDF),
  (0x1EA0, 0x1EA1), (0x1EA2, 0x1EA3), (0x1EA4, 0x1EA5), (0x1EA6, 0x1EA7),
  (0x1EA8, 0x1EA9), (0x1EAA, 0x1EAB), (0x1EAC, 0x1EAD), (0x1EAE, 0x1EAF),
  (0x1EB0, 0x1EB1), (0x1EB2, 0x1EB3), (0x1EB4, 0x1EB5), (0x1EB6, 0x1EB7),
  (0x1EB8, 0x1EB9), (0x1EBA, 0x1EBB), (0x1EBC, 0x1EBD), (0x1EBE, 0x1EBF),
  (0x1EC0, 0x1EC1), (0x1EC2, 0x1EC3), (0x1EC4, 0x1EC5), (0x1EC6, 0x1EC7),
  (0x1EC8, 0x1EC9), (0x1ECA, 0x1ECB), (0x1ECC, 0x1ECD), (0x1ECE, 0x1ECF),
  (0x1ED0, 0x1ED1), (0x1ED2, 0x1ED3), (0x1ED4, 0x1ED5), (0x1ED6, 0x1ED7),
  (0x1ED8, 0x1ED9), (0x1EDA, 0x1EDB), (0x1EDC, 0x1EDD), (0x1EDE, 0x1EDF),
  (0x1EE0, 0x1EE1), (0x1EE2, 0x1EE3), (0x1EE4, 0x1EE5), (0x1EE6, 0x1EE7),
  (0x1EE8, 0x1EE9), (0x1EEA, 0x1EEB), (0x1EEC, 0x1EED), (0x1EEE, 0x1EEF),
  (0x1EF0, 0x1EF1), (0x1EF2, 0x1EF3), (0x1EF4, 0x1EF5), (0x1EF6, 0x1EF7),
  (0x1EF8, 0x1EF9), (0x1EFA, 0x1EFB), (0x1EFC, 0x1EFD), (0x1EFE, 0x1EFF),
  (0x1F08, 0x1F00), (0x1F09, 0x1F01), (0x1F0A, 0x1F02), (0x1F0B, 0x1F03),
  (0x1F0C, 0x1F04), (0x1F0D, 0x1F05), (0x1F0E, 0x1F06), (0x1F0F, 0x1F07),
  (0x1F18, 0x1F10), (0x1F19, 0x1F11), (0x1F1A, 0x1F12), (0x1F1B, 0x1F13),
  (0x1F1C, 0x1F14), (0x1F1D, 0x1F15), (0x1F28, 0x1F20), (0x1F29, 0x1F21),
  (0x1F2A, 0x1F22), (0x1F2B, 0x1F23), (0x1F2C, 0x1F24), (0x1F2D, 0x1F25),
  (0x1F2E, 0x1F26), (0x1F2F, 0x1F27), (0x1F38, 0x1F30), (0x1F39, 0x1F31),
  (0x1F3A, 0x1F32), (0x1F3B, 0x1F33), (0x1F3C, 0x1F34), (0x1F3D, 0x1F35),
  (0x1F3E, 0x1F36), (0x1F3F, 0x1F37), (0x1F48, 0x1F40), (0x1F49, 0x1F41),
  (0x1F4A, 0x1F42), (0x1F4B, 0x1F43), (0x1F4C, 0x1F44), (0x1F4D, 0x1F45)
]

/-- Continuation of the lowercase mapping table. -/
def lowerTable5 : List (Nat × Nat) := [
  (0x1F59, 0x1F51), (0x1F5B, 0x1F53), (0x1F5D, 0x1F55), (0x1F5F, 0x1F57),
  (0x1F68, 0x1F60), (0x1F69, 0x1F61), (0x1F6A, 0x1F62), (0x1F6B, 0x1F63),
  (0x1F6C, 0x1F64), (0x1F6D, 0x1F65), (0x1F6E, 0x1F66), (0x1F6F, 0x1F67),
  (0x1F88, 0x1F80), (0x1F89, 0x1F81), (0x1F8A, 0x1F82), (0x1F8B, 0x1F83),
  (0x1F8C, 0x1F84), (0x1F8D, 0x1F85), (0x1F8E, 0x1F86), (0x1F8F, 0x1F87),
  (0x1F98, 0x1F90), (0x1F99, 0x1F91), (0x1F9A, 0x1F92), (0x1F9B, 0x1F93),
  (0x1F9C, 0x1F94), (0x1F9D, 0x1F95), (0x1F9E, 0x1F96), (0x1F9F, 0x1F97),
  (0x1FA8, 0x1FA0), (0x1FA9, 0x1FA1), (0x1FAA, 0x1FA2), (0x1FAB, 0x1FA3),
  (0x1FAC, 0x1FA4), (0x1FAD, 0x1FA5), (0x1FAE, 0x1FA6), (0x1FAF, 0x1FA7),
  (0x1FB8, 0x1FB0), (0x1FB9, 0x1FB1), (0x1FBA, 0x1F70), (0x1FBB, 0x1F71),
  (0x1FBC, 0x1FB3), (0x1FC8, 0x1F72), (0x1FC9, 0x1F73), (0x1FCA, 0x1F74),
  (0x1FCB, 0x1F75), (0x1FCC, 0x1FC3), (0x1FD8, 0x1FD0), (0x1FD9, 0x1FD1),
  (0x1FDA, 0x1F76), (0x1FDB, 0x1F77), (0x1FE8, 0x1FE0), (0x1FE9, 0x1FE1),
  (0x1FEA, 0x1F7A), (0x1FEB, 0x1F7B), (0x1FEC, 0x1FE5), (0x1FF8, 0x1F78),
  (0x1FF9, 0x1F79), (0x1FFA, 0x1F7C), (0x1FFB, 0x1F7D), (0x1FFC, 0x1FF3),
  (0x2126, 0x3C9), (0x212A, 0x6B), (0x212B, 0xE5), (0x2132, 0x214E),
  (0x2160, 0x2170), (0x2161, 0x2171), (0x2162, 0x2172), (0x2163, 0x2173),
  (0x2164, 0x2174), (0x2165, 0x2175), (0x2166, 0x2176), (0x2167, 0x2177),
  (0x2168, 0x2178), (0x2169, 0x2179), (0x216A, 0x217A), (0x216B, 0x217B),
  (0x216C, 0x217C), (0x216D, 0x217D), (0x216E, 0x217E), (0x216F, 0x217F),
  (0x2183, 0x2184), (0x24B6, 0x24D0), (0x24B7, 0x24D1), (0x24B8, 0x24D2),
  (0x24B9, 0x24D3), (0x24BA, 0x24D4), (0x24BB, 0x24D5), (0x24BC, 0x24D6),
  (0x24BD, 0x24D7), (0x24BE, 0x24D8), (0x24BF, 0x24D9), (0x24C0, 0x24DA),
  (0x24C1, 0x24DB), (0x24C2, 0x24DC), (0x24C3, 0x24DD), (0x24C4, 0x24DE),
  (0x24C5, 0x24DF), (0x24C6, 0x24E0), (0x24C7, 0x24E1), (0x24C8, 0x24E2),
  (0x24C9, 0x24E3), (0x24CA, 0x24E4), (0x24CB, 0x24E5), (0x24CC, 0x24E6),
  (0x24CD, 0x24E7), (0x24CE, 0x24E8), (0x24CF, 0x24E9), (0x2C00, 0x2C30),
  (0x2C01, 0x2C31), (0x2C02, 0x2C32), (0x2C03, 0x2C33), (0x2C04, 0x2C34),
  (0x2C05, 0x2C35), (0x2C06, 0x2C36), (0x2C07, 0x2C37), (0x2C08, 0x2C38),
  (0x2C09, 0x2C39), (0x2C0A, 0x2C3A), (0x2C0B, 0x2C3B), (0x2C0C, 0x2C3C),
  (0x2C0D, 0x2C3D), (0x2C0E, 0x2C3E), (0x2C0F, 0x2C3F), (0x2C10, 0x2C40),
  (0x2C11, 0x2C41), (0x2C12, 0x2C42), (0x2C13, 0x2C43), (0x2C14, 0x2C44),
  (0x2C15, 0x2C45), (0x2C16, 0x2C46), (0x2C17, 0x2C47), (0x2C18, 0x2C48),
  (0x2C19, 0x2C49), (0x2C1A, 0x2C4A), (0x2C1B, 0x2C4B), (0x2C1C, 0x2C4C),
  (0x2C1D, 0x2C4D), (0x2C1E, 0x2C4E), (0x2C1F, 0x2C4F), (0x2C20, 0x2C50),
  (0x2C21, 0x2C51), (0x2C22, 0x2C52), (0x2C23, 0x2C53), (0x2C24, 0x2C54),
  (0x2C25, 0x2C55), (0x2C26, 0x2C56), (0x2C27, 0x2C57), (0x2C28, 0x2C58),
  (0x2C29, 0x2C59), (0x2C2A, 0x2C5A), (0x2C2B, 0x2C5B), (0x2C2C, 0x2C5C),
  (0x2C2D, 0x2C5D), (0x2C2E, 0x2C5E), (0x2C2F, 0x2C5F), (0x2C60, 0x2C61),
  (0x2C62, 0x26B), (0x2C63, 0x1D7D), (0x2C64, 0x27D), (0x2C67, 0x2C68),
  (0x2C69, 0x2C6A), (0x2C6B, 0x2C6C), (0x2C6D, 0x251), (0x2C6E, 0x271),
  (0x2C6F, 0x250), (0x2C70, 0x252), (0x2C72, 0x2C73), (0x2C75, 0x2C76),
  (0x2C7E, 0x23F), (0x2C7F, 0x240), (0x2C80, 0x2C81), (0x2C82, 0x2C83),
  (0x2C84, 0x2C85), (0x2C86, 0x2C87), (0x2C88, 0x2C89), (0x2C8A, 0x2C8B),
  (0x2C8C, 0x2C8D), (0x2C8E, 0x2C8F), (0x2C90, 0x2C91), (0x2C92, 0x2C93),
  (0x2C94, 0x2C95), (0x2C96, 0x2C97), (0x2C98, 0x2C99), (0x2C9A, 0x2C9B),
  (0x2C9C, 0x2C9D), (0x2C9E, 0x2C9F), (0x2CA0, 0x2CA1), (0x2CA2, 0x2CA3),
  (0x2CA4, 0x2CA5), (0x2CA6, 0x2CA7), (0x2CA8, 0x2CA9), (0x2CAA, 0x2CAB),
  (0x2CAC, 0x2CAD), (0x2CAE, 0x2CAF), (0x2CB0, 0x2CB1), (0x2CB2, 0x2CB3),
  (0x2CB4, 0x2CB5), (0x2CB6, 0x2CB7), (0x2CB8, 0x2CB9), (0x2CBA, 0x2CBB)
]

/-- Continuation of the lowercase mapping table. -/
def lowerTable6 : List (Nat × Nat) := [
  (0x2CBC, 0x2CBD), (0x2CBE, 0x2CBF), (0x2CC0, 0x2CC1), (0x2CC2, 0x2CC3),
  (0x2CC4, 0x2CC5), (0x2CC6, 0x2CC7), (0x2CC8, 0x2CC9), (0x2CCA, 0x2CCB),
  (0x2CCC, 0x2CCD), (0x2CCE, 0x2CCF), (0x2CD0, 0x2CD1), (0x2CD2, 0x2CD3),
  (0x2CD4, 0x2CD5), (0x2CD6, 0x2CD7), (0x2CD8, 0x2CD9), (0x2CDA, 0x2CDB),
  (0x2CDC, 0x2CDD), (0x2CDE, 0x2CDF), (0x2CE0, 0x2CE1), (0x2CE2, 0x2CE3),
  (0x2CEB, 0x2CEC), (0x2CED, 0x2CEE), (0x2CF2, 0x2CF3), (0xA640, 0xA641),
  (0xA642, 0xA643), (0xA644, 0xA645), (0xA646, 0xA647), (0xA648, 0xA649),
  (0xA64A, 0xA64B), (0xA64C, 0xA64D), (0xA64E, 0xA64F), (0xA650, 0xA651),
  (0xA652, 0xA653), (0xA654, 0xA655), (0xA656, 0xA657), (0xA658, 0xA659),
  (0xA65A, 0xA65B), (0xA65C, 0xA65D), (0xA65E, 0xA65F), (0xA660, 0xA661),
  (0xA662, 0xA663), (0xA664, 0xA665), (0xA666, 0xA667), (0xA668, 0xA669),
  (0xA66A, 0xA66B), (0xA66C, 0xA66D), (0xA680, 0xA681), (0xA682, 0xA683),
  (0xA684, 0xA685), (0xA686, 0xA687), (0xA688, 0xA689), (0xA68A, 0xA68B),
  (0xA68C, 0xA68D), (0xA68E, 0xA68F), (0xA690, 0xA691), (0xA692, 0xA693),
  (0xA694, 0xA695), (0xA696, 0xA697), (0xA698, 0xA699), (0xA69A, 0xA69B),
  (0xA722, 0xA723), (0xA724, 0xA725), (0xA726, 0xA727), (0xA728, 0xA729),
  (0xA72A, 0xA72B), (0xA72C, 0xA72D), (0xA72E, 0xA72F), (0xA732, 0xA733),
  (0xA734, 0xA735), (0xA736, 0xA737), (0xA738, 0xA739), (0xA73A, 0xA73B),
  (0xA73C, 0xA73D), (0xA73E, 0xA73F), (0xA740, 0xA741), (0xA742, 0xA743),
  (0xA744, 0xA745), (0xA746, 0xA747), (0xA748, 0xA749), (0xA74A, 0xA74B),
  (0xA74C, 0xA74D), (0xA74E, 0xA74F), (0xA750, 0xA751), (0xA752, 0xA753),
  (0xA754, 0xA755), (0xA756, 0xA757), (0xA758, 0xA759), (0xA75A, 0xA75B),
  (0xA75C, 0xA75D), (0xA75E, 0xA75F), (0xA760, 0xA761), (0xA762, 0xA763),
  (0xA764, 0xA765), (0xA766, 0xA767), (0xA768, 0xA769), (0xA76A, 0xA76B),
  (0xA76C, 0xA76D), (0xA76E, 0xA76F), (0xA779, 0xA77A), (0xA77B, 0xA77C),
  (0xA77D, 0x1D79), (0xA77E, 0xA77F), (0xA780, 0xA781), (0xA782, 0xA783),
  (0xA784, 0xA785), (0xA786, 0xA787), (0xA78B, 0xA78C), (0xA78D, 0x265),
  (0xA790, 0xA791), (0xA792, 0xA793), (0xA796, 0xA797), (0xA798, 0xA799),
  (0xA79A, 0xA79B), (0xA79C, 0xA79D), (0xA79E, 0xA79F), (0xA7A0, 0xA7A1),
  (0xA7A2, 0xA7A3), (0xA7A4, 0xA7A5), (0xA7A6, 0xA7A7), (0xA7A8, 0xA7A9),
  (0xA7AA, 0x266), (0xA7AB, 0x25C), (0xA7AC, 0x261), (0xA7AD, 0x26C),
  (0xA7AE, 0x26A), (0xA7B0, 0x29E), (0xA7B1, 0x287), (0xA7B2, 0x29D),
  (0xA7B3, 0xAB53), (0xA7B4, 0xA7B5), (0xA7B6, 0xA7B7), (0xA7B8, 0xA7B9),
  (0xA7BA, 0xA7BB), (0xA7BC, 0xA7BD), (0xA7BE, 0xA7BF), (0xA7C0, 0xA7C1),
  (0xA7C2, 0xA7C3), (0xA7C4, 0xA794), (0xA7C5, 0x282), (0xA7C6, 0x1D8E),
  (0xA7C7, 0xA7C8), (0xA7C9, 0xA7CA), (0xA7D0, 0xA7D1), (0xA7D6, 0xA7D7),
  (0xA7D8, 0xA7D9), (0xA7F5, 0xA7F6), (0xFF21, 0xFF41), (0xFF22, 0xFF42),
  (0xFF23, 0xFF43), (0xFF24, 0xFF44), (0xFF25, 0xFF45), (0xFF26, 0xFF46),
  (0xFF27, 0xFF47), (0xFF28, 0xFF48), (0xFF29, 0xFF49), (0xFF2A, 0xFF4A),
  (0xFF2B, 0xFF4B), (0xFF2C, 0xFF4C), (0xFF2D, 0xFF4D), (0xFF2E, 0xFF4E),
  (0xFF2F, 0xFF4F), (0xFF30, 0xFF50), (0xFF31, 0xFF51), (0xFF32, 0xFF52),
  (0xFF33, 0xFF53), (0xFF34, 0xFF54), (0xFF35, 0xFF55), (0xFF36, 0xFF56),
  (0xFF37, 0xFF57), (0xFF38, 0xFF58), (0xFF39, 0xFF59), (0xFF3A, 0xFF5A),
  (0x10400, 0x10428), (0x10401, 0x10429), (0x10402, 0x1042A), (0x10403, 0x1042B),
  (0x10404, 0x1042C), (0x10405, 0x1042D), (0x10406, 0x1042E), (0x10407, 0x1042F),
  (0x10408, 0x10430), (0x10409, 0x10431), (0x1040A, 0x10432), (0x1040B, 0x10433),
  (0x1040C, 0x10434), (0x1040D, 0x10435), (0x1040E, 0x10436), (0x1040F, 0x10437),
  (0x10410, 0x10438), (0x10411, 0x10439), (0x10412, 0x1043A), (0x10413, 0x1043B),
  (0x10414, 0x1043C), (0x10415, 0x1043D), (0x10416, 0x1043E), (0x10417, 0x1043F),
  (0x10418, 0x10440), (0x10419, 0x10441), (0x1041A, 0x10442), (0x1041B, 0x10443)
]

/-- Continuation of the lowercase mapping table. -/
def lowerTable7 : List (Nat × Nat) := [
  (0x1041C, 0x10444), (0x1041D, 0x10445), (0x1041E, 0x10446), (0x1041F, 0x10447),
  (0x10420, 0x10448), (0x10421, 0x10449), (0x10422, 0x1044A), (0x10423, 0x1044B),
  (0x10424, 0x1044C), (0x10425, 0x1044D), (0x10426, 0x1044E), (0x10427, 0x1044F),
  (0x104B0, 0x104D8), (0x104B1, 0x104D9), (0x104B2, 0x104DA), (0x104B3, 0x104DB),
  (0x104B4, 0x104DC), (0x104B5, 0x104DD), (0x104B6, 0x104DE), (0x104B7, 0x104DF),
  (0x104B8, 0x104E0), (0x104B9, 0x104E1), (0x104BA, 0x104E2), (0x104BB, 0x104E3),
  (0x104BC, 0x104E4), (0x104BD, 0x104E5), (0x104BE, 0x104E6), (0x104BF, 0x104E7),
  (0x104C0, 0x104E8), (0x104C1, 0x104E9), (0x104C2, 0x104EA), (0x104C3, 0x104EB),
  (0x104C4, 0x104EC), (0x104C5, 0x104ED), (0x104C6, 0x104EE), (0x104C7, 0x104EF),
  (0x104C8, 0x104F0), (0x104C9, 0x104F1), (0x104CA, 0x104F2), (0x104CB, 0x104F3),
  (0x104CC, 0x104F4), (0x104CD, 0x104F5), (0x104CE, 0x104F6), (0x104CF, 0x104F7),
  (0x104D0, 0x104F8), (0x104D1, 0x104F9), (0x104D2, 0x104FA), (0x104D3, 0x104FB),
  (0x10570, 0x10597), (0x10571, 0x10598), (0x10572, 0x10599), (0x10573, 0x1059A),
  (0x10574, 0x1059B), (0x10575, 0x1059C), (0x10576, 0x1059D), (0x10577, 0x1059E),
  (0x10578, 0x1059F), (0x10579, 0x105A0), (0x1057A, 0x105A1), (0x1057C, 0x105A3),
  (0x1057D, 0x105A4), (0x1057E, 0x105A5), (0x1057F, 0x105A6), (0x10580, 0x105A7),
  (0x10581, 0x105A8), (0x10582, 0x105A9), (0x10583, 0x105AA), (0x10584, 0x105AB),
  (0x10585, 0x105AC), (0x10586, 0x105AD), (0x10587, 0x105AE), (0x10588, 0x105AF),
  (0x10589, 0x105B0), (0x1058A, 0x105B1), (0x1058C, 0x105B3), (0x1058D, 0x105B4),
  (0x1058E, 0x105B5), (0x1058F, 0x105B6), (0x10590, 0x105B7), (0x10591, 0x105B8),
  (0x10592, 0x105B9), (0x10594, 0x105BB), (0x10595, 0x105BC), (0x10C80, 0x10CC0),
  (0x10C81, 0x10CC1), (0x10C82, 0x10CC2), (0x10C83, 0x10CC3), (0x10C84, 0x10CC4),
  (0x10C85, 0x10CC5), (0x10C86, 0x10CC6), (0x10C87, 0x10CC7), (0x10C88, 0x10CC8),
  (0x10C89, 0x10CC9), (0x10C8A, 0x10CCA), (0x10C8B, 0x10CCB), (0x10C8C, 0x10CCC),
  (0x10C8D, 0x10CCD), (0x10C8E, 0x10CCE), (0x10C8F, 0x10CCF), (0x10C90, 0x10CD0),
  (0x10C91, 0x10CD1), (0x10C92, 0x10CD2), (0x10C93, 0x10CD3), (0x10C94, 0x10CD4),
  (0x10C95, 0x10CD5), (0x10C96, 0x10CD6), (0x10C97, 0x10CD7), (0x10C98, 0x10CD8),
  (0x10C99, 0x10CD9), (0x10C9A, 0x10CDA), (0x10C9B, 0x10CDB), (0x10C9C, 0x10CDC),
  (0x10C9D, 0x10CDD), (0x10C9E, 0x10CDE), (0x10C9F, 0x10CDF), (0x10CA0, 0x10CE0),
  (0x10CA1, 0x10CE1), (0x10CA2, 0x10CE2), (0x10CA3, 0x10CE3), (0x10CA4, 0x10CE4),
  (0x10CA5, 0x10CE5), (0x10CA6, 0x10CE6), (0x10CA7, 0x10CE7), (0x10CA8, 0x10CE8),
  (0x10CA9, 0x10CE9), (0x10CAA, 0x10CEA), (0x10CAB, 0x10CEB), (0x10CAC, 0x10CEC),
  (0x10CAD, 0x10CED), (0x10CAE, 0x10CEE), (0x10CAF, 0x10CEF), (0x10CB0, 0x10CF0),
  (0x10CB1, 0x10CF1), (0x10CB2, 0x10CF2), (0x118A0, 0x118C0), (0x118A1, 0x118C1),
  (0x118A2, 0x118C2), (0x118A3, 0x118C3), (0x118A4, 0x118C4), (0x118A5, 0x118C5),
  (0x118A6, 0x118C6), (0x118A7, 0x118C7), (0x118A8, 0x118C8), (0x118A9, 0x118C9),
  (0x118AA, 0x118CA), (0x118AB, 0x118CB), (0x118AC, 0x118CC), (0x118AD, 0x118CD),
  (0x118AE, 0x118CE), (0x118AF, 0x118CF), (0x118B0, 0x118D0), (0x118B1, 0x118D1),
  (0x118B2, 0x118D2), (0x118B3, 0x118D3), (0x118B4, 0x118D4), (0x118B5, 0x118D5),
  (0x118B6, 0x118D6), (0x118B7, 0x118D7), (0x118B8, 0x118D8), (0x118B9, 0x118D9),
  (0x118BA, 0x118DA), (0x118BB, 0x118DB), (0x118BC, 0x118DC), (0x118BD, 0x118DD),
  (0x118BE, 0x118DE), (0x118BF, 0x118DF), (0x16E40, 0x16E60), (0x16E41, 0x16E61),
  (0x16E42, 0x16E62), (0x16E43, 0x16E63), (0x16E44, 0x16E64), (0x16E45, 0x16E65),
  (0x16E46, 0x16E66), (0x16E47, 0x16E67), (0x16E48, 0x16E68), (0x16E49, 0x16E69),
  (0x16E4A, 0x16E6A), (0x16E4B, 0x16E6B), (0x16E4C, 0x16E6C), (0x16E4D, 0x16E6D),
  (0x16E4E, 0x16E6E), (0x16E4F, 0x16E6F), (0x16E50, 0x16E70), (0x16E51, 0x16E71),
  (0x16E52, 0x16E72), (0x16E53, 0x16E73), (0x16E54, 0x16E74), (0x16E55, 0x16E75),
  (0x16E56, 0x16E76), (0x16E57, 0x16E77), (0x16E58, 0x16E78), (0x16E59, 0x16E79),
  (0x16E5A, 0x16E7A), (0x16E5B, 0x16E7B), (0x16E5C, 0x16E7C), (0x16E5D, 0x16E7D),
  (0x16E5E, 0x16E7E), (0x16E5F, 0x16E7F), (0x1E900, 0x1E922), (0x1E901, 0x1E923)
]

/-- Continuation of the lowercase mapping table. -/
def lowerTable8 : List (Nat × Nat) := [
  (0x1E902, 0x1E924), (0x1E903, 0x1E925), (0x1E904, 0x1E926), (0x1E905, 0x1E927),
  (0x1E906, 0x1E928), (0x1E907, 0x1E929), (0x1E908, 0x1E92A), (0x1E909, 0x1E92B),
  (0x1E90A, 0x1E92C), (0x1E90B, 0x1E92D), (0x1E90C, 0x1E92E), (0x1E90D, 0x1E92F),
  (0x1E90E, 0x1E930), (0x1E90F, 0x1E931), (0x1E910, 0x1E932), (0x1E911, 0x1E933),
  (0x1E912, 0x1E934), (0x1E913, 0x1E935), (0x1E914, 0x1E936), (0x1E915, 0x1E937),
  (0x1E916, 0x1E938), (0x1E917, 0x1E939), (0x1E918, 0x1E93A), (0x1E919, 0x1E93B),
  (0x1E91A, 0x1E93C), (0x1E91B, 0x1E93D), (0x1E91C, 0x1E93E), (0x1E91D, 0x1E93F),
  (0x1E91E, 0x1E940), (0x1E91F, 0x1E941), (0x1E920, 0x1E942), (0x1E921, 0x1E943)
]

/-- The full lowercase mapping table. -/
def lowerTable : List (Nat × Nat) :=
  lowerTable1 ++ lowerTable2 ++ lowerTable3 ++ lowerTable4 ++ lowerTable5 ++ lowerTable6 ++ lowerTable7 ++ lowerTable8

/-- The code-point ranges of the Unicode `Cased` property, used by
the `Final_Sigma` context rule of `str::to_lowercase`. -/
def casedRanges : List (Nat × Nat) := [
  (0x41, 0x5A), (0x61, 0x7A), (0xAA, 0xAA), (0xB5, 0xB5), (0xBA, 0xBA),
  (0xC0, 0xD6), (0xD8, 0xF6), (0xF8, 0x1BA), (0x1BC, 0x1BF), (0x1C4, 0x293),
  (0x295, 0x2AF), (0x370, 0x373), (0x376, 0x377), (0x37B, 0x37D), (0x37F, 0x37F),
  (0x386, 0x386), (0x388, 0x38A), (0x38C, 0x38C), (0x38E, 0x3A1), (0x3A3, 0x3F5),
  (0x3F7, 0x481), (0x48A, 0x52F), (0x531, 0x556), (0x560, 0x588), (0x10A0, 0x10C5),
  (0x10C7, 0x10C7), (0x10CD, 0x10CD), (0x10D0, 0x10FA), (0x10FD, 0x10FF), (0x13A0, 0x13F5),
  (0x13F8, 0x13FD), (0x1C80, 0x1C88), (0x1C90, 0x1CBA), (0x1CBD, 0x1CBF), (0x1D00, 0x1D2B),
  (0x1D6B, 0x1D77), (0x1D79, 0x1D9A), (0x1E00, 0x1F15), (0x1F18, 0x1F1D), (0x1F20, 0x1F45),
  (0x1F48, 0x1F4D), (0x1F50, 0x1F57), (0x1F59, 0x1F59), (0x1F5B, 0x1F5B), (0x1F5D, 0x1F5D),
  (0x1F5F, 0x1F7D), (0x1F80, 0x1FB4), (0x1FB6, 0x1FBC), (0x1FBE, 0x1FBE), (0x1FC2, 0x1FC4),
  (0x1FC6, 0x1FCC), (0x1FD0, 0x1FD3), (0x1FD6, 0x1FDB), (0x1FE0, 0x1FEC), (0x1FF2, 0x1FF4),
  (0x1FF6, 0x1FFC), (0x2102, 0x2102), (0x2107, 0x2107), (0x210A, 0x2113), (0x2115, 0x2115),
  (0x2119, 0x211D), (0x2124, 0x2124), (0x2126, 0x2126), (0x2128, 0x2128), (0x212A, 0x212D),
  (0x212F, 0x2134), (0x2139, 0x2139), (0x213C, 0x213F), (0x2145, 0x2149), (0x214E, 0x214E),
  (0x2160, 0x217F), (0x2183, 0x2184), (0x24B6, 0x24E9), (0x2C00, 0x2C7B), (0x2C7E, 0x2CE4),
  (0x2CEB, 0x2CEE), (0x2CF2, 0x2CF3), (0x2D00, 0x2D25), (0x2D27, 0x2D27), (0x2D2D, 0x2D2D),
  (0xA640, 0xA66D), (0xA680, 0xA69B), (0xA722, 0xA76F), (0xA771, 0xA787), (0xA78B, 0xA78E),
  (0xA790, 0xA7CA), (0xA7D0, 0xA7D1), (0xA7D3, 0xA7D3), (0xA7D5, 0xA7D9), (0xA7F5, 0xA7F6),
  (0xA7FA, 0xA7FA), (0xAB30, 0xAB5A), (0xAB60, 0xAB68), (0xAB70, 0xABBF), (0xFB00, 0xFB06),
  (0xFB13, 0xFB17), (0xFF21, 0xFF3A), (0xFF41, 0xFF5A), (0x10400, 0x1044F), (0x104B0, 0x104D3),
  (0x104D8, 0x104FB), (0x10570, 0x1057A), (0x1057C, 0x1058A), (0x1058C, 0x10592), (0x10594, 0x10595),
  (0x10597, 0x105A1), (0x105A3, 0x105B1), (0x105B3, 0x105B9), (0x105BB, 0x105BC), (0x10C80, 0x10CB2),
  (0x10CC0, 0x10CF2), (0x118A0, 0x118DF), (0x16E40, 0x16E7F), (0x1D400, 0x1D454), (0x1D456, 0x1D49C),
  (0x1D49E, 0x1D49F), (0x1D4A2, 0x1D4A2), (0x1D4A5, 0x1D4A6), (0x1D4A9, 0x1D4AC), (0x1D4AE, 0x1D4B9),
  (0x1D4BB, 0x1D4BB), (0x1D4BD, 0x1D4C3), (0x1D4C5, 0x1D505), (0x1D507, 0x1D50A), (0x1D50D, 0x1D514),
  (0x1D516, 0x1D51C), (0x1D51E, 0x1D539), (0x1D53B, 0x1D53E), (0x1D540, 0x1D544), (0x1D546, 0x1D546),
  (0x1D54A, 0x1D550), (0x1D552, 0x1D6A5), (0x1D6A8, 0x1D6C0), (0x1D6C2, 0x1D6DA), (0x1D6DC, 0x1D6FA),
  (0x1D6FC, 0x1D714), (0x1D716, 0x1D734), (0x1D736, 0x1D74E), (0x1D750, 0x1D76E), (0x1D770, 0x1D788),
  (0x1D78A, 0x1D7A8), (0x1D7AA, 0x1D7C2), (0x1D7C4, 0x1D7CB), (0x1DF00, 0x1DF09), (0x1DF0B, 0x1DF1E),
  (0x1E900, 0x1E943), (0x1F130, 0x1F149), (0x1F150, 0x1F169), (0x1F170, 0x1F189)
]

/-- The code-point ranges of the Unicode `Case_Ignorable` property,
used by the `Final_Sigma` context rule of `str::to_lowercase`. -/
def caseIgnorableRanges1 : List (Nat × Nat) := [
  (0x27, 0x27), (0x2E, 0x2E), (0x3A, 0x3A), (0x5E, 0x5E), (0x60, 0x60),
  (0xA8, 0xA8), (0xAD, 0xAD), (0xAF, 0xAF), (0xB4, 0xB4), (0xB7, 0xB8),
  (0x2B0, 0x36F), (0x374, 0x375), (0x37A, 0x37A), (0x384, 0x385), (0x387, 0x387),
  (0x483, 0x489), (0x559, 0x559), (0x55F, 0x55F), (0x591, 0x5BD), (0x5BF, 0x5BF),
  (0x5C1, 0x5C2), (0x5C4, 0x5C5), (0x5C7, 0x5C7), (0x5F4, 0x5F4), (0x600, 0x605),
  (0x610, 0x61A), (0x61C, 0x61C), (0x640, 0x640), (0x64B, 0x65F), (0x670, 0x670),
  (0x6D6, 0x6DD), (0x6DF, 0x6E8), (0x6EA, 0x6ED), (0x70F, 0x70F), (0x711, 0x711),
  (0x730, 0x74A), (0x7A6, 0x7B0), (0x7EB, 0x7F5), (0x7FA, 0x7FA), (0x7FD, 0x7FD),
  (0x816, 0x82D), (0x859, 0x85B), (0x888, 0x888), (0x890, 0x891), (0x898, 0x89F),
  (0x8C9, 0x902), (0x93A, 0x93A), (0x93C, 0x93C), (0x941, 0x948), (0x94D, 0x94D),
  (0x951, 0x957), (0x962, 0x963), (0x971, 0x971), (0x981, 0x981), (0x9BC, 0x9BC),
  (0x9C1, 0x9C4), (0x9CD, 0x9CD), (0x9E2, 0x9E3), (0x9FE, 0x9FE), (0xA01, 0xA02),
  (0xA3C, 0xA3C), (0xA41, 0xA42), (0xA47, 0xA48), (0xA4B, 0xA4D), (0xA51, 0xA51),
  (0xA70, 0xA71), (0xA75, 0xA75), (0xA81, 0xA82), (0xABC, 0xABC), (0xAC1, 0xAC5),
  (0xAC7, 0xAC8), (0xACD, 0xACD), (0xAE2, 0xAE3), (0xAFA, 0xAFF), (0xB01, 0xB01),
  (0xB3C, 0xB3C), (0xB3F, 0xB3F), (0xB41, 0xB44), (0xB4D, 0xB4D), (0xB55, 0xB56),
  (0xB62, 0xB63), (0xB82, 0xB82), (0xBC0, 0xBC0), (0xBCD, 0xBCD), (0xC00, 0xC00),
  (0xC04, 0xC04), (0xC3C, 0xC3C), (0xC3E, 0xC40), (0xC46, 0xC48), (0xC4A, 0xC4D),
  (0xC55, 0xC56), (0xC62, 0xC63), (0xC81, 0xC81), (0xCBC, 0xCBC), (0xCBF, 0xCBF),
  (0xCC6, 0xCC6), (0xCCC, 0xCCD), (0xCE2, 0xCE3), (0xD00, 0xD01), (0xD3B, 0xD3C),
  (0xD41, 0xD44), (0xD4D, 0xD4D), (0xD62, 0xD63), (0xD81, 0xD81), (0xDCA, 0xDCA),
  (0xDD2, 0xDD4), (0xDD6, 0xDD6), (0xE31, 0xE31), (0xE34, 0xE3A), (0xE46, 0xE4E),
  (0xEB1, 0xEB1), (0xEB4, 0xEBC), (0xEC6, 0xEC6), (0xEC8, 0xECD), (0xF18, 0xF19),
  (0xF35, 0xF35), (0xF37, 0xF37), (0xF39, 0xF39), (0xF71, 0xF7E), (0xF80, 0xF84),
  (0xF86, 0xF87), (0xF8D, 0xF97), (0xF99, 0xFBC), (0xFC6, 0xFC6), (0x102D, 0x1030),
  (0x1032, 0x1037), (0x1039, 0x103A), (0x103D, 0x103E), (0x1058, 0x1059), (0x105E, 0x1060),
  (0x1071, 0x1074), (0x1082, 0x1082), (0x1085, 0x1086), (0x108D, 0x108D), (0x109D, 0x109D),
  (0x10FC, 0x10FC), (0x135D, 0x135F), (0x1712, 0x1714), (0x1732, 0x1733), (0x1752, 0x1753),
  (0x1772, 0x1773), (0x17B4, 0x17B5), (0x17B7, 0x17BD), (0x17C6, 0x17C6), (0x17C9, 0x17D3),
  (0x17D7, 0x17D7), (0x17DD, 0x17DD), (0x180B, 0x180F), (0x1843, 0x1843), (0x1885, 0x1886),
  (0x18A9, 0x18A9), (0x1920, 0x1922), (0x1927, 0x1928), (0x1932, 0x1932), (0x1939, 0x193B),
  (0x1A17, 0x1A18), (0x1A1B, 0x1A1B), (0x1A56, 0x1A56), (0x1A58, 0x1A5E), (0x1A60, 0x1A60),
  (0x1A62, 0x1A62), (0x1A65, 0x1A6C), (0x1A73, 0x1A7C), (0x1A7F, 0x1A7F), (0x1AA7, 0x1AA7),
  (0x1AB0, 0x1ACE), (0x1B00, 0x1B03), (0x1B34, 0x1B34), (0x1B36, 0x1B3A), (0x1B3C, 0x1B3C),
  (0x1B42, 0x1B42), (0x1B6B, 0x1B73), (0x1B80, 0x1B81), (0x1BA2, 0x1BA5), (0x1BA8, 0x1BA9),
  (0x1BAB, 0x1BAD), (0x1BE6, 0x1BE6), (0x1BE8, 0x1BE9), (0x1BED, 0x1BED), (0x1BEF, 0x1BF1),
  (0x1C2C, 0x1C33), (0x1C36, 0x1C37), (0x1C78, 0x1C7D), (0x1CD0, 0x1CD2), (0x1CD4, 0x1CE0),
  (0x1CE2, 0x1CE8), (0x1CED, 0x1CED), (0x1CF4, 0x1CF4), (0x1CF8, 0x1CF9), (0x1D2C, 0x1D6A),
  (0x1D78, 0x1D78), (0x1D9B, 0x1DFF), (0x1FBD, 0x1FBD), (0x1FBF, 0x1FC1), (0x1FCD, 0x1FCF),
  (0x1FDD, 0x1FDF), (0x1FED, 0x1FEF), (0x1FFD, 0x1FFE), (0x200B, 0x200F), (0x2018, 0x2019)
]

/-- Continuation of the `Case_Ignorable` ranges. -/
def caseIgnorableRanges2 : List (Nat × Nat) := [
  (0x2024, 0x2024), (0x2027, 0x2027), (0x202A, 0x202E), (0x2060, 0x2064), (0x2066, 0x206F),
  (0x2071, 0x2071), (0x207F, 0x207F), (0x2090, 0x209C), (0x20D0, 0x20F0), (0x2C7C, 0x2C7D),
  (0x2CEF, 0x2CF1), (0x2D6F, 0x2D6F), (0x2D7F, 0x2D7F), (0x2DE0, 0x2DFF), (0x2E2F, 0x2E2F),
  (0x3005, 0x3005), (0x302A, 0x302D), (0x3031, 0x3035), (0x303B, 0x303B), (0x3099, 0x309E),
  (0x30FC, 0x30FE), (0xA015, 0xA015), (0xA4F8, 0xA4FD), (0xA60C, 0xA60C), (0xA66F, 0xA672),
  (0xA674, 0xA67D), (0xA67F, 0xA67F), (0xA69C, 0xA69F), (0xA6F0, 0xA6F1), (0xA700, 0xA721),
  (0xA770, 0xA770), (0xA788, 0xA78A), (0xA7F2, 0xA7F4), (0xA7F8, 0xA7F9), (0xA802, 0xA802),
  (0xA806, 0xA806), (0xA80B, 0xA80B), (0xA825, 0xA826), (0xA82C, 0xA82C), (0xA8C4, 0xA8C5),
  (0xA8E0, 0xA8F1), (0xA8FF, 0xA8FF), (0xA926, 0xA92D), (0xA947, 0xA951), (0xA980, 0xA982),
  (0xA9B3, 0xA9B3), (0xA9B6, 0xA9B9), (0xA9BC, 0xA9BD), (0xA9CF, 0xA9CF), (0xA9E5, 0xA9E6),
  (0xAA29, 0xAA2E), (0xAA31, 0xAA32), (0xAA35, 0xAA36), (0xAA43, 0xAA43), (0xAA4C, 0xAA4C),
  (0xAA70, 0xAA70), (0xAA7C, 0xAA7C), (0xAAB0, 0xAAB0), (0xAAB2, 0xAAB4), (0xAAB7, 0xAAB8),
  (0xAABE, 0xAABF), (0xAAC1, 0xAAC1), (0xAADD, 0xAADD), (0xAAEC, 0xAAED), (0xAAF3, 0xAAF4),
  (0xAAF6, 0xAAF6), (0xAB5B, 0xAB5F), (0xAB69, 0xAB6B), (0xABE5, 0xABE5), (0xABE8, 0xABE8),
  (0xABED, 0xABED), (0xFB1E, 0xFB1E), (0xFBB2, 0xFBC2), (0xFE00, 0xFE0F), (0xFE13, 0xFE13),
  (0xFE20, 0xFE2F), (0xFE52, 0xFE52), (0xFE55, 0xFE55), (0xFEFF, 0xFEFF), (0xFF07, 0xFF07),
  (0xFF0E, 0xFF0E), (0xFF1A, 0xFF1A), (0xFF3E, 0xFF3E), (0xFF40, 0xFF40), (0xFF70, 0xFF70),
  (0xFF9E, 0xFF9F), (0xFFE3, 0xFFE3), (0xFFF9, 0xFFFB), (0x101FD, 0x101FD), (0x102E0, 0x102E0),
  (0x10376, 0x1037A), (0x10780, 0x10785), (0x10787, 0x107B0), (0x107B2, 0x107BA), (0x10A01, 0x10A03),
  (0x10A05, 0x10A06), (0x10A0C, 0x10A0F), (0x10A38, 0x10A3A), (0x10A3F, 0x10A3F), (0x10AE5, 0x10AE6),
  (0x10D24, 0x10D27), (0x10EAB, 0x10EAC), (0x10F46, 0x10F50), (0x10F82, 0x10F85), (0x11001, 0x11001),
  (0x11038, 0x11046), (0x11070, 0x11070), (0x11073, 0x11074), (0x1107F, 0x11081), (0x110B3, 0x110B6),
  (0x110B9, 0x110BA), (0x110BD, 0x110BD), (0x110C2, 0x110C2), (0x110CD, 0x110CD), (0x11100, 0x11102),
  (0x11127, 0x1112B), (0x1112D, 0x11134), (0x11173, 0x11173), (0x11180, 0x11181), (0x111B6, 0x111BE),
  (0x111C9, 0x111CC), (0x111CF, 0x111CF), (0x1122F, 0x11231), (0x11234, 0x11234), (0x11236, 0x11237),
  (0x1123E, 0x1123E), (0x112DF, 0x112DF), (0x112E3, 0x112EA), (0x11300, 0x11301), (0x1133B, 0x1133C),
  (0x11340, 0x11340), (0x11366, 0x1136C), (0x11370, 0x11374), (0x11438, 0x1143F), (0x11442, 0x11444),
  (0x11446, 0x11446), (0x1145E, 0x1145E), (0x114B3, 0x114B8), (0x114BA, 0x114BA), (0x114BF, 0x114C0),
  (0x114C2, 0x114C3), (0x115B2, 0x115B5), (0x115BC, 0x115BD), (0x115BF, 0x115C0), (0x115DC, 0x115DD),
  (0x11633, 0x1163A), (0x1163D, 0x1163D), (0x1163F, 0x11640), (0x116AB, 0x116AB), (0x116AD, 0x116AD),
  (0x116B0, 0x116B5), (0x116B7, 0x116B7), (0x1171D, 0x1171F), (0x11722, 0x11725), (0x11727, 0x1172B),
  (0x1182F, 0x11837), (0x11839, 0x1183A), (0x1193B, 0x1193C), (0x1193E, 0x1193E), (0x11943, 0x11943),
  (0x119D4, 0x119D7), (0x119DA, 0x119DB), (0x119E0, 0x119E0), (0x11A01, 0x11A0A), (0x11A33, 0x11A38),
  (0x11A3B, 0x11A3E), (0x11A47, 0x11A47), (0x11A51, 0x11A56), (0x11A59, 0x11A5B), (0x11A8A, 0x11A96),
  (0x11A98, 0x11A99), (0x11C30, 0x11C36), (0x11C38, 0x11C3D), (0x11C3F, 0x11C3F), (0x11C92, 0x11CA7),
  (0x11CAA, 0x11CB0), (0x11CB2, 0x11CB3), (0x11CB5, 0x11CB6), (0x11D31, 0x11D36), (0x11D3A, 0x11D3A),
  (0x11D3C, 0x11D3D), (0x11D3F, 0x11D45), (0x11D47, 0x11D47), (0x11D90, 0x11D91), (0x11D95, 0x11D95),
  (0x11D97, 0x11D97), (0x11EF3, 0x11EF4), (0x13430, 0x13438), (0x16AF0, 0x16AF4), (0x16B30, 0x16B36),
  (0x16B40, 0x16B43), (0x16F4F, 0x16F4F), (0x16F8F, 0x16F9F), (0x16FE0, 0x16FE1), (0x16FE3, 0x16FE4),
  (0x1AFF0, 0x1AFF3), (0x1AFF5, 0x1AFFB), (0x1AFFD, 0x1AFFE), (0x1BC9D, 0x1BC9E), (0x1BCA0, 0x1BCA3)
]

/-- Continuation of the `Case_Ignorable` ranges. -/
def caseIgnorableRanges3 : List (Nat × Nat) := [
  (0x1CF00, 0x1CF2D), (0x1CF30, 0x1CF46), (0x1D167, 0x1D169), (0x1D173, 0x1D182), (0x1D185, 0x1D18B),
  (0x1D1AA, 0x1D1AD), (0x1D242, 0x1D244), (0x1DA00, 0x1DA36), (0x1DA3B, 0x1DA6C), (0x1DA75, 0x1DA75),
  (0x1DA84, 0x1DA84), (0x1DA9B, 0x1DA9F), (0x1DAA1, 0x1DAAF), (0x1E000, 0x1E006), (0x1E008, 0x1E018),
  (0x1E01B, 0x1E021), (0x1E023, 0x1E024), (0x1E026, 0x1E02A), (0x1E130, 0x1E13D), (0x1E2AE, 0x1E2AE),
  (0x1E2EC, 0x1E2EF), (0x1E8D0, 0x1E8D6), (0x1E944, 0x1E94B), (0x1F3FB, 0x1F3FF), (0xE0001, 0xE0001),
  (0xE0020, 0xE007F), (0xE0100, 0xE01EF)
]

/-- The full `Case_Ignorable` range table. -/
def caseIgnorableRanges : List (Nat × Nat) :=
  caseIgnorableRanges1 ++ caseIgnorableRanges2 ++ caseIgnorableRanges3

/-- Rust `char::to_lowercase` for one character: the table mapping, with
the one multi-character case (`U+0130`). -/
def lowerChar (c : Char) : Str :=
  if c.toNat = 0x130 then [Char.ofNat 0x69, Char.ofNat 0x307]
  else
    match lowerTable.find? fun p => p.1 == c.toNat with
    | some p => [Char.ofNat p.2]
    | none => [c]

/-- Membership of a code point in a range table. -/
def inRanges (rs : List (Nat × Nat)) (n : Nat) : Bool :=
  rs.any fun r => decide (r.1 ≤ n) && decide (n ≤ r.2)

/-- The Unicode `Cased` property. -/
def isCased (c : Char) : Bool := inRanges casedRanges c.toNat

/-- The Unicode `Case_Ignorable` property. -/
def isCaseIgnorable (c : Char) : Bool := inRanges caseIgnorableRanges c.toNat

/-- Rust `case_ignorable_then_cased`: skip `Case_Ignorable` characters,
then test whether the next character is `Cased`. -/
def caseIgnorableThenCased (cs : Str) : Bool :=
  match cs.dropWhile isCaseIgnorable with
  | [] => false
  | c :: _ => isCased c

/-- The per-character loop of `str::to_lowercase`: `before` is the
reversed prefix of the input, consulted by the `Final_Sigma` contextual
rule for capital sigma (`U+03A3`), which lowercases to the final form
exactly when preceded, skipping case-ignorables, by a cased character
and not so followed. -/
def lowerGo (before : Str) : Str → Str
  | [] => []
  | c :: rest =>
      (if c = 'Σ' then
        (if caseIgnorableThenCased before && ! caseIgnorableThenCased rest
         then ['ς'] else ['σ'])
       else lowerChar c) ++ lowerGo (c :: before) rest

/-- Rust `String::to_lowercase`: the full Unicode lowercase mapping with
the `Final_Sigma` contextual rule. -/
def lowerStr (s : Str) : Str := lowerGo [] s

/-- Rust `str::contains` (substring test). -/
def containsSub : Str → Str → Bool
  | _, [] => true
  | [], _ :: _ => false
  | hay@(_ :: t), needle => needle.isPrefixOf hay || containsSub t needle

/-- Status predicate of `list_tasks` (first `.filter`). -/
def statusOk (f : TaskFilter) (t : Task) : Bool :=
  match f.status with
  | some st => t.status = st
  | none => true

/-- Tag predicate of `list_tasks` (second `.filter`): every requested tag
is carried by the task. -/
def tagsOk (f : TaskFilter) (t : Task) : Bool :=
  if f.tags.isEmpty then true else f.tags.all fun g => t.tags.contains g

/-- Search predicate of `list_tasks` (third `.filter`): case-insensitive
substring of the title or of the description. -/
def searchOk (f : TaskFilter) (t : Task) : Bool :=
  match f.text_search with
  | some q =>
      let ql := lowerStr q
      containsSub (lowerStr t.title) ql ||
        (match t.description_md with
         | some d => containsSub (lowerStr d) ql
         | none => false)
  | none => true

/-- Touched-since predicate of `list_tasks` (fourth `.filter`). -/
def touchedOk (f : TaskFilter) (t : Task) : Bool :=
  match f.touched_since with
  | some d =>
      decide (d ≤ t.updated_at.date) ||
        (match t.closed_at with
         | some c => decide (d ≤ c.date)
         | none => false)
  | none => true

/-- Method `list_tasks`: the stored tasks through the four chained
filters. -/
def listTasks (S : VaultIndex) (f : TaskFilter) : List Task :=
  ((((S.tasks.map (·.2)).filter (statusOk f)).filter (tagsOk f)).filter
      (searchOk f)).filter (touchedOk f)

/-- Method `get_log_entries_for_task`. -/
def getLogEntriesForTask (S : VaultIndex) (id : Str) : List LogEntry :=
  match mapGet S.task_refs_by_task id with
  | none => []
  | some ids => ids.filterMap fun eid => mapGet S.log_entries eid

/-- Method `get_mentions_for_task`. -/
def getMentionsForTask (S : VaultIndex) (id : Str) : List TaskMention :=
  (mapGet S.mentions_by_task id).getD []

/-- Comparison used by `list_notes_by_date`'s `sort_by_key` (the `Ord` of
`Option<NaiveDate>`, `None` first). -/
def optDateLe (a b : Option Int) : Bool :=
  match a, b with
  | none, _ => true
  | some _, none => false
  | some x, some y => x ≤ y

/-- Stable insertion step for an ascending sort by date. -/
def insByDate (x : NoteMeta) : List NoteMeta → List NoteMeta
  | [] => [x]
  | y :: ys => if optDateLe y.date x.date then y :: insByDate x ys else x :: y :: ys

/-- Stable ascending sort by date (Rust `sort_by_key` is stable). -/
def sortByDate : List NoteMeta → List NoteMeta
  | [] => []
  | x :: xs => insByDate x (sortByDate xs)

/-- Method `list_notes_by_date`: dated notes inside the inclusive range,
sorted ascending by date. -/
def listNotesByDate (S : VaultIndex) (r : DateRange) : List NoteMeta :=
  sortByDate ((S.notes.map (·.2)).filter fun meta =>
    match meta.date with
    | some d => decide (r.start ≤ d ∧ d ≤ r.stop)
    | none => false)

/-- Lexicographic comparison of strings (the `Ord` of Rust `String`; UTF-8
byte order coincides with scalar-value order). -/
def strLe : Str → Str → Bool
  | [], _ => true
  | _ :: _, [] => false
  | a :: as', b :: bs =>
      if a.toNat < b.toNat then true
      else if b.toNat < a.toNat then false
      else strLe as' bs

/-- Insertion step of `sortStrs`. -/
def insStr (x : Str) : List Str → List Str
  | [] => [x]
  | y :: ys => if strLe y x then y :: insStr x ys else x :: y :: ys

/-- Ascending lexicographic sort (Rust `Vec::sort` on `String`s). -/
def sortStrs : List Str → List Str
  | [] => []
  | x :: xs => insStr x (sortStrs xs)

/-- Method `list_tags`: the de-duplicated union of the keys of both tag
indices, sorted. -/
def listTags (S : VaultIndex) : List Str :=
  sortStrs ((S.tags_to_tasks.map (·.1) ++ S.tags_to_log_entries.map (·.1)).eraseDups)

/-- Method `items_for_tag`. -/
def itemsForTag (S : VaultIndex) (tag : Str) : TagResult :=
  { tag := tag
    tasks := ((mapGet S.tags_to_tasks tag).getD []).filterMap fun id => mapGet S.tasks id
    log_entries :=
      ((mapGet S.tags_to_log_entries tag).getD []).filterMap fun id => mapGet S.log_entries id }

/-! ## Domain orchestrator (`crates/note-core/src/domain.rs`) -/

/-- Pattern `*tag_counts.entry(tag).or_default() += 1` of
`weekly_summary`. -/
def bumpCount (m : Map Str Nat) (g : Str) : Map Str Nat :=
  mapInsert m g ((mapGet m g).getD 0 + 1)

/-- Tag occurrence counts over a task list, in first-appearance order (the
iteration order of the model's map). -/
def tagCounts (ts : List Task) : Map Str Nat :=
  ts.foldl (fun acc t => t.tags.foldl bumpCount acc) []

/-- Stable insertion step for the descending-by-count sort of
`weekly_summary` (`sort_by(|a, b| b.1.cmp(&a.1))`, a stable sort). -/
def insDesc (x : Str × Nat) : List (Str × Nat) → List (Str × Nat)
  | [] => [x]
  | y :: ys => if y.2 ≤ x.2 then x :: y :: ys else y :: insDesc x ys

/-- Stable sort by count, descending. -/
def sortDesc : List (Str × Nat) → List (Str × Nat)
  | [] => []
  | x :: xs => insDesc x (sortDesc xs)

/-- Method `Domain::weekly_summary`. -/
def weeklySummary (S : VaultIndex) (r : DateRange) : WeeklySummary :=
  let allTasks := listTasks S TaskFilter.default
  let newTasks := allTasks.filter fun t =>
    decide (r.start ≤ t.created_at.date ∧ t.created_at.date ≤ r.stop)
  let completed := allTasks.filter fun t =>
    match t.closed_at with
    | some c => decide (r.start ≤ c.date ∧ c.date ≤ r.stop)
    | none => false
  let notes := listNotesByDate S r
  let top := (sortDesc (tagCounts allTasks)).take 10
  ⟨newTasks, completed, notes, top⟩

/-- Total number of occurrences of tag `g` over a task list, each task
contributing once per occurrence in its tag list (the quantity accumulated
by `weekly_summary`'s `tag_counts`). -/
def countAll (ts : List Task) (g : Str) : Nat :=
  (ts.map fun t => t.tags.count g).sum

/-- Shape of a recognized task-id token: `T-` followed by at least one
character of the class `[0-9A-Za-z_-]`. -/
def isTaskIdStr (s : Str) : Prop :=
  ∃ cs, s = 'T' :: '-' :: cs ∧ cs ≠ [] ∧ ∀ c ∈ cs, isIdChar c = true

/-! ## Concrete inputs used by the claim theorems -/

/-- Parse-time stamp used in the concrete scenarios. -/
def pt0 : DateTime := ⟨0, 0⟩

/-- Log-entry body of 121 UTF-8 bytes whose byte 120 falls inside the
two-byte encoding of `é`. -/
def c1Body : Str := "[T-1] ".toList ++ List.replicate 113 'a' ++ ['é']

/-- Note whose single log line carries `c1Body`. -/
def c1Note : Note := ⟨"n".toList, [], [], none, "## Log\n- ".toList ++ c1Body⟩

/-- Task line with an uppercase checkbox mark. -/
def c2Upper : Note := ⟨"n".toList, [], [], none, "## Tasks\n- [X] [T-1] t".toList⟩

/-- Task line with a lowercase `x` mark. -/
def c2Lower : Note := ⟨"n".toList, [], [], none, "## Tasks\n- [x] [T-1] t".toList⟩

/-- Task line with a space mark. -/
def c2Space : Note := ⟨"n".toList, [], [], none, "## Tasks\n- [ ] [T-1] t".toList⟩

/-- Note `A`, owner of task `T-1`. -/
def noteA : Note := ⟨"A".toList, "a.md".toList, "a".toList, none, "x".toList⟩

/-- Note `B`, whose log entry mentions `T-1` (owned by note `A`). -/
def noteB : Note := ⟨"B".toList, "b.md".toList, "b".toList, none, "y".toList⟩

/-- The task `T-1` owned by note `A`. -/
def taskT1 : Task := ⟨"T-1".toList, "t".toList, .Open, pt0, pt0, none, [], none, some ("A".toList)⟩

/-- The mention of `T-1` originating from note `B`. -/
def mentionB : TaskMention := ⟨"T-1".toList, "B".toList, some ("B:2".toList), "see".toList⟩

/-- The log entry of note `B` that references `T-1`. -/
def entryB : LogEntry := ⟨"B:2".toList, "B".toList, 2, none, "see".toList, [], ["T-1".toList]⟩

/-- Parsed form of note `B`. -/
def parsedB : ParsedNote := ⟨noteB, [], [entryB], [mentionB]⟩

/-- Parsed form of note `A`. -/
def parsedA : ParsedNote := ⟨noteA, [taskT1], [], []⟩

/-- Store holding `B` then `A` (one upsert each). -/
def storeBA : VaultIndex := upsertParsedNote (upsertParsedNote emptyIndex parsedB) parsedA

/-- The same store after a second, identical upsert of `A`. -/
def storeBAA : VaultIndex := upsertParsedNote storeBA parsedA

/-- A parsed note with two tasks sharing the id `T-1` but carrying
different tags. -/
def pDup : ParsedNote :=
  ⟨⟨"N".toList, "n.md".toList, "n".toList, none, "z".toList⟩,
   [⟨"T-1".toList, "a".toList, .Open, pt0, pt0, none, ["a".toList], none, some ("N".toList)⟩,
    ⟨"T-1".toList, "b".toList, .Open, pt0, pt0, none, ["b".toList], none, some ("N".toList)⟩],
   [], []⟩

/-- Round trip of the duplicate-id note through the empty store. -/
def dupRoundTrip : VaultIndex := removeNote (upsertParsedNote emptyIndex pDup) ("N".toList)

/-- A note whose bracketed tokens mix valid task ids (`[T-9]`) with
other shapes (`[X-1]`, `[done]`) in both sections. -/
def c9Note : Note :=
  ⟨"n".toList, [], [], none,
   "## Tasks\n- [ ] [X-1] a\n- [ ] [T-9] b\n## Log\n- saw [X-1] [done] [T-9]".toList⟩

/-- The parsed form of `c9Note`. -/
def c9Parsed : ParsedNote := (parseNote pt0 c9Note).getD ⟨c9Note, [], [], []⟩

/-- A note whose single log line consists only of tag tokens. -/
def c10Note : Note := ⟨"n".toList, [], [], none, "## Log\n- #alpha #beta".toList⟩

/-- A concrete log line carrying a task reference and a tag. -/
def c10wLine : Str := "- see [T-1] #x".toList

/-- The entry and mentions parsed from `c10wLine` (with no continuation
lines). -/
def c10wPair : LogEntry × List TaskMention :=
  (((parseLogLine noteA c10wLine 1 []).1).getD none).getD
    (⟨[], [], 0, none, [], [], []⟩, [])

/-- Token test of `split_title_and_tags`: a tag is a token starting with
`#` with a nonempty remainder. -/
def isTagTok (t : Str) : Bool :=
  match t with
  | '#' :: r => ¬ r.isEmpty
  | _ => false

/-- The reading of claim C10 as stated: the body with every
whitespace-delimited tag token removed (the remaining tokens rejoined with
single spaces). -/
def removeTagTokens (body : Str) : Str :=
  joinSpaces ((splitWs body).filter fun t => ¬ isTagTok t)

/-! ## Fold characterizations used to reason about the store -/

/-- Pushes `x` into the bucket of every key of `keys`, in order (one Rust
tag-push loop iteration sequence). -/
def pushKeys (b : Map Str (List Str)) (keys : List Str) (x : Str) : Map Str (List Str) :=
  keys.foldl (fun bb g => mapPush bb g x) b

/-- Prunes `x` from the bucket of every key of `keys`, in order (one Rust
tag-prune loop iteration sequence). -/
def pruneKeysMap (b : Map Str (List Str)) (keys : List Str) (x : Str) : Map Str (List Str) :=
  keys.foldl (fun bb g => pruneBucket bb g x) b

/-- The task-map insertions of the upsert loop. -/
def insTasks (m : Map Str Task) (ts : List Task) : Map Str Task :=
  ts.foldl (fun mm t => mapInsert mm t.id t) m

/-- The entry-map insertions of the upsert loop. -/
def insEntries (m : Map Str LogEntry) (es : List LogEntry) : Map Str LogEntry :=
  es.foldl (fun mm e => mapInsert mm e.id e) m

/-- The tag-bucket pushes of the upsert task loop. -/
def pushTaskTags (b : Map Str (List Str)) (ts : List Task) : Map Str (List Str) :=
  ts.foldl (fun bb t => pushKeys bb t.tags t.id) b

/-- The tag-bucket pushes of the upsert entry loop. -/
def pushEntryTags (b : Map Str (List Str)) (es : List LogEntry) : Map Str (List Str) :=
  es.foldl (fun bb e => pushKeys bb e.tags e.id) b

/-- The backref-bucket pushes of the upsert entry loop. -/
def pushEntryRefs (b : Map Str (List Str)) (es : List LogEntry) : Map Str (List Str) :=
  es.foldl (fun bb e => pushKeys bb e.task_ids e.id) b

/-- The mention-bucket pushes of the upsert mention loop. -/
def pushMentions (b : Map Str (List TaskMention)) (ms : List TaskMention) :
    Map Str (List TaskMention) :=
  ms.foldl (fun bb m => mapPush bb m.task_id m) b

/-- Effect of a single retain-and-prune on a bucket's optional value. -/
def pruneVal (x : Str) (o : Option (List Str)) : Option (List Str) :=
  match o with
  | none => none
  | some l =>
      let l' := l.filter fun i => ¬ i = x
      if l' = [] then none else some l'

/-- Generic id-with-keys push fold over a bucket map. -/
def pushItems (b : Map Str (List Str)) (items : List (Str × List Str)) : Map Str (List Str) :=
  items.foldl (fun bb it => pushKeys bb it.2 it.1) b

/-- Generic bucket contents for key `g`: each item's id once per
occurrence of `g` among its keys, in item order. -/
def gbucket (items : List (Str × List Str)) (g : Str) : List Str :=
  (items.map fun it => List.replicate (it.2.count g) it.1).join

/-- First task of a list with the given id. -/
def findTask (ts : List Task) (tid : Str) : Option Task :=
  ts.find? fun t => t.id == tid

/-- First log entry of a list with the given id. -/
def findEntry (es : List LogEntry) (eid : Str) : Option LogEntry :=
  es.find? fun e => e.id == eid

/-- The tag bucket of `g` built by pushing each task's id once per
occurrence of `g` among its tags, in task order. -/
def bucketOf (ts : List Task) (g : Str) : List Str :=
  (ts.map fun t => List.replicate (t.tags.count g) t.id).join

/-- The tag bucket of `g` built from log entries. -/
def ebucketOf (es : List LogEntry) (g : Str) : List Str :=
  (es.map fun e => List.replicate (e.tags.count g) e.id).join

/-- The backref bucket of task id `tid` built from log entries. -/
def rbucketOf (es : List LogEntry) (tid : Str) : List Str :=
  (es.map fun e => List.replicate (e.task_ids.count tid) e.id).join

/-- The mention bucket of task id `tid`: the mentions with that task id,
in order. -/
def mentionsOf (ms : List TaskMention) (tid : Str) : List TaskMention :=
  ms.filter fun m => m.task_id == tid

/-! ## Claim C1 -/

/-- C1 (code bug): the parser is not total.  On a log-entry body of 121
UTF-8 bytes whose byte 120 falls inside a multi-byte character, the byte
slice `&content[..120]` of `build_excerpt` has no character boundary at
position 120, and `parse` panics instead of returning a `ParsedNote`. -/
theorem c1_excerpt_slice_panics :
    utf8Len c1Body = 121 ∧ takeBytes 120 c1Body = none ∧
    parseNote pt0 c1Note = none := by
  refine ⟨by decide, by decide, by decide⟩

/-! ## Claim C2 -/

/-- C2 (code bug): the checkbox mark is not matched case-insensitively.
`TASK_LINE_RE` only admits a space or a lowercase `x`, so `- [X] [T-1] t`
is not captured at all (the `Some("X")` arm of `build_task_from_caps` is
dead code), while `- [x] [T-1] t` yields `Done` with `closed_at` set to
parse time and `- [ ] [T-1] t` yields `Open` with `closed_at` unset. -/
theorem c2_uppercase_mark_not_captured :
    (parseNote pt0 c2Upper).map (·.tasks) = some [] ∧
    (parseNote pt0 c2Lower).map (fun p => p.tasks.map fun t => (t.id, t.status, t.closed_at)) =
      some [("T-1".toList, TaskStatus.Done, some pt0)] ∧
    (parseNote pt0 c2Space).map (fun p => p.tasks.map fun t => (t.id, t.status, t.closed_at)) =
      some [("T-1".toList, TaskStatus.Open, none)] := by
  refine ⟨by decide, by decide, by decide⟩

/-! ## Claim C3 -/

/-- C3 (code bug): upsert is not idempotent.  With note `B`'s mention of
task `T-1` in the store, one upsert of `A` (owner of `T-1`) leaves the
mention retrievable, but a second identical upsert of `A` erases it
(`remove_task_internal` drops the whole `mentions_by_task` list of every
owned task), and likewise erases `B`'s log-entry backref. -/
theorem c3_reupsert_drops_foreign_mentions :
    getMentionsForTask storeBA ("T-1".toList) = [mentionB] ∧
    getMentionsForTask storeBAA ("T-1".toList) = [] ∧
    getLogEntriesForTask storeBA ("T-1".toList) = [entryB] ∧
    getLogEntriesForTask storeBAA ("T-1".toList) = [] := by
  refine ⟨by decide, by decide, by decide, by decide⟩

/-! ## Claim C4 -/

/-- C4 (code bug): `remove_note` does not strip only the mentions that
originated from the removed note.  Removing note `A` also deletes note
`B`'s mention of `A`'s task `T-1` (the mention's `note_id` is `B`), because
`remove_task_internal` removes the entire mention list of each owned task.
Removing an unknown note id is a no-op. -/
theorem c4_remove_note_drops_foreign_mentions :
    mentionB.note_id = "B".toList ∧ noteA.id = "A".toList ∧
    getMentionsForTask (removeNote storeBA ("A".toList)) ("T-1".toList) = [] ∧
    removeNote storeBA ("Z".toList) = storeBA := by
  refine ⟨by decide, by decide, by decide, by decide⟩

/-! ## Claim C5, counterexample -/

/-- C5 fails as stated: for the parsed note `pDup`, whose two tasks share
one id, upserting into the empty store and removing the note leaves the
orphaned tag bucket `a` behind, so the store is not query-equivalent to
the empty store. -/
theorem c5_duplicate_ids_break_round_trip :
    listTags dupRoundTrip = ["a".toList] ∧ listTags emptyIndex = [] := by
  refine ⟨by decide, by decide⟩

/-! ## Claim C6, counterexample -/

/-- C6 fails as stated: after upserting `pDup` (two tasks sharing an id)
and removing its note, the tag key `a` still maps to the id `T-1` although
no live task with that id remains. -/
theorem c6_duplicate_ids_break_tag_liveness :
    mapGet dupRoundTrip.tags_to_tasks ("a".toList) = some ["T-1".toList] ∧
    getTask dupRoundTrip ("T-1".toList) = none := by
  refine ⟨by decide, by decide⟩

/-! ## Claim C10, counterexample -/

/-- C10 fails as stated: for the tag-only log body `#alpha #beta`, the
stored `content_md` is the trimmed body itself (the fallback branch of
`split_title_and_tags`), not the body with the tag tokens removed, which
would be empty. -/
theorem c10_tag_only_body_keeps_tags :
    (parseNote pt0 c10Note).map (fun p => p.log_entries.map (·.content_md)) =
      some ["#alpha #beta".toList] ∧
    removeTagTokens ("#alpha #beta".toList) = [] ∧
    ("#alpha #beta".toList : Str) ≠ [] := by
  refine ⟨by decide, by decide, by decide⟩

/-! ## Claim C7 -/

/-- The status predicate holds exactly when an active status constraint is
met. -/
theorem statusOk_iff (f : TaskFilter) (t : Task) :
    statusOk f t = true ↔ ∀ st, f.status = some st → t.status = st := by
  cases h : f.status <;> simp [statusOk, h]

/-- The tag predicate holds exactly when the task carries every requested
tag (an empty request imposing no constraint). -/
theorem tagsOk_iff (f : TaskFilter) (t : Task) :
    tagsOk f t = true ↔ ∀ g ∈ f.tags, g ∈ t.tags := by
  by_cases h : f.tags.isEmpty
  · rw [List.isEmpty_iff] at h
    simp [tagsOk, h]
  · simp only [tagsOk, if_neg h, List.all_eq_true]
    constructor
    · intro hall g hg
      have := hall g hg
      simpa using this
    · intro hall g hg
      simpa using hall g hg

/-- The search predicate holds exactly when an active search text is a
case-insensitive substring of title or description. -/
theorem searchOk_iff (f : TaskFilter) (t : Task) :
    searchOk f t = true ↔
      ∀ q, f.text_search = some q →
        (containsSub (lowerStr t.title) (lowerStr q) = true ∨
          ∃ d, t.description_md = some d ∧ containsSub (lowerStr d) (lowerStr q) = true) := by
  cases h : f.text_search with
  | none => simp [searchOk, h]
  | some q =>
    cases hd : t.description_md <;> simp [searchOk, h, hd]

/-- The touched-since predicate holds exactly when an active bound is met
by the update date or by the closing date. -/
theorem touchedOk_iff (f : TaskFilter) (t : Task) :
    touchedOk f t = true ↔
      ∀ d, f.touched_since = some d →
        (d ≤ t.updated_at.date ∨ ∃ c, t.closed_at = some c ∧ d ≤ c.date) := by
  cases h : f.touched_since with
  | none => simp [touchedOk, h]
  | some d =>
    cases hc : t.closed_at <;> simp [touchedOk, h, hc]

/-- C7 (confirmed): `list_tasks` returns exactly the stored tasks
satisfying the conjunction of the active predicates — status equality, tag
containment of every requested tag, case-insensitive substring search over
title or description, and the touched-since disjunction over `updated_at`
and `closed_at` dates; an unset field imposes no constraint. -/
theorem c7_list_tasks_exact_filter (S : VaultIndex) (f : TaskFilter) (t : Task) :
    t ∈ listTasks S f ↔
      t ∈ S.tasks.map (·.2) ∧
      (∀ st, f.status = some st → t.status = st) ∧
      (∀ g ∈ f.tags, g ∈ t.tags) ∧
      (∀ q, f.text_search = some q →
        (containsSub (lowerStr t.title) (lowerStr q) = true ∨
          ∃ d, t.description_md = some d ∧ containsSub (lowerStr d) (lowerStr q) = true)) ∧
      (∀ d, f.touched_since = some d →
        (d ≤ t.updated_at.date ∨ ∃ c, t.closed_at = some c ∧ d ≤ c.date)) := by
  simp only [listTasks, List.mem_filter, statusOk_iff, tagsOk_iff, searchOk_iff, touchedOk_iff]
  tauto

/-! ## Association-list lemmas -/

/-- Lookup after an in-place insert. -/
@[simp] theorem mapGet_insert {K V : Type} [DecidableEq K] (m : Map K V) (k k' : K) (v : V) :
    mapGet (mapInsert m k v) k' = if k = k' then some v else mapGet m k' := by
  induction m with
  | nil => by_cases h : k = k' <;> simp [mapInsert, mapGet, h]
  | cons kv rest ih =>
    obtain ⟨k0, v0⟩ := kv
    simp only [mapInsert]
    by_cases h0 : k0 = k
    · subst h0
      rw [if_pos rfl]
      by_cases h : k0 = k' <;> simp [mapGet, h]
    · rw [if_neg h0]
      by_cases h1 : k0 = k'
      · subst h1
        have hk : ¬ k = k0 := fun hh => h0 hh.symm
        simp [mapGet, hk]
      · simp [mapGet, h1, ih]

/-- Lookup after a key removal. -/
@[simp] theorem mapGet_remove {K V : Type} [DecidableEq K] (m : Map K V) (k k' : K) :
    mapGet (mapRemove m k) k' = if k = k' then none else mapGet m k' := by
  induction m with
  | nil => simp [mapRemove, mapGet]
  | cons kv rest ih =>
    obtain ⟨k0, v0⟩ := kv
    by_cases h0 : k0 = k
    · subst h0
      have hdrop : mapRemove ((k0, v0) :: rest) k0 = mapRemove rest k0 := by
        simp [mapRemove]
      rw [hdrop, ih]
      by_cases h1 : k0 = k'
      · simp [h1]
      · simp [mapGet, h1]
    · have hkeep : mapRemove ((k0, v0) :: rest) k = (k0, v0) :: mapRemove rest k := by
        simp [mapRemove, h0]
      rw [hkeep]
      by_cases h1 : k0 = k'
      · subst h1
        have hk : ¬ k = k0 := fun hh => h0 hh.symm
        simp [mapGet, hk]
      · simp [mapGet, h1, ih]

/-- Lookup after a bucket push. -/
@[simp] theorem mapGet_push {K V : Type} [DecidableEq K] (m : Map K (List V)) (k k' : K)
    (x : V) :
    mapGet (mapPush m k x) k' =
      if k = k' then some ((mapGet m k).getD [] ++ [x]) else mapGet m k' := by
  induction m with
  | nil => by_cases h : k = k' <;> simp [mapPush, mapGet, h]
  | cons kv rest ih =>
    obtain ⟨k0, v0⟩ := kv
    simp only [mapPush]
    by_cases h0 : k0 = k
    · subst h0
      rw [if_pos rfl]
      by_cases h : k0 = k' <;> simp [mapGet, h]
    · rw [if_neg h0]
      by_cases h1 : k0 = k'
      · subst h1
        have hk : ¬ k = k0 := fun hh => h0 hh.symm
        simp [mapGet, hk]
      · simp [mapGet, h0, h1, ih]

/-- Lookup of the pruned key after the retain-and-prune pattern of the
removal helpers. -/
theorem mapGet_pruneBucket_self {K V : Type} [DecidableEq K] [DecidableEq V]
    (m : Map K (List V)) (k : K) (x : V) :
    mapGet (pruneBucket m k x) k =
      match mapGet m k with
      | none => none
      | some l =>
          if l.filter (fun i => ¬ i = x) = [] then none
          else some (l.filter fun i => ¬ i = x) := by
  unfold pruneBucket
  cases hg : mapGet m k with
  | none => simp [hg]
  | some l =>
    simp only []
    by_cases he : l.filter (fun i => ¬ i = x) = []
    · rw [if_pos (by simpa [List.isEmpty_iff] using he), if_pos he]
      simp
    · rw [if_neg (by simpa [List.isEmpty_iff] using he), if_neg he]
      simp

/-- Lookup of any other key is unchanged by the retain-and-prune
pattern. -/
theorem mapGet_pruneBucket_ne {K V : Type} [DecidableEq K] [DecidableEq V]
    (m : Map K (List V)) (k k' : K) (x : V) (h : ¬ k = k') :
    mapGet (pruneBucket m k x) k' = mapGet m k' := by
  unfold pruneBucket
  cases hg : mapGet m k with
  | none => rfl
  | some l =>
    simp only []
    split <;> simp [h]

/-- A nonempty map resolves its first key. -/
theorem mapGet_head {K V : Type} [DecidableEq K] (kv : K × V) (rest : Map K V) :
    mapGet (kv :: rest) kv.1 = some kv.2 := by
  simp [mapGet]

/-- A map all of whose lookups fail is empty. -/
theorem map_eq_nil_of_get_none {K V : Type} [DecidableEq K] (m : Map K V)
    (h : ∀ k, mapGet m k = none) : m = [] := by
  cases m with
  | nil => rfl
  | cons kv rest =>
    have := h kv.1
    rw [mapGet_head] at this
    cases this

/-- Keys after an in-place insert. -/
theorem mapInsert_keys {K V : Type} [DecidableEq K] (m : Map K V) (k : K) (v : V) :
    (mapInsert m k v).map Prod.fst =
      if k ∈ m.map Prod.fst then m.map Prod.fst else m.map Prod.fst ++ [k] := by
  induction m with
  | nil => simp [mapInsert]
  | cons kv rest ih =>
    obtain ⟨k0, v0⟩ := kv
    by_cases h0 : k0 = k
    · subst h0
      simp [mapInsert]
    · simp only [mapInsert, if_neg h0, List.map, ih]
      by_cases hm : k ∈ rest.map Prod.fst
      · rw [if_pos hm, if_pos (by simp [hm])]
      · have hk : ¬ k = k0 := fun hh => h0 hh.symm
        rw [if_neg hm, if_neg (by simp [hm, hk]), List.cons_append]

/-- In-place insert preserves distinct keys. -/
theorem mapInsert_keys_nodup {K V : Type} [DecidableEq K] (m : Map K V) (k : K) (v : V)
    (h : (m.map Prod.fst).Nodup) : ((mapInsert m k v).map Prod.fst).Nodup := by
  rw [mapInsert_keys]
  by_cases hm : k ∈ m.map Prod.fst
  · rw [if_pos hm]
    exact h
  · rw [if_neg hm]
    refine List.Nodup.append h (List.nodup_singleton k) ?_
    intro a ha hb
    rw [List.mem_singleton] at hb
    subst hb
    exact hm ha

/-- On a map with distinct keys, membership determines the lookup. -/
theorem mapGet_of_mem_nodup {K V : Type} [DecidableEq K] (m : Map K V) (k : K) (v : V)
    (hm : (k, v) ∈ m) (hn : (m.map Prod.fst).Nodup) : mapGet m k = some v := by
  induction m with
  | nil => cases hm
  | cons kv rest ih =>
    obtain ⟨k0, v0⟩ := kv
    rw [List.map_cons] at hn
    have hn' := List.nodup_cons.mp hn
    rw [List.mem_cons] at hm
    rcases hm with hm | hm
    · cases hm
      simp [mapGet]
    · have hk : ¬ k0 = k := by
        intro hh
        subst hh
        exact hn'.1 (by simpa using List.mem_map_of_mem Prod.fst hm)
      simp only [mapGet, if_neg hk]
      exact ih hm hn'.2

/-! ## Claim C8 -/

/-- One bump of a tag's counter. -/
theorem mapGet_bumpCount (m : Map Str Nat) (g g' : Str) :
    mapGet (bumpCount m g) g' =
      if g = g' then some ((mapGet m g).getD 0 + 1) else mapGet m g' := by
  simp [bumpCount]

/-- Unfolding of `countAll` over a cons. -/
theorem countAll_cons (t : Task) (ts : List Task) (g : Str) :
    countAll (t :: ts) g = t.tags.count g + countAll ts g := by
  simp [countAll]

/-- Effect on one key of the inner fold over a task's tag list. -/
theorem tags_foldl_bump_get (tags : List Str) (m : Map Str Nat) (g : Str) :
    mapGet (tags.foldl bumpCount m) g =
      if mapGet m g = none ∧ tags.count g = 0 then none
      else some ((mapGet m g).getD 0 + tags.count g) := by
  induction tags generalizing m with
  | nil => cases h : mapGet m g <;> simp [h]
  | cons hd tl ih =>
    rw [List.foldl_cons, ih, mapGet_bumpCount]
    by_cases hg : hd = g
    · rw [hg, if_pos rfl]
      have hcnt : (g :: tl).count g = tl.count g + 1 := by
        simp [List.count_cons]
      rw [hcnt]
      cases h : mapGet m g <;> simp [h] <;> omega
    · rw [if_neg hg]
      have hcnt : (hd :: tl).count g = tl.count g := by
        simp [List.count_cons, hg]
      rw [hcnt]

/-- Effect on one key of `weekly_summary`'s whole counting fold. -/
theorem tagCounts_get_from (ts : List Task) (m : Map Str Nat) (g : Str) :
    mapGet (ts.foldl (fun acc t => t.tags.foldl bumpCount acc) m) g =
      if mapGet m g = none ∧ countAll ts g = 0 then none
      else some ((mapGet m g).getD 0 + countAll ts g) := by
  induction ts generalizing m with
  | nil => cases h : mapGet m g <;> simp [h, countAll]
  | cons t ts ih =>
    rw [List.foldl_cons, ih, tags_foldl_bump_get, countAll_cons]
    cases h : mapGet m g <;>
      by_cases hc : t.tags.count g = 0 <;>
        by_cases ha : countAll ts g = 0 <;>
          simp [h, hc, ha, Nat.add_eq_zero] <;> omega

/-- The tag counts of `weekly_summary` are exactly the occurrence totals
over the given tasks. -/
theorem tagCounts_get (ts : List Task) (g : Str) :
    mapGet (tagCounts ts) g =
      if countAll ts g = 0 then none else some (countAll ts g) := by
  have := tagCounts_get_from ts [] g
  simpa [tagCounts, mapGet] using this

/-- The counting fold keeps the keys distinct. -/
theorem tagCounts_keys_nodup_from (ts : List Task) (m : Map Str Nat)
    (h : (m.map Prod.fst).Nodup) :
    (((ts.foldl (fun acc t => t.tags.foldl bumpCount acc) m)).map Prod.fst).Nodup := by
  induction ts generalizing m with
  | nil => exact h
  | cons t ts ih =>
    rw [List.foldl_cons]
    refine ih _ ?_
    clear ih
    induction t.tags generalizing m with
    | nil => exact h
    | cons g tags ihg =>
      rw [List.foldl_cons]
      exact ihg _ (mapInsert_keys_nodup _ _ _ h)

/-- Keys of `tagCounts` are distinct. -/
theorem tagCounts_keys_nodup (ts : List Task) :
    ((tagCounts ts).map Prod.fst).Nodup :=
  tagCounts_keys_nodup_from ts [] (by simp)

/-- The descending insertion keeps the elements. -/
theorem insDesc_perm (x : Str × Nat) (l : List (Str × Nat)) :
    (insDesc x l).Perm (x :: l) := by
  induction l with
  | nil => simp [insDesc]
  | cons y ys ih =>
    rw [insDesc]
    split
    · exact List.Perm.refl _
    · exact (ih.cons y).trans (List.Perm.swap x y ys)

/-- The stable descending sort is a permutation. -/
theorem sortDesc_perm (l : List (Str × Nat)) : (sortDesc l).Perm l := by
  induction l with
  | nil => simp [sortDesc]
  | cons x xs ih => exact (insDesc_perm x (sortDesc xs)).trans (ih.cons x)

/-- The descending insertion preserves descending order. -/
theorem insDesc_pairwise (x : Str × Nat) (l : List (Str × Nat))
    (h : l.Pairwise fun a b => b.2 ≤ a.2) :
    (insDesc x l).Pairwise fun a b => b.2 ≤ a.2 := by
  induction l with
  | nil => simp [insDesc]
  | cons y ys ih =>
    rw [List.pairwise_cons] at h
    rw [insDesc]
    split
    · rename_i hyx
      rw [List.pairwise_cons]
      constructor
      · intro z hz
        rw [List.mem_cons] at hz
        rcases hz with hz | hz
        · rw [hz]
          exact hyx
        · exact le_trans (h.1 z hz) hyx
      · exact List.pairwise_cons.mpr h
    · rename_i hyx
      rw [List.pairwise_cons]
      constructor
      · intro z hz
        have hz' := (insDesc_perm x ys).mem_iff.mp hz
        rw [List.mem_cons] at hz'
        rcases hz' with hz' | hz'
        · rw [hz']
          omega
        · exact h.1 z hz'
      · exact ih h.2

/-- The result of the descending sort is descending. -/
theorem sortDesc_pairwise (l : List (Str × Nat)) :
    (sortDesc l).Pairwise fun a b => b.2 ≤ a.2 := by
  induction l with
  | nil => simp [sortDesc]
  | cons x xs ih => exact insDesc_pairwise x (sortDesc xs) ih

/-- A successful lookup comes from a member pair. -/
theorem mem_of_mapGet {K V : Type} [DecidableEq K] (m : Map K V) (k : K) (v : V)
    (h : mapGet m k = some v) : (k, v) ∈ m := by
  induction m with
  | nil => exact Option.noConfusion h
  | cons kv rest ih =>
    obtain ⟨k0, v0⟩ := kv
    have h' : (if k0 = k then some v0 else mapGet rest k) = some v := h
    by_cases hk : k0 = k
    · rw [if_pos hk] at h'
      injection h' with hv
      exact List.mem_cons.mpr (Or.inl (by rw [hk, hv]))
    · rw [if_neg hk] at h'
      exact List.mem_cons_of_mem _ (ih h')

/-- The descending sort keeps the keys distinct. -/
theorem sortDesc_keys_nodup (l : List (Str × Nat)) (h : (l.map Prod.fst).Nodup) :
    ((sortDesc l).map Prod.fst).Nodup :=
  (((sortDesc_perm l).map Prod.fst).nodup_iff).mpr h

/-- The default filter of `list_tasks` returns every stored task. -/
theorem listTasks_default (S : VaultIndex) :
    listTasks S TaskFilter.default = S.tasks.map (·.2) := by
  simp [listTasks, TaskFilter.default, statusOk, tagsOk, searchOk, touchedOk]

/-- C8 (confirmed): `weekly_summary` returns the tasks whose creation date
lies inclusively in the range, the tasks whose closing date (when present)
lies inclusively in the range, the notes of the store's date-range query,
and the top tags: at most ten pairs with distinct tags, sorted by count
descending, each count the tag's true nonzero total over all indexed
tasks, and complete — every tag with a nonzero total either appears or
loses to a full list of ten tags each counting at least as much. -/
theorem c8_weekly_summary_spec (S : VaultIndex) (r : DateRange) :
    (∀ t, t ∈ (weeklySummary S r).new_tasks ↔
      t ∈ S.tasks.map (·.2) ∧ r.start ≤ t.created_at.date ∧ t.created_at.date ≤ r.stop) ∧
    (∀ t, t ∈ (weeklySummary S r).completed_tasks ↔
      t ∈ S.tasks.map (·.2) ∧
        ∃ c, t.closed_at = some c ∧ r.start ≤ c.date ∧ c.date ≤ r.stop) ∧
    (weeklySummary S r).notes = listNotesByDate S r ∧
    (weeklySummary S r).top_tags.length ≤ 10 ∧
    ((weeklySummary S r).top_tags.Pairwise fun a b => b.2 ≤ a.2) ∧
    (∀ p ∈ (weeklySummary S r).top_tags,
      p.2 = countAll (S.tasks.map (·.2)) p.1 ∧ p.2 ≠ 0) ∧
    ((weeklySummary S r).top_tags.map Prod.fst).Nodup ∧
    (∀ g, countAll (S.tasks.map (·.2)) g ≠ 0 →
      g ∈ (weeklySummary S r).top_tags.map Prod.fst ∨
      ((weeklySummary S r).top_tags.length = 10 ∧
        ∀ p ∈ (weeklySummary S r).top_tags, countAll (S.tasks.map (·.2)) g ≤ p.2)) := by
  refine ⟨?_, ?_, ?_, ?_, ?_, ?_, ?_, ?_⟩
  · intro t
    have hshape : (weeklySummary S r).new_tasks =
        (listTasks S TaskFilter.default).filter (fun t =>
          decide (r.start ≤ t.created_at.date ∧ t.created_at.date ≤ r.stop)) := rfl
    rw [hshape, listTasks_default, List.mem_filter, decide_eq_true_eq]
  · intro t
    have hshape : (weeklySummary S r).completed_tasks =
        (listTasks S TaskFilter.default).filter (fun t =>
          match t.closed_at with
          | some c => decide (r.start ≤ c.date ∧ c.date ≤ r.stop)
          | none => false) := rfl
    rw [hshape, listTasks_default, List.mem_filter]
    cases t.closed_at with
    | none =>
      constructor
      · rintro ⟨hm, hp⟩
        exact absurd hp Bool.false_ne_true
      · rintro ⟨hm, c, hcc, _⟩
        exact Option.noConfusion hcc
    | some c0 =>
      constructor
      · rintro ⟨hm, hp⟩
        exact ⟨hm, c0, rfl, of_decide_eq_true hp⟩
      · rintro ⟨hm, c, hcc, h1, h2⟩
        injection hcc with hcc
        subst hcc
        exact ⟨hm, decide_eq_true ⟨h1, h2⟩⟩
  · rfl
  · show ((sortDesc (tagCounts (listTasks S TaskFilter.default))).take 10).length ≤ 10
    rw [List.length_take]
    exact min_le_left _ _
  · exact ((sortDesc_pairwise _).sublist (List.take_sublist _ _))
  · intro p hp
    have hp1 : p ∈ sortDesc (tagCounts (listTasks S TaskFilter.default)) :=
      List.take_subset _ _ hp
    have hp2 : p ∈ tagCounts (listTasks S TaskFilter.default) :=
      (sortDesc_perm _).mem_iff.mp hp1
    have hget := mapGet_of_mem_nodup _ _ _ hp2 (tagCounts_keys_nodup _)
    rw [tagCounts_get] at hget
    rw [listTasks_default] at hget
    by_cases hz : countAll (S.tasks.map (·.2)) p.1 = 0
    · rw [if_pos hz] at hget
      cases hget
    · rw [if_neg hz] at hget
      exact ⟨(Option.some_injective _ hget).symm, by
        intro hh
        exact hz (by rw [← hh]; exact (Option.some_injective _ hget).symm ▸ rfl)⟩
  · show (((sortDesc (tagCounts (listTasks S TaskFilter.default))).take 10).map
        Prod.fst).Nodup
    rw [List.map_take]
    exact (sortDesc_keys_nodup _ (tagCounts_keys_nodup _)).sublist
      (List.take_sublist _ _)
  · intro g hg
    have hcnt : countAll (listTasks S TaskFilter.default) g ≠ 0 := by
      rw [listTasks_default]
      exact hg
    have hget : mapGet (tagCounts (listTasks S TaskFilter.default)) g =
        some (countAll (listTasks S TaskFilter.default) g) := by
      rw [tagCounts_get, if_neg hcnt]
    have hmem := mem_of_mapGet _ _ _ hget
    have hmemL : (g, countAll (listTasks S TaskFilter.default) g) ∈
        sortDesc (tagCounts (listTasks S TaskFilter.default)) :=
      (sortDesc_perm _).mem_iff.mpr hmem
    have hsplit := List.take_append_drop 10
      (sortDesc (tagCounts (listTasks S TaskFilter.default)))
    rw [← hsplit, List.mem_append] at hmemL
    cases hmemL with
    | inl hin =>
      left
      show g ∈ ((sortDesc (tagCounts (listTasks S TaskFilter.default))).take 10).map
        Prod.fst
      rw [List.mem_map]
      exact ⟨(g, countAll (listTasks S TaskFilter.default) g), hin, rfl⟩
    | inr hdrop =>
      right
      have hpw := sortDesc_pairwise (tagCounts (listTasks S TaskFilter.default))
      rw [← hsplit, List.pairwise_append] at hpw
      obtain ⟨hpw1, hpw2, hrel⟩ := hpw
      constructor
      · show ((sortDesc (tagCounts (listTasks S TaskFilter.default))).take 10).length =
          10
        have hlen : 10 <
            (sortDesc (tagCounts (listTasks S TaskFilter.default))).length := by
          by_contra hl
          push_neg at hl
          have hnil : (sortDesc (tagCounts (listTasks S TaskFilter.default))).drop 10 =
              [] := by
            rw [List.drop_eq_nil_iff_le]
            exact hl
          rw [hnil] at hdrop
          cases hdrop
        rw [List.length_take]
        omega
      · intro p hp
        have hp' : p ∈ (sortDesc (tagCounts (listTasks S TaskFilter.default))).take 10 :=
          hp
        have hle := hrel p hp' _ hdrop
        show countAll (S.tasks.map (·.2)) g ≤ p.2
        rw [← listTasks_default S]
        exact hle

/-! ## Claim C9 -/

/-- Any id captured by an anchored `LOG_TASK_REF_RE` attempt has the
`T-[0-9A-Za-z_-]+` shape. -/
theorem tryRef_shape (s tid r3 : Str) (h : tryRef s = some (tid, r3)) :
    isTaskIdStr tid := by
  unfold tryRef at h
  split at h
  · rename_i rest
    split at h
    · dsimp only at h
      split at h
      · cases h
      · rename_i hEmpty
        injection h with h
        injection h with h1 h2
        refine ⟨rest.takeWhile isIdChar, h1.symm, ?_, ?_⟩
        · intro hnil
          rw [hnil] at hEmpty
          simp at hEmpty
        · intro c hc
          exact List.mem_takeWhile_imp hc
    · cases h
  · cases h

/-- Every id produced by the global reference scan has the task-id
shape. -/
theorem findTaskRefsGo_shape (fuel : Nat) (s tid : Str)
    (h : tid ∈ findTaskRefsGo fuel s) : isTaskIdStr tid := by
  induction fuel generalizing s with
  | zero =>
    cases s with
    | nil => cases h
    | cons c rest => cases h
  | succ fuel ih =>
    cases s with
    | nil => cases h
    | cons c rest =>
      rw [findTaskRefsGo] at h
      cases htr : tryRef (c :: rest) with
      | none =>
        rw [htr] at h
        exact ih _ h
      | some pr =>
        obtain ⟨tid0, r3⟩ := pr
        rw [htr] at h
        rw [List.mem_cons] at h
        rcases h with h | h
        · exact h ▸ tryRef_shape _ _ _ htr
        · exact ih _ h

/-- Every id in the result of `findTaskRefs` has the task-id shape. -/
theorem findTaskRefs_shape (s tid : Str) (h : tid ∈ findTaskRefs s) :
    isTaskIdStr tid := findTaskRefsGo_shape _ _ _ h

/-- Any id captured by `TASK_LINE_RE` has the `T-[0-9A-Za-z_-]+` shape,
and the mark is a space or a lowercase `x`. -/
theorem taskLineMatch_shape (s : Str) (mark : Char) (tid rest : Str)
    (h : taskLineMatch s = some (mark, tid, rest)) :
    isTaskIdStr tid ∧ (mark = ' ' ∨ mark = 'x') := by
  unfold taskLineMatch at h
  split at h
  · rename_i s1
    split at h
    · rename_i m s2
      split at h
      · rename_i hmark
        split at h
        · rename_i s3 hws
          split at h
          · rename_i s4
            split at h
            · rename_i r3
              dsimp only at h
              split at h
              · cases h
              · rename_i hEmpty
                injection h with h
                injection h with hm h
                injection h with h1 h2
                refine ⟨⟨s4.takeWhile isIdChar, h1.symm, ?_, ?_⟩, hm ▸ hmark⟩
                · intro hnil
                  rw [hnil] at hEmpty
                  simp at hEmpty
                · intro c hc
                  exact List.mem_takeWhile_imp hc
            · cases h
          · cases h
        · cases h
      · cases h
    · cases h
  · cases h

/-- Every task id referenced by a parsed log entry or mention has the
task-id shape. -/
theorem parseLogLine_shape (note : Note) (line : Str) (n : Nat)
    (ls ls' : List (Nat × Str)) (e : LogEntry) (ms : List TaskMention)
    (h : parseLogLine note line n ls = (some (some (e, ms)), ls')) :
    (∀ tid ∈ e.task_ids, isTaskIdStr tid) ∧ (∀ m ∈ ms, isTaskIdStr m.task_id) := by
  unfold parseLogLine at h
  split at h
  · injection h with h1 h2
    injection h1 with h1
    cases h1
  · dsimp only at h
    split at h
    · injection h with h1 h2
      injection h1 with h1
      injection h1 with h1
      injection h1 with he hms
      constructor
      · intro tid htid
        rw [← he] at htid
        exact findTaskRefs_shape _ _ htid
      · intro m hm
        rw [← hms] at hm
        cases hm
    · split at h
      · injection h with h1 h2
        cases h1
      · rename_i exc hexc
        injection h with h1 h2
        injection h1 with h1
        injection h1 with h1
        injection h1 with he hms
        constructor
        · intro tid htid
          rw [← he] at htid
          exact findTaskRefs_shape _ _ htid
        · intro m hm
          rw [← hms] at hm
          rw [List.mem_map] at hm
          obtain ⟨tid, htid, hmm⟩ := hm
          rw [← hmm]
          exact findTaskRefs_shape _ _ htid

/-- Every task, log-entry reference and mention produced by the parser
loop has a task id of the recognized shape. -/
theorem parseLoopGo_shape (note : Note) (now : DateTime) (fuel : Nat)
    (ls : List (Nat × Str)) (sec : Section)
    (res : List Task × List LogEntry × List TaskMention)
    (h : parseLoopGo note now fuel ls sec = some res) :
    (∀ t ∈ res.1, isTaskIdStr t.id) ∧
    (∀ e ∈ res.2.1, ∀ tid ∈ e.task_ids, isTaskIdStr tid) ∧
    (∀ m ∈ res.2.2, isTaskIdStr m.task_id) := by
  induction fuel generalizing ls sec res with
  | zero =>
    cases ls with
    | nil =>
      simp only [parseLoopGo] at h
      injection h with h
      rw [← h]
      refine ⟨?_, ?_, ?_⟩ <;> intro x hx <;> cases hx
    | cons hd tl => cases h
  | succ fuel ih =>
    cases ls with
    | nil =>
      simp only [parseLoopGo] at h
      injection h with h
      rw [← h]
      refine ⟨?_, ?_, ?_⟩ <;> intro x hx <;> cases hx
    | cons hd tl =>
      obtain ⟨idx, rawLine⟩ := hd
      simp only [parseLoopGo] at h
      split at h
      · exact ih _ _ _ h
      · split at h
        · split at h
          · rename_i mr mark taskId restCap hmatch
            rw [Option.map_eq_some'] at h
            obtain ⟨r0, hr0, hres⟩ := h
            have hshape := taskLineMatch_shape _ _ _ _ hmatch
            have hrec := ih _ _ _ hr0
            rw [← hres]
            refine ⟨?_, hrec.2.1, hrec.2.2⟩
            intro t ht
            rw [List.mem_cons] at ht
            rcases ht with ht | ht
            · rw [ht]
              exact hshape.1
            · exact hrec.1 t ht
          · exact ih _ _ _ h
        · split at h
          · cases h
          · exact ih _ _ _ h
          · rename_i entry ms rest' hlog
            rw [Option.map_eq_some'] at h
            obtain ⟨r0, hr0, hres⟩ := h
            have hshape := parseLogLine_shape _ _ _ _ _ _ _ hlog
            have hrec := ih _ _ _ hr0
            rw [← hres]
            refine ⟨hrec.1, ?_, ?_⟩
            · intro e he
              rw [List.mem_cons] at he
              rcases he with he | he
              · rw [he]
                exact hshape.1
              · exact hrec.2.1 e he
            · intro m hm
              rw [List.mem_append] at hm
              rcases hm with hm | hm
              · exact hshape.2 m hm
              · exact hrec.2.2 m hm
        · exact ih _ _ _ h

/-- C9 (confirmed): only bracketed tokens of the shape
`T-[0-9A-Za-z_-]+` are recognized as task ids, both for task lines in the
Tasks section and for references and mentions extracted from log-entry
bodies; a bracketed token of any other shape produces neither a task nor
a mention. -/
theorem c9_only_task_id_tokens (now : DateTime) (note : Note) (pn : ParsedNote)
    (h : parseNote now note = some pn) :
    (∀ t ∈ pn.tasks, isTaskIdStr t.id) ∧
    (∀ e ∈ pn.log_entries, ∀ tid ∈ e.task_ids, isTaskIdStr tid) ∧
    (∀ m ∈ pn.mentions, isTaskIdStr m.task_id) := by
  unfold parseNote at h
  rw [Option.map_eq_some'] at h
  obtain ⟨r0, hr0, hres⟩ := h
  have := parseLoopGo_shape _ _ _ _ _ _ hr0
  rw [← hres]
  exact this

/-- Witness for C9: in a concrete note carrying `[X-1]`, `[done]` and
`[T-9]`, parsing captures exactly the `T-9` task and mention, and the
theorem applies to it. -/
theorem c9_only_task_id_tokens_witness :
    parseNote pt0 c9Note = some c9Parsed ∧
    (∀ t ∈ c9Parsed.tasks, isTaskIdStr t.id) ∧
    c9Parsed.tasks.map (·.id) = ["T-9".toList] ∧
    c9Parsed.mentions.map (·.task_id) = ["T-9".toList] :=
  ⟨by decide, (c9_only_task_id_tokens pt0 c9Note c9Parsed (by decide)).1,
   by decide, by decide⟩

/-! ## Claim C10, amended -/

/-- The token loop of `split_title_and_tags` splits the tokens into the
non-tag tokens and the tag remainders. -/
theorem splitTT_eq (toks : List Str) :
    splitTT toks =
      (toks.filter (fun t => ¬ isTagTok t),
       toks.filterMap fun t =>
         match t with
         | '#' :: r => if r.isEmpty then none else some r
         | _ => none) := by
  induction toks with
  | nil => rfl
  | cons t rest ih =>
    rw [splitTT, ih]
    dsimp only
    cases t with
    | nil => simp [isTagTok, List.filter_cons, List.filterMap_cons]
    | cons c cs =>
      by_cases hc : c = '#'
      · subst hc
        by_cases he : cs.isEmpty
        · rw [List.isEmpty_iff] at he
          subst he
          simp [isTagTok, List.filter_cons, List.filterMap_cons]
        · have hne : cs ≠ [] := by
            simpa [List.isEmpty_iff] using he
          have htag : isTagTok ('#' :: cs) = true := by
            simp [isTagTok, he]
          simp [List.filter_cons, List.filterMap_cons, htag, he, hne]
      · have h1 : isTagTok (c :: cs) = false := by
          unfold isTagTok
          split
          · rename_i r heq
            injection heq with heq1 _
            exact absurd heq1 hc
          · rfl
        have h2 : (match c :: cs with
            | '#' :: r => if r.isEmpty then none else some (r : Str)
            | _ => none) = none := by
          split
          · rename_i r heq
            injection heq with heq1 _
            exact absurd heq1 hc
          · rfl
        split
        · rename_i tag heq
          injection heq with heq1 _
          exact absurd heq1 hc
        · simp [List.filter_cons, List.filterMap_cons, h1, h2]

/-- C10 (amended): `content_md` is the combined body's non-tag tokens
rejoined with single spaces — except that a body whose every token is a
tag is kept trimmed and unchanged — while every mention's excerpt is built
from the combined body before tag removal, and all mentions of one entry
share that identical excerpt. -/
theorem c10_content_md_and_shared_excerpts :
    (∀ input : Str,
      (splitTitleAndTags input).1 =
        if (splitWs input).filter (fun t => ¬ isTagTok t) = [] then trim input
        else joinSpaces ((splitWs input).filter fun t => ¬ isTagTok t)) ∧
    (∀ (note : Note) (line : Str) (n : Nat) (ls ls' : List (Nat × Str))
        (e : LogEntry) (ms : List TaskMention),
      parseLogLine note line n ls = (some (some (e, ms)), ls') →
        e.content_md = (splitTitleAndTags (logCombined line ls)).1 ∧
        (∀ m ∈ ms, buildExcerpt (logCombined line ls) = some m.excerpt) ∧
        (∀ m ∈ ms, ∀ m' ∈ ms, m.excerpt = m'.excerpt)) := by
  constructor
  · intro input
    show (let p := splitTT (splitWs input)
      (if p.1.isEmpty then trim input else joinSpaces p.1, p.2)).1 = _
    rw [splitTT_eq]
    dsimp only
    by_cases h : (splitWs input).filter (fun t => ¬ isTagTok t) = []
    · rw [if_pos h, if_pos (by rw [h]; rfl)]
    · rw [if_neg h, if_neg (by rwa [List.isEmpty_iff])]
  · intro note line n ls ls' e ms h
    unfold parseLogLine at h
    split at h
    · injection h with h1 h2
      injection h1 with h1
      cases h1
    · dsimp only at h
      split at h
      · injection h with h1 h2
        injection h1 with h1
        injection h1 with h1
        injection h1 with he hms
        refine ⟨?_, ?_, ?_⟩
        · rw [← he]
          rfl
        · intro m hm
          rw [← hms] at hm
          cases hm
        · intro m hm
          rw [← hms] at hm
          cases hm
      · split at h
        · injection h with h1 h2
          cases h1
        · rename_i exc hexc
          injection h with h1 h2
          injection h1 with h1
          injection h1 with h1
          injection h1 with he hms
          refine ⟨?_, ?_, ?_⟩
          · rw [← he]
            rfl
          · intro m hm
            rw [← hms] at hm
            rw [List.mem_map] at hm
            obtain ⟨tid, _, hmm⟩ := hm
            rw [← hmm]
            exact hexc
          · intro m hm m' hm'
            rw [← hms] at hm hm'
            rw [List.mem_map] at hm hm'
            obtain ⟨tid, _, hmm⟩ := hm
            obtain ⟨tid', _, hmm'⟩ := hm'
            rw [← hmm, ← hmm']

/-- Witness for C10 (amended): on the concrete log line
`- see [T-1] #x`, the parsed entry's content has the tag stripped while
the mention's excerpt keeps both the `[T-1]` token and the `#x` token
verbatim, and the theorem applies to it. -/
theorem c10_content_md_and_shared_excerpts_witness :
    parseLogLine noteA c10wLine 1 [] = (some (some (c10wPair.1, c10wPair.2)), []) ∧
    c10wPair.1.content_md = (splitTitleAndTags (logCombined c10wLine [])).1 ∧
    c10wPair.1.content_md = "see [T-1]".toList ∧
    c10wPair.2.map (·.excerpt) = ["see [T-1] #x".toList] :=
  ⟨by decide,
   (c10_content_md_and_shared_excerpts.2 noteA c10wLine 1 [] [] c10wPair.1 c10wPair.2
      (by decide)).1,
   by decide, by decide⟩

/-! ## Decomposition of the store operations into per-field folds -/

/-- The task-tag push loop only changes `tags_to_tasks`. -/
theorem tagPushLoop_eq (keys : List Str) (x : Str) (A : VaultIndex) :
    keys.foldl
        (fun (a : VaultIndex) tag => { a with tags_to_tasks := mapPush a.tags_to_tasks tag x }) A =
      { A with tags_to_tasks := pushKeys A.tags_to_tasks keys x } := by
  induction keys generalizing A with
  | nil => rfl
  | cons g keys ih =>
    simp only [List.foldl_cons]
    rw [ih]
    rfl

/-- The entry-tag push loop only changes `tags_to_log_entries`. -/
theorem etagPushLoop_eq (keys : List Str) (x : Str) (A : VaultIndex) :
    keys.foldl
        (fun (a : VaultIndex) tag =>
          { a with tags_to_log_entries := mapPush a.tags_to_log_entries tag x }) A =
      { A with tags_to_log_entries := pushKeys A.tags_to_log_entries keys x } := by
  induction keys generalizing A with
  | nil => rfl
  | cons g keys ih =>
    simp only [List.foldl_cons]
    rw [ih]
    rfl

/-- The backref push loop only changes `task_refs_by_task`. -/
theorem refPushLoop_eq (keys : List Str) (x : Str) (A : VaultIndex) :
    keys.foldl
        (fun (a : VaultIndex) tid =>
          { a with task_refs_by_task := mapPush a.task_refs_by_task tid x }) A =
      { A with task_refs_by_task := pushKeys A.task_refs_by_task keys x } := by
  induction keys generalizing A with
  | nil => rfl
  | cons g keys ih =>
    simp only [List.foldl_cons]
    rw [ih]
    rfl

/-- The mention push loop only changes `mentions_by_task`. -/
theorem mentionPushLoop_eq (ms : List TaskMention) (A : VaultIndex) :
    ms.foldl
        (fun (acc : VaultIndex) m =>
          { acc with mentions_by_task := mapPush acc.mentions_by_task m.task_id m }) A =
      { A with mentions_by_task := pushMentions A.mentions_by_task ms } := by
  induction ms generalizing A with
  | nil => rfl
  | cons m ms ih =>
    simp only [List.foldl_cons]
    rw [ih]
    rfl

/-- The task-tag prune loop only changes `tags_to_tasks`. -/
theorem tagPruneLoop_eq (keys : List Str) (x : Str) (A : VaultIndex) :
    keys.foldl
        (fun (acc : VaultIndex) tag =>
          { acc with tags_to_tasks := pruneBucket acc.tags_to_tasks tag x }) A =
      { A with tags_to_tasks := pruneKeysMap A.tags_to_tasks keys x } := by
  induction keys generalizing A with
  | nil => rfl
  | cons g keys ih =>
    simp only [List.foldl_cons]
    rw [ih]
    rfl

/-- The entry-tag prune loop only changes `tags_to_log_entries`. -/
theorem etagPruneLoop_eq (keys : List Str) (x : Str) (A : VaultIndex) :
    keys.foldl
        (fun (acc : VaultIndex) tag =>
          { acc with tags_to_log_entries := pruneBucket acc.tags_to_log_entries tag x }) A =
      { A with tags_to_log_entries := pruneKeysMap A.tags_to_log_entries keys x } := by
  induction keys generalizing A with
  | nil => rfl
  | cons g keys ih =>
    simp only [List.foldl_cons]
    rw [ih]
    rfl

/-- The backref prune loop only changes `task_refs_by_task`. -/
theorem refPruneLoop_eq (keys : List Str) (x : Str) (A : VaultIndex) :
    keys.foldl
        (fun (acc : VaultIndex) tid =>
          { acc with task_refs_by_task := pruneBucket acc.task_refs_by_task tid x }) A =
      { A with task_refs_by_task := pruneKeysMap A.task_refs_by_task keys x } := by
  induction keys generalizing A with
  | nil => rfl
  | cons g keys ih =>
    simp only [List.foldl_cons]
    rw [ih]
    rfl

/-- The upsert task loop changes exactly `tasks` and `tags_to_tasks`. -/
theorem taskLoop_eq (ts : List Task) (A : VaultIndex) :
    ts.foldl
        (fun (acc : VaultIndex) task =>
          let acc1 :=
            task.tags.foldl
              (fun (a : VaultIndex) tag =>
                { a with tags_to_tasks := mapPush a.tags_to_tasks tag task.id }) acc
          { acc1 with tasks := mapInsert acc1.tasks task.id task }) A =
      { A with
        tasks := insTasks A.tasks ts
        tags_to_tasks := pushTaskTags A.tags_to_tasks ts } := by
  induction ts generalizing A with
  | nil => rfl
  | cons t ts ih =>
    simp only [List.foldl_cons]
    rw [tagPushLoop_eq, ih]
    rfl

/-- The upsert entry loop changes exactly `log_entries`,
`tags_to_log_entries` and `task_refs_by_task`. -/
theorem entryLoop_eq (es : List LogEntry) (A : VaultIndex) :
    es.foldl
        (fun (acc : VaultIndex) e =>
          let a1 :=
            e.tags.foldl
              (fun (a : VaultIndex) tag =>
                { a with tags_to_log_entries := mapPush a.tags_to_log_entries tag e.id }) acc
          let a2 :=
            e.task_ids.foldl
              (fun (a : VaultIndex) tid =>
                { a with task_refs_by_task := mapPush a.task_refs_by_task tid e.id }) a1
          { a2 with log_entries := mapInsert a2.log_entries e.id e }) A =
      { A with
        log_entries := insEntries A.log_entries es
        tags_to_log_entries := pushEntryTags A.tags_to_log_entries es
        task_refs_by_task := pushEntryRefs A.task_refs_by_task es } := by
  induction es generalizing A with
  | nil => rfl
  | cons e es ih =>
    simp only [List.foldl_cons]
    rw [etagPushLoop_eq, refPushLoop_eq, ih]
    rfl

/-- Decomposition of `upsert_parsed_note` into independent per-field
updates over the state left by the initial `remove_note`. -/
theorem upsert_eq (S : VaultIndex) (p : ParsedNote) :
    upsertParsedNote S p =
      { notes :=
          mapInsert (removeNote S p.note.id).notes p.note.id
            ⟨p.note.id, p.note.path, p.note.title, p.note.date⟩
        note_content := mapInsert (removeNote S p.note.id).note_content p.note.id p.note
        tasks := insTasks (removeNote S p.note.id).tasks p.tasks
        log_entries := insEntries (removeNote S p.note.id).log_entries p.log_entries
        mentions_by_task := pushMentions (removeNote S p.note.id).mentions_by_task p.mentions
        tags_to_tasks := pushTaskTags (removeNote S p.note.id).tags_to_tasks p.tasks
        tags_to_log_entries :=
          pushEntryTags (removeNote S p.note.id).tags_to_log_entries p.log_entries
        task_refs_by_task :=
          pushEntryRefs (removeNote S p.note.id).task_refs_by_task p.log_entries
        note_to_task_ids :=
          if (p.tasks.map (·.id)).isEmpty then (removeNote S p.note.id).note_to_task_ids
          else
            mapInsert (removeNote S p.note.id).note_to_task_ids p.note.id (p.tasks.map (·.id))
        note_to_log_entry_ids :=
          if (p.log_entries.map (·.id)).isEmpty then
            (removeNote S p.note.id).note_to_log_entry_ids
          else
            mapInsert (removeNote S p.note.id).note_to_log_entry_ids p.note.id
              (p.log_entries.map (·.id)) } := by
  unfold upsertParsedNote
  dsimp only
  rw [taskLoop_eq, entryLoop_eq, mentionPushLoop_eq]
  by_cases ht : (p.tasks.map (·.id)).isEmpty <;>
    by_cases he : (p.log_entries.map (·.id)).isEmpty <;>
      simp only [ht, he, if_true, if_false, eq_self_iff_true, Bool.false_eq_true] <;>
        rfl

/-! ## Lookup characterizations of the store folds -/

/-- Removing an absent key is a no-op. -/
theorem mapRemove_of_get_none {K V : Type} [DecidableEq K] (m : Map K V) (k : K)
    (h : mapGet m k = none) : mapRemove m k = m := by
  induction m with
  | nil => rfl
  | cons kv rest ih =>
    obtain ⟨k0, v0⟩ := kv
    rw [mapGet] at h
    by_cases h0 : k0 = k
    · rw [if_pos h0] at h
      cases h
    · rw [if_neg h0] at h
      have hkeep : mapRemove ((k0, v0) :: rest) k = (k0, v0) :: mapRemove rest k := by
        simp [mapRemove, h0]
      rw [hkeep, ih h]

/-- Lookup after pushing one value into several buckets. -/
theorem pushKeys_get (keys : List Str) (b : Map Str (List Str)) (x g : Str) :
    mapGet (pushKeys b keys x) g =
      if keys.count g = 0 then mapGet b g
      else some ((mapGet b g).getD [] ++ List.replicate (keys.count g) x) := by
  induction keys generalizing b with
  | nil => simp [pushKeys]
  | cons k0 keys ih =>
    show mapGet (pushKeys (mapPush b k0 x) keys x) g = _
    rw [ih, mapGet_push]
    by_cases hk : k0 = g
    · rw [hk, if_pos rfl]
      have hcnt : (g :: keys).count g = keys.count g + 1 := by
        simp [List.count_cons]
      rw [hcnt]
      by_cases hz : keys.count g = 0
      · rw [if_pos hz, if_neg (by omega), hz]
        simp
      · rw [if_neg hz, if_neg (by omega)]
        simp [List.replicate_succ, List.append_assoc]
    · rw [if_neg hk]
      have hcnt : (k0 :: keys).count g = keys.count g := by
        simp [List.count_cons, hk]
      rw [hcnt]

/-- Lookup after a generic id-with-keys push fold. -/
theorem pushItems_get (items : List (Str × List Str)) (b : Map Str (List Str)) (g : Str) :
    mapGet (pushItems b items) g =
      if gbucket items g = [] then mapGet b g
      else some ((mapGet b g).getD [] ++ gbucket items g) := by
  induction items generalizing b with
  | nil => simp [pushItems, gbucket]
  | cons it items ih =>
    obtain ⟨x, keys⟩ := it
    show mapGet (pushItems (pushKeys b keys x) items) g = _
    rw [ih, pushKeys_get]
    have hbk : gbucket ((x, keys) :: items) g =
        List.replicate (keys.count g) x ++ gbucket items g := by
      simp [gbucket]
    rw [hbk]
    by_cases hc : keys.count g = 0
    · rw [if_pos hc, hc]
      simp
    · rw [if_neg hc]
      have hrep : List.replicate (keys.count g) x ≠ [] := by
        intro hh
        have := congrArg List.length hh
        simp at this
        exact hc this
      by_cases hb : gbucket items g = []
      · rw [if_pos hb, hb, if_neg (by simpa using hrep)]
        simp
      · rw [if_neg hb, if_neg (fun hh => hrep (List.append_eq_nil.mp hh).1)]
        simp [List.append_assoc]

/-- The task-tag pushes are an instance of the generic push fold. -/
theorem pushTaskTags_eq (b : Map Str (List Str)) (ts : List Task) :
    pushTaskTags b ts = pushItems b (ts.map fun t => (t.id, t.tags)) := by
  simp [pushTaskTags, pushItems, List.foldl_map]

/-- The entry-tag pushes are an instance of the generic push fold. -/
theorem pushEntryTags_eq (b : Map Str (List Str)) (es : List LogEntry) :
    pushEntryTags b es = pushItems b (es.map fun e => (e.id, e.tags)) := by
  simp [pushEntryTags, pushItems, List.foldl_map]

/-- The backref pushes are an instance of the generic push fold. -/
theorem pushEntryRefs_eq (b : Map Str (List Str)) (es : List LogEntry) :
    pushEntryRefs b es = pushItems b (es.map fun e => (e.id, e.task_ids)) := by
  simp [pushEntryRefs, pushItems, List.foldl_map]

/-- The task bucket is an instance of the generic bucket. -/
theorem bucketOf_eq (ts : List Task) (g : Str) :
    bucketOf ts g = gbucket (ts.map fun t => (t.id, t.tags)) g := by
  simp [bucketOf, gbucket, List.map_map]
  rfl

/-- The entry-tag bucket is an instance of the generic bucket. -/
theorem ebucketOf_eq (es : List LogEntry) (g : Str) :
    ebucketOf es g = gbucket (es.map fun e => (e.id, e.tags)) g := by
  simp [ebucketOf, gbucket, List.map_map]
  rfl

/-- The backref bucket is an instance of the generic bucket. -/
theorem rbucketOf_eq (es : List LogEntry) (tid : Str) :
    rbucketOf es tid = gbucket (es.map fun e => (e.id, e.task_ids)) tid := by
  simp [rbucketOf, gbucket, List.map_map]
  rfl

/-- Lookup after the mention push fold. -/
theorem pushMentions_get (ms : List TaskMention) (b : Map Str (List TaskMention))
    (tid : Str) :
    mapGet (pushMentions b ms) tid =
      if mentionsOf ms tid = [] then mapGet b tid
      else some ((mapGet b tid).getD [] ++ mentionsOf ms tid) := by
  induction ms generalizing b with
  | nil => simp [pushMentions, mentionsOf]
  | cons m ms ih =>
    show mapGet (pushMentions (mapPush b m.task_id m) ms) tid = _
    rw [ih, mapGet_push]
    by_cases hk : m.task_id = tid
    · have hm : mentionsOf (m :: ms) tid = m :: mentionsOf ms tid := by
        simp [mentionsOf, List.filter_cons, hk]
      rw [hk, hm]
      simp only [eq_self_iff_true, if_true]
      by_cases he : mentionsOf ms tid = []
      · rw [if_pos he, he]
        simp
      · rw [if_neg he]
        simp [List.append_assoc]
    · have hm : mentionsOf (m :: ms) tid = mentionsOf ms tid := by
        simp [mentionsOf, List.filter_cons, hk]
      simp only [if_neg hk]
      rw [hm]

/-- Unfolding of `findTask` over a cons. -/
theorem findTask_cons (t : Task) (ts : List Task) (tid : Str) :
    findTask (t :: ts) tid = if t.id = tid then some t else findTask ts tid := by
  by_cases h : t.id = tid
  · rw [if_pos h]
    exact List.find?_cons_of_pos _ (by simpa using h)
  · rw [if_neg h]
    exact List.find?_cons_of_neg _ (by simpa using h)

/-- A task id absent from the list is not found. -/
theorem findTask_eq_none (ts : List Task) (tid : Str) (h : tid ∉ ts.map (·.id)) :
    findTask ts tid = none := by
  induction ts with
  | nil => rfl
  | cons t ts ih =>
    rw [List.map_cons, List.mem_cons] at h
    push_neg at h
    rw [findTask_cons, if_neg (fun hh => h.1 hh.symm), ih h.2]

/-- Unfolding of `findEntry` over a cons. -/
theorem findEntry_cons (e : LogEntry) (es : List LogEntry) (eid : Str) :
    findEntry (e :: es) eid = if e.id = eid then some e else findEntry es eid := by
  by_cases h : e.id = eid
  · rw [if_pos h]
    exact List.find?_cons_of_pos _ (by simpa using h)
  · rw [if_neg h]
    exact List.find?_cons_of_neg _ (by simpa using h)

/-- An entry id absent from the list is not found. -/
theorem findEntry_eq_none (es : List LogEntry) (eid : Str) (h : eid ∉ es.map (·.id)) :
    findEntry es eid = none := by
  induction es with
  | nil => rfl
  | cons e es ih =>
    rw [List.map_cons, List.mem_cons] at h
    push_neg at h
    rw [findEntry_cons, if_neg (fun hh => h.1 hh.symm), ih h.2]

/-- Lookup after the upsert task-map insertions, for tasks with distinct
ids. -/
theorem insTasks_get (ts : List Task) (m : Map Str Task) (tid : Str)
    (hnd : (ts.map (·.id)).Nodup) :
    mapGet (insTasks m ts) tid =
      match findTask ts tid with
      | some t => some t
      | none => mapGet m tid := by
  induction ts generalizing m with
  | nil => rfl
  | cons t ts ih =>
    rw [List.map_cons] at hnd
    have hnd' := List.nodup_cons.mp hnd
    show mapGet (insTasks (mapInsert m t.id t) ts) tid = _
    rw [ih _ hnd'.2, findTask_cons]
    by_cases h : t.id = tid
    · rw [if_pos h]
      rw [findTask_eq_none ts tid (by rw [← h]; exact hnd'.1)]
      rw [mapGet_insert, if_pos h]
    · rw [if_neg h]
      cases hf : findTask ts tid with
      | some t' => rfl
      | none =>
        rw [mapGet_insert, if_neg h]

/-- Lookup after the upsert entry-map insertions, for entries with
distinct ids. -/
theorem insEntries_get (es : List LogEntry) (m : Map Str LogEntry) (eid : Str)
    (hnd : (es.map (·.id)).Nodup) :
    mapGet (insEntries m es) eid =
      match findEntry es eid with
      | some e => some e
      | none => mapGet m eid := by
  induction es generalizing m with
  | nil => rfl
  | cons e es ih =>
    rw [List.map_cons] at hnd
    have hnd' := List.nodup_cons.mp hnd
    show mapGet (insEntries (mapInsert m e.id e) es) eid = _
    rw [ih _ hnd'.2, findEntry_cons]
    by_cases h : e.id = eid
    · rw [if_pos h]
      rw [findEntry_eq_none es eid (by rw [← h]; exact hnd'.1)]
      rw [mapGet_insert, if_pos h]
    · rw [if_neg h]
      cases hf : findEntry es eid with
      | some e' => rfl
      | none =>
        rw [mapGet_insert, if_neg h]

/-- The retain-and-prune value transformer is idempotent. -/
theorem pruneVal_idem (x : Str) (o : Option (List Str)) :
    pruneVal x (pruneVal x o) = pruneVal x o := by
  cases o with
  | none => rfl
  | some l =>
    show pruneVal x (pruneVal x (some l)) = pruneVal x (some l)
    unfold pruneVal
    dsimp only
    by_cases h : l.filter (fun i => ¬ i = x) = []
    · rw [if_pos h]
    · rw [if_neg h]
      dsimp only
      have hself : (l.filter fun i => ¬ i = x).filter (fun i => ¬ i = x) =
          l.filter fun i => ¬ i = x := by
        apply List.filter_eq_self.mpr
        intro a ha
        exact (List.mem_filter.mp ha).2
      rw [hself, if_neg h]

/-- Self lookup after a retain-and-prune, as the value transformer. -/
theorem mapGet_pruneBucket_self' {K : Type} [DecidableEq K]
    (m : Map K (List Str)) (k : K) (x : Str) :
    mapGet (pruneBucket m k x) k = pruneVal x (mapGet m k) := by
  rw [mapGet_pruneBucket_self]
  cases mapGet m k <;> rfl

/-- Lookup after pruning one value from several buckets. -/
theorem pruneKeysMap_get (keys : List Str) (b : Map Str (List Str)) (x g : Str) :
    mapGet (pruneKeysMap b keys x) g =
      if keys.count g = 0 then mapGet b g else pruneVal x (mapGet b g) := by
  induction keys generalizing b with
  | nil => simp [pruneKeysMap]
  | cons k0 keys ih =>
    show mapGet (pruneKeysMap (pruneBucket b k0 x) keys x) g = _
    rw [ih]
    by_cases hk : k0 = g
    · rw [hk]
      have hcnt : (g :: keys).count g = keys.count g + 1 := by
        simp [List.count_cons]
      rw [hcnt, mapGet_pruneBucket_self']
      by_cases hz : keys.count g = 0
      · rw [if_pos hz, if_neg (by omega)]
      · rw [if_neg hz, pruneVal_idem, if_neg (by omega)]
    · rw [mapGet_pruneBucket_ne _ _ _ _ hk]
      have hcnt : (k0 :: keys).count g = keys.count g := by
        simp [List.count_cons, hk]
      rw [hcnt]

/-! ## Decomposition of the removal helpers -/

/-- Per-field decomposition of `remove_task_internal`. -/
theorem removeTaskInternal_eq (S : VaultIndex) (tid : Str) :
    removeTaskInternal S tid =
      { S with
        tasks := mapRemove S.tasks tid
        tags_to_tasks :=
          match mapGet S.tasks tid with
          | some task => pruneKeysMap S.tags_to_tasks task.tags tid
          | none => S.tags_to_tasks
        mentions_by_task := mapRemove S.mentions_by_task tid
        task_refs_by_task := mapRemove S.task_refs_by_task tid } := by
  unfold removeTaskInternal
  cases hg : mapGet S.tasks tid with
  | some task =>
    dsimp only
    rw [tagPruneLoop_eq]
  | none =>
    dsimp only
    rw [mapRemove_of_get_none _ _ hg]

/-- Per-field decomposition of `remove_log_entry_internal`. -/
theorem removeLogEntryInternal_eq (S : VaultIndex) (eid : Str) :
    removeLogEntryInternal S eid =
      match mapGet S.log_entries eid with
      | none => S
      | some entry =>
          { S with
            log_entries := mapRemove S.log_entries eid
            tags_to_log_entries := pruneKeysMap S.tags_to_log_entries entry.tags eid
            task_refs_by_task := pruneKeysMap S.task_refs_by_task entry.task_ids eid } := by
  unfold removeLogEntryInternal
  cases hg : mapGet S.log_entries eid with
  | some entry =>
    dsimp only
    rw [etagPruneLoop_eq, refPruneLoop_eq]
  | none => rfl

/-- Unfolding of the generic bucket over a cons. -/
theorem gbucket_cons (it : Str × List Str) (items : List (Str × List Str)) (g : Str) :
    gbucket (it :: items) g = List.replicate (it.2.count g) it.1 ++ gbucket items g := by
  simp [gbucket]

/-- Every member of a generic bucket is one of the item ids. -/
theorem gbucket_mem (items : List (Str × List Str)) (g x : Str)
    (h : x ∈ gbucket items g) : x ∈ items.map (·.1) := by
  unfold gbucket at h
  rw [List.mem_join] at h
  obtain ⟨l, hl, hx⟩ := h
  rw [List.mem_map] at hl
  obtain ⟨it, hit, hleq⟩ := hl
  rw [← hleq] at hx
  have := List.eq_of_mem_replicate hx
  rw [this]
  exact List.mem_map_of_mem _ hit

/-- Unfolding of the task bucket over a cons. -/
theorem bucketOf_cons (t : Task) (ts : List Task) (g : Str) :
    bucketOf (t :: ts) g = List.replicate (t.tags.count g) t.id ++ bucketOf ts g := by
  simp [bucketOf]

/-- Every member of a task bucket is one of the task ids. -/
theorem bucketOf_mem (ts : List Task) (g x : Str) (h : x ∈ bucketOf ts g) :
    x ∈ ts.map (·.id) := by
  rw [bucketOf_eq] at h
  have := gbucket_mem _ _ _ h
  simpa [List.map_map] using this

/-! ## The task-removal phase of `remove_note` -/

/-- Effect of folding `remove_task_internal` over the ids of a
distinct-id task list, starting from a state whose task map and tag
buckets hold exactly those tasks: both are cleared, the mention and
backref lists of exactly those ids are dropped, and every other field is
untouched. -/
theorem removeTasksFold_spec (ts : List Task) (A : VaultIndex)
    (hnd : (ts.map (·.id)).Nodup)
    (htasks : ∀ tid, mapGet A.tasks tid = findTask ts tid)
    (hb : ∀ g, mapGet A.tags_to_tasks g =
      if bucketOf ts g = [] then none else some (bucketOf ts g)) :
    (∀ tid, mapGet ((ts.map (·.id)).foldl removeTaskInternal A).tasks tid = none) ∧
    (∀ g, mapGet ((ts.map (·.id)).foldl removeTaskInternal A).tags_to_tasks g = none) ∧
    ((ts.map (·.id)).foldl removeTaskInternal A).notes = A.notes ∧
    ((ts.map (·.id)).foldl removeTaskInternal A).note_content = A.note_content ∧
    ((ts.map (·.id)).foldl removeTaskInternal A).log_entries = A.log_entries ∧
    ((ts.map (·.id)).foldl removeTaskInternal A).tags_to_log_entries =
      A.tags_to_log_entries ∧
    ((ts.map (·.id)).foldl removeTaskInternal A).note_to_task_ids = A.note_to_task_ids ∧
    ((ts.map (·.id)).foldl removeTaskInternal A).note_to_log_entry_ids =
      A.note_to_log_entry_ids ∧
    (∀ tid, mapGet ((ts.map (·.id)).foldl removeTaskInternal A).mentions_by_task tid =
      if tid ∈ ts.map (·.id) then none else mapGet A.mentions_by_task tid) ∧
    (∀ tid, mapGet ((ts.map (·.id)).foldl removeTaskInternal A).task_refs_by_task tid =
      if tid ∈ ts.map (·.id) then none else mapGet A.task_refs_by_task tid) := by
  induction ts generalizing A with
  | nil =>
    simp only [List.map_nil, List.foldl_nil]
    refine ⟨?_, ?_, trivial, trivial, trivial, trivial, trivial, trivial, ?_, ?_⟩
    · intro tid
      rw [htasks tid]
      rfl
    · intro g
      rw [hb g]
      rfl
    · intro tid
      simp
    · intro tid
      simp
  | cons t ts ih =>
    simp only [List.map_cons, List.foldl_cons]
    rw [List.map_cons] at hnd
    have hnd' := List.nodup_cons.mp hnd
    have hgt : mapGet A.tasks t.id = some t := by
      rw [htasks, findTask_cons, if_pos rfl]
    have hAe := removeTaskInternal_eq A t.id
    have htasks' : ∀ tid, mapGet (removeTaskInternal A t.id).tasks tid = findTask ts tid := by
      intro tid
      rw [hAe]
      dsimp only
      rw [mapGet_remove]
      by_cases h : t.id = tid
      · rw [if_pos h, ← h, findTask_eq_none ts t.id hnd'.1]
      · rw [if_neg h, htasks tid, findTask_cons, if_neg h]
    have hb' : ∀ g, mapGet (removeTaskInternal A t.id).tags_to_tasks g =
        if bucketOf ts g = [] then none else some (bucketOf ts g) := by
      intro g
      rw [hAe]
      dsimp only
      rw [hgt]
      dsimp only
      rw [pruneKeysMap_get]
      by_cases hc : t.tags.count g = 0
      · rw [if_pos hc, hb g, bucketOf_cons, hc]
        simp
      · rw [if_neg hc, hb g, bucketOf_cons]
        have hrep : List.replicate (t.tags.count g) t.id ≠ [] := by
          intro hh
          have := congrArg List.length hh
          simp at this
          exact hc this
        rw [if_neg (fun hh => hrep (List.append_eq_nil.mp hh).1)]
        show pruneVal t.id (some _) = _
        unfold pruneVal
        dsimp only
        have hfilter :
            (List.replicate (t.tags.count g) t.id ++ bucketOf ts g).filter
              (fun i => ¬ i = t.id) = bucketOf ts g := by
          rw [List.filter_append]
          have h1 : (List.replicate (t.tags.count g) t.id).filter
              (fun i => ¬ i = t.id) = [] := by
            rw [List.filter_eq_nil]
            intro a ha
            have := List.eq_of_mem_replicate ha
            simp [this]
          have h2 : (bucketOf ts g).filter (fun i => ¬ i = t.id) = bucketOf ts g := by
            rw [List.filter_eq_self]
            intro a ha
            have hmem := bucketOf_mem ts g a ha
            simp only [decide_eq_true_eq]
            intro hh
            rw [hh] at hmem
            exact hnd'.1 hmem
          rw [h1, h2, List.nil_append]
        rw [hfilter]
    have hrec := ih (removeTaskInternal A t.id) hnd'.2 htasks' hb'
    refine ⟨hrec.1, hrec.2.1, ?_, ?_, ?_, ?_, ?_, ?_, ?_, ?_⟩
    · rw [hrec.2.2.1, hAe]
    · rw [hrec.2.2.2.1, hAe]
    · rw [hrec.2.2.2.2.1, hAe]
    · rw [hrec.2.2.2.2.2.1, hAe]
    · rw [hrec.2.2.2.2.2.2.1, hAe]
    · rw [hrec.2.2.2.2.2.2.2.1, hAe]
    · intro tid
      rw [hrec.2.2.2.2.2.2.2.2.1 tid]
      by_cases hmem : tid ∈ ts.map (·.id)
      · rw [if_pos hmem, if_pos (by simp [hmem])]
      · rw [if_neg hmem, hAe]
        dsimp only
        rw [mapGet_remove]
        by_cases hh : t.id = tid
        · rw [if_pos hh, if_pos (by simp [hh.symm])]
        · have hh' : ¬ tid = t.id := fun x => hh (Eq.symm x)
          rw [if_neg hh, if_neg (by simp [hmem, hh'])]
    · intro tid
      rw [hrec.2.2.2.2.2.2.2.2.2 tid]
      by_cases hmem : tid ∈ ts.map (·.id)
      · rw [if_pos hmem, if_pos (by simp [hmem])]
      · rw [if_neg hmem, hAe]
        dsimp only
        rw [mapGet_remove]
        by_cases hh : t.id = tid
        · rw [if_pos hh, if_pos (by simp [hh.symm])]
        · have hh' : ¬ tid = t.id := fun x => hh (Eq.symm x)
          rw [if_neg hh, if_neg (by simp [hmem, hh'])]

/-- Unfolding of the entry-tag bucket over a cons. -/
theorem ebucketOf_cons (e : LogEntry) (es : List LogEntry) (g : Str) :
    ebucketOf (e :: es) g = List.replicate (e.tags.count g) e.id ++ ebucketOf es g := by
  simp [ebucketOf]

/-- Every member of an entry-tag bucket is one of the entry ids. -/
theorem ebucketOf_mem (es : List LogEntry) (g x : Str) (h : x ∈ ebucketOf es g) :
    x ∈ es.map (·.id) := by
  rw [ebucketOf_eq] at h
  have := gbucket_mem _ _ _ h
  simpa [List.map_map] using this

/-- Unfolding of the backref bucket over a cons. -/
theorem rbucketOf_cons (e : LogEntry) (es : List LogEntry) (tid : Str) :
    rbucketOf (e :: es) tid =
      List.replicate (e.task_ids.count tid) e.id ++ rbucketOf es tid := by
  simp [rbucketOf]

/-- Every member of a backref bucket is one of the entry ids. -/
theorem rbucketOf_mem (es : List LogEntry) (tid x : Str) (h : x ∈ rbucketOf es tid) :
    x ∈ es.map (·.id) := by
  rw [rbucketOf_eq] at h
  have := gbucket_mem _ _ _ h
  simpa [List.map_map] using this

/-! ## The entry-removal phase of `remove_note` -/

/-- Effect of folding `remove_log_entry_internal` over the ids of a
distinct-id entry list, from a state whose entry map and entry-tag
buckets hold exactly those entries and whose backref buckets are either
already dropped or hold exactly those entries' references: all three are
cleared, every other field untouched. -/
theorem removeEntriesFold_spec (es : List LogEntry) (A : VaultIndex)
    (hnd : (es.map (·.id)).Nodup)
    (hentries : ∀ eid, mapGet A.log_entries eid = findEntry es eid)
    (hb : ∀ g, mapGet A.tags_to_log_entries g =
      if ebucketOf es g = [] then none else some (ebucketOf es g))
    (hr : ∀ tid, mapGet A.task_refs_by_task tid = none ∨
      mapGet A.task_refs_by_task tid =
        if rbucketOf es tid = [] then none else some (rbucketOf es tid)) :
    (∀ eid, mapGet ((es.map (·.id)).foldl removeLogEntryInternal A).log_entries eid = none) ∧
    (∀ g, mapGet ((es.map (·.id)).foldl removeLogEntryInternal A).tags_to_log_entries g =
      none) ∧
    (∀ tid, mapGet ((es.map (·.id)).foldl removeLogEntryInternal A).task_refs_by_task tid =
      none) ∧
    ((es.map (·.id)).foldl removeLogEntryInternal A).notes = A.notes ∧
    ((es.map (·.id)).foldl removeLogEntryInternal A).note_content = A.note_content ∧
    ((es.map (·.id)).foldl removeLogEntryInternal A).tasks = A.tasks ∧
    ((es.map (·.id)).foldl removeLogEntryInternal A).tags_to_tasks = A.tags_to_tasks ∧
    ((es.map (·.id)).foldl removeLogEntryInternal A).mentions_by_task =
      A.mentions_by_task ∧
    ((es.map (·.id)).foldl removeLogEntryInternal A).note_to_task_ids =
      A.note_to_task_ids ∧
    ((es.map (·.id)).foldl removeLogEntryInternal A).note_to_log_entry_ids =
      A.note_to_log_entry_ids := by
  induction es generalizing A with
  | nil =>
    simp only [List.map_nil, List.foldl_nil]
    refine ⟨?_, ?_, ?_, trivial, trivial, trivial, trivial, trivial, trivial, trivial⟩
    · intro eid
      rw [hentries eid]
      rfl
    · intro g
      rw [hb g]
      rfl
    · intro tid
      rcases hr tid with h | h
      · exact h
      · rw [h]
        rfl
  | cons e es ih =>
    simp only [List.map_cons, List.foldl_cons]
    rw [List.map_cons] at hnd
    have hnd' := List.nodup_cons.mp hnd
    have hge : mapGet A.log_entries e.id = some e := by
      rw [hentries, findEntry_cons, if_pos rfl]
    have hAe : removeLogEntryInternal A e.id =
        { A with
          log_entries := mapRemove A.log_entries e.id
          tags_to_log_entries := pruneKeysMap A.tags_to_log_entries e.tags e.id
          task_refs_by_task := pruneKeysMap A.task_refs_by_task e.task_ids e.id } := by
      rw [removeLogEntryInternal_eq, hge]
    have hentries' : ∀ eid,
        mapGet (removeLogEntryInternal A e.id).log_entries eid = findEntry es eid := by
      intro eid
      rw [hAe]
      dsimp only
      rw [mapGet_remove]
      by_cases h : e.id = eid
      · rw [if_pos h, ← h, findEntry_eq_none es e.id hnd'.1]
      · rw [if_neg h, hentries eid, findEntry_cons, if_neg h]
    have hb' : ∀ g, mapGet (removeLogEntryInternal A e.id).tags_to_log_entries g =
        if ebucketOf es g = [] then none else some (ebucketOf es g) := by
      intro g
      rw [hAe]
      dsimp only
      rw [pruneKeysMap_get]
      by_cases hc : e.tags.count g = 0
      · rw [if_pos hc, hb g, ebucketOf_cons, hc]
        simp
      · rw [if_neg hc, hb g, ebucketOf_cons]
        have hrep : List.replicate (e.tags.count g) e.id ≠ [] := by
          intro hh
          have := congrArg List.length hh
          simp at this
          exact hc this
        rw [if_neg (fun hh => hrep (List.append_eq_nil.mp hh).1)]
        show pruneVal e.id (some _) = _
        unfold pruneVal
        dsimp only
        have hfilter :
            (List.replicate (e.tags.count g) e.id ++ ebucketOf es g).filter
              (fun i => ¬ i = e.id) = ebucketOf es g := by
          rw [List.filter_append]
          have h1 : (List.replicate (e.tags.count g) e.id).filter
              (fun i => ¬ i = e.id) = [] := by
            rw [List.filter_eq_nil]
            intro a ha
            have := List.eq_of_mem_replicate ha
            simp [this]
          have h2 : (ebucketOf es g).filter (fun i => ¬ i = e.id) = ebucketOf es g := by
            rw [List.filter_eq_self]
            intro a ha
            have hmem := ebucketOf_mem es g a ha
            simp only [decide_eq_true_eq]
            intro hh
            rw [hh] at hmem
            exact hnd'.1 hmem
          rw [h1, h2, List.nil_append]
        rw [hfilter]
    have hr' : ∀ tid, mapGet (removeLogEntryInternal A e.id).task_refs_by_task tid = none ∨
        mapGet (removeLogEntryInternal A e.id).task_refs_by_task tid =
          if rbucketOf es tid = [] then none else some (rbucketOf es tid) := by
      intro tid
      rw [hAe]
      dsimp only
      rw [pruneKeysMap_get]
      rcases hr tid with h | h
      · left
        by_cases hc : e.task_ids.count tid = 0
        · rw [if_pos hc, h]
        · rw [if_neg hc, h]
          rfl
      · by_cases hc : e.task_ids.count tid = 0
        · right
          rw [if_pos hc, h, rbucketOf_cons, hc]
          simp
        · rw [if_neg hc, h, rbucketOf_cons]
          have hrep : List.replicate (e.task_ids.count tid) e.id ≠ [] := by
            intro hh
            have := congrArg List.length hh
            simp at this
            exact hc this
          rw [if_neg (fun hh => hrep (List.append_eq_nil.mp hh).1)]
          have hfilter :
              (List.replicate (e.task_ids.count tid) e.id ++ rbucketOf es tid).filter
                (fun i => ¬ i = e.id) = rbucketOf es tid := by
            rw [List.filter_append]
            have h1 : (List.replicate (e.task_ids.count tid) e.id).filter
                (fun i => ¬ i = e.id) = [] := by
              rw [List.filter_eq_nil]
              intro a ha
              have := List.eq_of_mem_replicate ha
              simp [this]
            have h2 : (rbucketOf es tid).filter (fun i => ¬ i = e.id) =
                rbucketOf es tid := by
              rw [List.filter_eq_self]
              intro a ha
              have hmem := rbucketOf_mem es tid a ha
              simp only [decide_eq_true_eq]
              intro hh
              rw [hh] at hmem
              exact hnd'.1 hmem
            rw [h1, h2, List.nil_append]
          show pruneVal e.id (some _) = none ∨ _
          unfold pruneVal
          dsimp only
          rw [hfilter]
          by_cases hnil : rbucketOf es tid = []
          · left
            rw [if_pos hnil]
          · right
            rfl
    have hrec := ih (removeLogEntryInternal A e.id) hnd'.2 hentries' hb' hr'
    refine ⟨hrec.1, hrec.2.1, hrec.2.2.1, ?_, ?_, ?_, ?_, ?_, ?_, ?_⟩
    · rw [hrec.2.2.2.1, hAe]
    · rw [hrec.2.2.2.2.1, hAe]
    · rw [hrec.2.2.2.2.2.1, hAe]
    · rw [hrec.2.2.2.2.2.2.1, hAe]
    · rw [hrec.2.2.2.2.2.2.2.1, hAe]
    · rw [hrec.2.2.2.2.2.2.2.2.1, hAe]
    · rw [hrec.2.2.2.2.2.2.2.2.2, hAe]

/-- Lookup through a value-mapping of a whole map. -/
theorem mapGet_mapValues {K V W : Type} [DecidableEq K] (m : Map K V) (f : V → W) (k : K) :
    mapGet (m.map fun kv => (kv.1, f kv.2)) k = (mapGet m k).map f := by
  induction m with
  | nil => rfl
  | cons kv rest ih =>
    obtain ⟨k0, v0⟩ := kv
    by_cases h : k0 = k <;> simp [mapGet, h, ih]

/-- Removing a note from the empty store is a no-op. -/
theorem removeNote_empty (nid : Str) : removeNote emptyIndex nid = emptyIndex := rfl

/-- Unfolding of `removeNotePhases` per phase: `remove_note` equals the
staged formulation (the absent ownership-list cases coincide because
removing an absent key is a no-op). -/
theorem removeNote_eq_phases (S : VaultIndex) (nid : Str) :
    removeNote S nid = removeNotePhases S nid := by
  unfold removeNote removeNotePhases
  dsimp only
  cases hT : mapGet S.note_to_task_ids nid with
  | some tids =>
    dsimp only [Option.getD]
    cases hE : mapGet
        (tids.foldl removeTaskInternal
          { S with
            notes := mapRemove S.notes nid
            note_content := mapRemove S.note_content nid
            note_to_task_ids := mapRemove S.note_to_task_ids nid }).note_to_log_entry_ids
        nid with
    | some eids => rfl
    | none =>
      dsimp only [Option.getD, List.foldl_nil]
      rw [mapRemove_of_get_none _ _ hE]
  | none =>
    rw [mapRemove_of_get_none _ _ hT]
    dsimp only [Option.getD, List.foldl_nil]
    cases hE : mapGet
        { S with
          notes := mapRemove S.notes nid
          note_content := mapRemove S.note_content nid }.note_to_log_entry_ids nid with
    | some eids => rfl
    | none =>
      dsimp only [Option.getD, List.foldl_nil]
      rw [mapRemove_of_get_none _ _ hE]

/-- The task lookup after upserting distinct-id tasks into an empty
map. -/
theorem insTasks_get_empty (ts : List Task) (tid : Str)
    (hnd : (ts.map (·.id)).Nodup) :
    mapGet (insTasks [] ts) tid = findTask ts tid := by
  rw [insTasks_get ts [] tid hnd]
  cases findTask ts tid <;> rfl

/-- The entry lookup after upserting distinct-id entries into an empty
map. -/
theorem insEntries_get_empty (es : List LogEntry) (eid : Str)
    (hnd : (es.map (·.id)).Nodup) :
    mapGet (insEntries [] es) eid = findEntry es eid := by
  rw [insEntries_get es [] eid hnd]
  cases findEntry es eid <;> rfl

/-- The task-tag buckets after pushing into an empty map. -/
theorem pushTaskTags_get_empty (ts : List Task) (g : Str) :
    mapGet (pushTaskTags [] ts) g =
      if bucketOf ts g = [] then none else some (bucketOf ts g) := by
  rw [pushTaskTags_eq, pushItems_get, ← bucketOf_eq]
  cases h : bucketOf ts g <;> simp [mapGet]

/-- The entry-tag buckets after pushing into an empty map. -/
theorem pushEntryTags_get_empty (es : List LogEntry) (g : Str) :
    mapGet (pushEntryTags [] es) g =
      if ebucketOf es g = [] then none else some (ebucketOf es g) := by
  rw [pushEntryTags_eq, pushItems_get, ← ebucketOf_eq]
  cases h : ebucketOf es g <;> simp [mapGet]

/-- The backref buckets after pushing into an empty map. -/
theorem pushEntryRefs_get_empty (es : List LogEntry) (tid : Str) :
    mapGet (pushEntryRefs [] es) tid =
      if rbucketOf es tid = [] then none else some (rbucketOf es tid) := by
  rw [pushEntryRefs_eq, pushItems_get, ← rbucketOf_eq]
  cases h : rbucketOf es tid <;> simp [mapGet]

/-- The mention buckets after pushing into an empty map. -/
theorem pushMentions_get_empty (ms : List TaskMention) (tid : Str) :
    mapGet (pushMentions [] ms) tid =
      if mentionsOf ms tid = [] then none else some (mentionsOf ms tid) := by
  rw [pushMentions_get]
  cases h : mentionsOf ms tid <;> simp [mapGet]

/-! ## Claim C5, amended -/

/-- `mapGet` commutes with the mention-retaining `map` over the buckets. -/
theorem mapGet_retain (m : Map Str (List TaskMention)) (nid : Str) (k : Str) :
    mapGet (m.map fun kv => (kv.1, kv.2.filter fun x => ¬ x.note_id = nid)) k =
      (mapGet m k).map fun l => l.filter fun x => ¬ x.note_id = nid :=
  mapGet_mapValues m (fun l => l.filter fun x => ¬ x.note_id = nid) k

/-- `removeNotePhases` written through the named stages. -/
theorem removeNotePhases_phases (S : VaultIndex) (nid : Str) :
    removeNotePhases S nid =
      phaseE S nid ((mapGet S.note_to_task_ids nid).getD [])
        ((mapGet
            (phaseB S nid ((mapGet S.note_to_task_ids nid).getD [])).note_to_log_entry_ids
            nid).getD []) := rfl

/-- Core of the round-trip argument: removing a note (in staged form)
from a state whose every field holds exactly the parsed note's data
leaves a query-empty store. -/
theorem phases_core (p : ParsedNote)
    (S : VaultIndex)
    (ht : (p.tasks.map (·.id)).Nodup)
    (he : (p.log_entries.map (·.id)).Nodup)
    (hm : ∀ m ∈ p.mentions, m.note_id = p.note.id)
    (hS1 : ∀ tid, mapGet S.tasks tid = findTask p.tasks tid)
    (hS2 : ∀ g, mapGet S.tags_to_tasks g =
      if bucketOf p.tasks g = [] then none else some (bucketOf p.tasks g))
    (hS3 : ∀ eid, mapGet S.log_entries eid = findEntry p.log_entries eid)
    (hS4 : ∀ g, mapGet S.tags_to_log_entries g =
      if ebucketOf p.log_entries g = [] then none else some (ebucketOf p.log_entries g))
    (hS5 : ∀ tid, mapGet S.task_refs_by_task tid =
      if rbucketOf p.log_entries tid = [] then none
      else some (rbucketOf p.log_entries tid))
    (hS6 : ∀ tid, mapGet S.mentions_by_task tid =
      if mentionsOf p.mentions tid = [] then none else some (mentionsOf p.mentions tid))
    (hS7 : ∀ x, mapGet S.note_content x =
      if p.note.id = x then some p.note else none)
    (hT : (mapGet S.note_to_task_ids p.note.id).getD [] = p.tasks.map (·.id))
    (hE : (mapGet S.note_to_log_entry_ids p.note.id).getD [] =
      p.log_entries.map (·.id)) :
    (∀ tid, getTask (removeNotePhases S p.note.id) tid = none) ∧
    (∀ nid, getNote (removeNotePhases S p.note.id) nid = none) ∧
    listTags (removeNotePhases S p.note.id) = [] ∧
    (∀ tid, getMentionsForTask (removeNotePhases S p.note.id) tid = []) ∧
    (∀ tid, getLogEntriesForTask (removeNotePhases S p.note.id) tid = []) := by
  have hMain := removeNotePhases_phases S p.note.id
  rw [hT] at hMain
  have hR1 := removeTasksFold_spec p.tasks (phaseA S p.note.id) ht
    (fun tid => hS1 tid) (fun g => hS2 g)
  obtain ⟨hc1, hc2, hc3, hc4, hc5, hc6, hc7, hc8, hc9, hc10⟩ := hR1
  have hBfold : (List.map (fun x => x.id) p.tasks).foldl removeTaskInternal
      (phaseA S p.note.id) = phaseB S p.note.id (List.map (fun x => x.id) p.tasks) := rfl
  rw [hBfold] at hc1 hc2 hc3 hc4 hc5 hc6 hc7 hc8 hc9 hc10
  have hR2 := removeEntriesFold_spec p.log_entries
    (phaseC S p.note.id (List.map (fun x => x.id) p.tasks)) he
    (by
      intro eid
      show mapGet (phaseB S p.note.id (List.map (fun x => x.id) p.tasks)).log_entries
          eid = findEntry p.log_entries eid
      rw [hc5]
      exact hS3 eid)
    (by
      intro g
      show mapGet
          (phaseB S p.note.id (List.map (fun x => x.id) p.tasks)).tags_to_log_entries g =
        if ebucketOf p.log_entries g = [] then none else some (ebucketOf p.log_entries g)
      rw [hc6]
      exact hS4 g)
    (by
      intro tid
      show mapGet
            (phaseB S p.note.id (List.map (fun x => x.id) p.tasks)).task_refs_by_task
            tid = none ∨
        mapGet (phaseB S p.note.id (List.map (fun x => x.id) p.tasks)).task_refs_by_task
            tid =
          if rbucketOf p.log_entries tid = [] then none
          else some (rbucketOf p.log_entries tid)
      rw [hc10]
      by_cases hmem : tid ∈ List.map (fun x => x.id) p.tasks
      · left
        rw [if_pos hmem]
      · right
        rw [if_neg hmem]
        exact hS5 tid)
  obtain ⟨hd1, hd2, hd3, hd4, hd5, hd6, hd7, hd8, hd9, hd10⟩ := hR2
  have hDfold : (List.map (fun x => x.id) p.log_entries).foldl removeLogEntryInternal
      (phaseC S p.note.id (List.map (fun x => x.id) p.tasks)) =
      phaseD S p.note.id (List.map (fun x => x.id) p.tasks)
        (List.map (fun x => x.id) p.log_entries) := rfl
  rw [hDfold] at hd1 hd2 hd3 hd4 hd5 hd6 hd7 hd8 hd9 hd10
  have hAproj : (phaseA S p.note.id).note_to_log_entry_ids = S.note_to_log_entry_ids :=
    rfl
  rw [hc8, hAproj, hE] at hMain
  rw [hMain]
  refine ⟨?_, ?_, ?_, ?_, ?_⟩
  · intro tid
    show mapGet
        (phaseD S p.note.id (List.map (fun x => x.id) p.tasks)
          (List.map (fun x => x.id) p.log_entries)).tasks tid = none
    rw [hd6]
    show mapGet (phaseB S p.note.id (List.map (fun x => x.id) p.tasks)).tasks tid = none
    exact hc1 tid
  · intro nid
    show mapGet
        (phaseD S p.note.id (List.map (fun x => x.id) p.tasks)
          (List.map (fun x => x.id) p.log_entries)).note_content nid = none
    rw [hd5]
    show mapGet (phaseB S p.note.id (List.map (fun x => x.id) p.tasks)).note_content
        nid = none
    rw [hc4]
    show mapGet (mapRemove S.note_content p.note.id) nid = none
    rw [mapGet_remove]
    by_cases hx : p.note.id = nid
    · rw [if_pos hx]
    · rw [if_neg hx, hS7 nid, if_neg hx]
  · have h1 : (phaseE S p.note.id (List.map (fun x => x.id) p.tasks)
        (List.map (fun x => x.id) p.log_entries)).tags_to_tasks = [] := by
      show (phaseD S p.note.id (List.map (fun x => x.id) p.tasks)
          (List.map (fun x => x.id) p.log_entries)).tags_to_tasks = []
      rw [hd7]
      show (phaseB S p.note.id (List.map (fun x => x.id) p.tasks)).tags_to_tasks = []
      exact map_eq_nil_of_get_none _ hc2
    have h2 : (phaseE S p.note.id (List.map (fun x => x.id) p.tasks)
        (List.map (fun x => x.id) p.log_entries)).tags_to_log_entries = [] := by
      show (phaseD S p.note.id (List.map (fun x => x.id) p.tasks)
          (List.map (fun x => x.id) p.log_entries)).tags_to_log_entries = []
      exact map_eq_nil_of_get_none _ hd2
    unfold listTags
    rw [h1, h2]
    rfl
  · intro tid
    show (mapGet
        ((phaseD S p.note.id (List.map (fun x => x.id) p.tasks)
            (List.map (fun x => x.id) p.log_entries)).mentions_by_task.map
          fun kv => (kv.1, kv.2.filter fun x => ¬ x.note_id = p.note.id)) tid).getD [] = []
    rw [mapGet_retain, hd8]
    show ((mapGet
        (phaseB S p.note.id (List.map (fun x => x.id) p.tasks)).mentions_by_task
        tid).map fun l => l.filter fun x => ¬ x.note_id = p.note.id).getD [] = []
    rw [hc9]
    by_cases hmem : tid ∈ List.map (fun x => x.id) p.tasks
    · rw [if_pos hmem]
      rfl
    · rw [if_neg hmem]
      show ((mapGet S.mentions_by_task tid).map
          fun l => l.filter fun x => ¬ x.note_id = p.note.id).getD [] = []
      rw [hS6]
      by_cases hnil : mentionsOf p.mentions tid = []
      · rw [if_pos hnil]
        rfl
      · rw [if_neg hnil]
        show (mentionsOf p.mentions tid).filter
            (fun x => ¬ x.note_id = p.note.id) = []
        rw [List.filter_eq_nil]
        intro m hmm
        have hin : m ∈ p.mentions := (List.mem_filter.mp hmm).1
        simp [hm m hin]
  · intro tid
    have h3 : mapGet (phaseE S p.note.id (List.map (fun x => x.id) p.tasks)
        (List.map (fun x => x.id) p.log_entries)).task_refs_by_task tid = none := hd3 tid
    unfold getLogEntriesForTask
    rw [h3]

/-- C5 (amended): the round trip through the empty store — upserting a
parsed note whose tasks have pairwise-distinct ids, whose log entries
have pairwise-distinct ids and whose mentions all carry the note's own
id, then removing the note — leaves a store query-equivalent to the empty
store: every task and note lookup is `None`, `list_tags` is empty, and
every mention and log-entry reverse lookup is empty. -/
theorem c5_round_trip_amended (p : ParsedNote)
    (ht : (p.tasks.map (·.id)).Nodup)
    (he : (p.log_entries.map (·.id)).Nodup)
    (hm : ∀ m ∈ p.mentions, m.note_id = p.note.id) :
    (∀ tid, getTask (removeNote (upsertParsedNote emptyIndex p) p.note.id) tid = none) ∧
    (∀ nid, getNote (removeNote (upsertParsedNote emptyIndex p) p.note.id) nid = none) ∧
    listTags (removeNote (upsertParsedNote emptyIndex p) p.note.id) = [] ∧
    (∀ tid,
      getMentionsForTask (removeNote (upsertParsedNote emptyIndex p) p.note.id) tid = []) ∧
    (∀ tid,
      getLogEntriesForTask (removeNote (upsertParsedNote emptyIndex p) p.note.id) tid =
        []) := by
  have hup := upsert_eq emptyIndex p
  rw [removeNote_empty] at hup
  rw [removeNote_eq_phases, hup]
  refine phases_core p _ ht he hm ?_ ?_ ?_ ?_ ?_ ?_ ?_ ?_ ?_
  · intro tid
    exact insTasks_get_empty p.tasks tid ht
  · intro g
    exact pushTaskTags_get_empty p.tasks g
  · intro eid
    exact insEntries_get_empty p.log_entries eid he
  · intro g
    exact pushEntryTags_get_empty p.log_entries g
  · intro tid
    exact pushEntryRefs_get_empty p.log_entries tid
  · intro tid
    exact pushMentions_get_empty p.mentions tid
  · intro x
    show mapGet (mapInsert emptyIndex.note_content p.note.id p.note) x = _
    rw [mapGet_insert]
    rfl
  · show (mapGet
      (if (p.tasks.map (·.id)).isEmpty then emptyIndex.note_to_task_ids
       else mapInsert emptyIndex.note_to_task_ids p.note.id (p.tasks.map (·.id)))
      p.note.id).getD [] = p.tasks.map (·.id)
    by_cases hc : (p.tasks.map (·.id)).isEmpty
    · rw [if_pos hc]
      rw [List.isEmpty_iff] at hc
      rw [hc]
      rfl
    · rw [if_neg hc, mapGet_insert, if_pos rfl]
      rfl
  · show (mapGet
      (if (p.log_entries.map (·.id)).isEmpty then emptyIndex.note_to_log_entry_ids
       else mapInsert emptyIndex.note_to_log_entry_ids p.note.id
        (p.log_entries.map (·.id)))
      p.note.id).getD [] = p.log_entries.map (·.id)
    by_cases hc : (p.log_entries.map (·.id)).isEmpty
    · rw [if_pos hc]
      rw [List.isEmpty_iff] at hc
      rw [hc]
      rfl
    · rw [if_neg hc, mapGet_insert, if_pos rfl]
      rfl


/-- Concrete instantiation of the amended round trip: note `B` (one log
entry, one mention of `T-1`, no tasks) satisfies the id-discipline
hypotheses, and upserting it into the empty store and removing it again
leaves the tag list empty. -/
theorem c5_round_trip_amended_witness :
    (parsedB.tasks.map (·.id)).Nodup ∧
    (parsedB.log_entries.map (·.id)).Nodup ∧
    (∀ m ∈ parsedB.mentions, m.note_id = parsedB.note.id) ∧
    listTags (removeNote (upsertParsedNote emptyIndex parsedB) parsedB.note.id) = [] :=
  ⟨by decide, by decide, by decide,
    (c5_round_trip_amended parsedB (by decide) (by decide) (by decide)).2.2.1⟩

/-! ## Claim C6, amended: tag liveness -/

/-- Insertion into a sorted list adds no new elements. -/
theorem mem_insStr (x a : Str) (l : List Str) (h : a ∈ insStr x l) : a = x ∨ a ∈ l := by
  induction l with
  | nil =>
    simp [insStr] at h
    exact Or.inl h
  | cons y ys ih =>
    unfold insStr at h
    by_cases hc : strLe y x
    · rw [if_pos hc, List.mem_cons] at h
      cases h with
      | inl hh => exact Or.inr (by rw [hh]; exact List.mem_cons_self y ys)
      | inr hh =>
        cases ih hh with
        | inl g1 => exact Or.inl g1
        | inr g2 => exact Or.inr (List.mem_cons_of_mem y g2)
    · rw [if_neg hc, List.mem_cons, List.mem_cons] at h
      cases h with
      | inl hh => exact Or.inl hh
      | inr hh =>
        cases hh with
        | inl h1 => exact Or.inr (by rw [h1]; exact List.mem_cons_self y ys)
        | inr h2 => exact Or.inr (List.mem_cons_of_mem y h2)

/-- Sorting adds no new elements. -/
theorem mem_sortStrs (a : Str) (l : List Str) (h : a ∈ sortStrs l) : a ∈ l := by
  induction l with
  | nil => simpa [sortStrs] using h
  | cons x xs ih =>
    have h' : a ∈ insStr x (sortStrs xs) := h
    cases mem_insStr x a (sortStrs xs) h' with
    | inl hh => rw [hh]; exact List.mem_cons_self x xs
    | inr hh => exact List.mem_cons_of_mem x (ih hh)

/-- The dedup loop adds no new elements. -/
theorem mem_eraseDupsLoop (a : Str) : ∀ (as bs : List Str),
    a ∈ List.eraseDups.loop as bs → a ∈ as ∨ a ∈ bs := by
  intro as
  induction as with
  | nil =>
    intro bs h
    right
    simp only [List.eraseDups.loop] at h
    exact List.mem_reverse.mp h
  | cons x xs ih =>
    intro bs h
    simp only [List.eraseDups.loop] at h
    revert h
    cases he : bs.elem x with
    | true =>
      intro h
      cases ih bs h with
      | inl hh => exact Or.inl (List.mem_cons_of_mem x hh)
      | inr hh => exact Or.inr hh
    | false =>
      intro h
      cases ih (x :: bs) h with
      | inl hh => exact Or.inl (List.mem_cons_of_mem x hh)
      | inr hh =>
        rw [List.mem_cons] at hh
        cases hh with
        | inl h1 => exact Or.inl (by rw [h1]; exact List.mem_cons_self x xs)
        | inr h2 => exact Or.inr h2

/-- `eraseDups` adds no new elements. -/
theorem mem_eraseDups (a : Str) (l : List Str) (h : a ∈ l.eraseDups) : a ∈ l := by
  have hh := mem_eraseDupsLoop a l [] h
  cases hh with
  | inl h1 => exact h1
  | inr h2 => cases h2

/-- A key present in the key list of a map resolves to some value. -/
theorem mapGet_some_of_mem_keys {K V : Type} [DecidableEq K] (m : Map K V) (k : K)
    (h : k ∈ m.map (·.1)) : ∃ v, mapGet m k = some v := by
  induction m with
  | nil => cases h
  | cons kv rest ih =>
    obtain ⟨k0, v0⟩ := kv
    rw [List.map_cons, List.mem_cons] at h
    by_cases hk : k0 = k
    · refine ⟨v0, ?_⟩
      show (if k0 = k then some v0 else mapGet rest k) = some v0
      rw [if_pos hk]
    · have hr : k ∈ rest.map (·.1) := by
        cases h with
        | inl hh => exact absurd hh.symm hk
        | inr hh => exact hh
      obtain ⟨v, hv⟩ := ih hr
      refine ⟨v, ?_⟩
      show (if k0 = k then some v0 else mapGet rest k) = some v
      rw [if_neg hk]
      exact hv

/-- Every member of a generic bucket is the id of an item whose keys
contain `g`. -/
theorem gbucket_mem_keys (items : List (Str × List Str)) (g x : Str)
    (h : x ∈ gbucket items g) : ∃ it, it ∈ items ∧ it.1 = x ∧ it.2.count g ≠ 0 := by
  unfold gbucket at h
  rw [List.mem_join] at h
  obtain ⟨l, hl, hx⟩ := h
  rw [List.mem_map] at hl
  obtain ⟨it, hit, hleq⟩ := hl
  rw [← hleq] at hx
  have hxe := List.eq_of_mem_replicate hx
  refine ⟨it, hit, hxe.symm, ?_⟩
  intro hz
  rw [hz] at hx
  simp at hx

/-- The empty store satisfies the tag-liveness invariant. -/
theorem tagInv_empty : TagInv emptyIndex := by
  constructor
  · intro g b hb
    exact Option.noConfusion hb
  · intro g b hb
    exact Option.noConfusion hb

/-- `remove_task_internal` preserves tag liveness: it prunes the removed
id from exactly the buckets of the tags the removed task carried, and by
liveness the id occurs in no other bucket. -/
theorem tagInv_removeTaskInternal (S : VaultIndex) (tid : Str) (h : TagInv S) :
    TagInv (removeTaskInternal S tid) := by
  obtain ⟨h1, h2⟩ := h
  rw [removeTaskInternal_eq]
  constructor
  · intro g b hb
    have hb' : mapGet (match mapGet S.tasks tid with
        | some task => pruneKeysMap S.tags_to_tasks task.tags tid
        | none => S.tags_to_tasks) g = some b := hb
    cases hget : mapGet S.tasks tid with
    | none =>
      rw [hget] at hb'
      obtain ⟨hne, hlive⟩ := h1 g b hb'
      refine ⟨hne, ?_⟩
      intro x hx
      obtain ⟨t, htg, htt⟩ := hlive x hx
      refine ⟨t, ?_, htt⟩
      show mapGet (mapRemove S.tasks tid) x = some t
      rw [mapGet_remove]
      by_cases hxx : tid = x
      · exfalso
        rw [hxx] at hget
        rw [hget] at htg
        exact Option.noConfusion htg
      · rw [if_neg hxx]
        exact htg
    | some task =>
      rw [hget] at hb'
      rw [pruneKeysMap_get] at hb'
      by_cases hcnt : task.tags.count g = 0
      · rw [if_pos hcnt] at hb'
        obtain ⟨hne, hlive⟩ := h1 g b hb'
        refine ⟨hne, ?_⟩
        intro x hx
        obtain ⟨t, htg, htt⟩ := hlive x hx
        refine ⟨t, ?_, htt⟩
        show mapGet (mapRemove S.tasks tid) x = some t
        rw [mapGet_remove]
        by_cases hxx : tid = x
        · exfalso
          rw [hxx] at hget
          rw [hget] at htg
          have hteq : task = t := by
            injection htg
          have hnot : g ∉ task.tags := List.count_eq_zero.mp hcnt
          exact hnot (by rw [hteq]; exact htt)
        · rw [if_neg hxx]
          exact htg
      · rw [if_neg hcnt] at hb'
        cases hbg : mapGet S.tags_to_tasks g with
        | none =>
          rw [hbg] at hb'
          exact Option.noConfusion hb'
        | some l =>
          rw [hbg] at hb'
          unfold pruneVal at hb'
          dsimp only at hb'
          by_cases hfe : l.filter (fun i => ¬ i = tid) = []
          · rw [if_pos hfe] at hb'
            exact Option.noConfusion hb'
          · rw [if_neg hfe] at hb'
            have hbeq : b = l.filter (fun i => ¬ i = tid) := by
              injection hb' with hh
              exact hh.symm
            obtain ⟨hne0, hlive⟩ := h1 g l hbg
            constructor
            · rw [hbeq]
              exact hfe
            · intro x hx
              rw [hbeq] at hx
              have hxl : x ∈ l := List.mem_of_mem_filter hx
              have hxt : ¬ x = tid := by
                have hf2 := (List.mem_filter.mp hx).2
                simpa using hf2
              obtain ⟨t, htg, htt⟩ := hlive x hxl
              refine ⟨t, ?_, htt⟩
              show mapGet (mapRemove S.tasks tid) x = some t
              rw [mapGet_remove, if_neg (fun hh => hxt hh.symm)]
              exact htg
  · intro g b hb
    have hb' : mapGet S.tags_to_log_entries g = some b := hb
    obtain ⟨hne, hlive⟩ := h2 g b hb'
    exact ⟨hne, fun x hx => hlive x hx⟩

/-- `remove_log_entry_internal` preserves tag liveness. -/
theorem tagInv_removeLogEntryInternal (S : VaultIndex) (eid : Str) (h : TagInv S) :
    TagInv (removeLogEntryInternal S eid) := by
  obtain ⟨h1, h2⟩ := h
  rw [removeLogEntryInternal_eq]
  cases hget : mapGet S.log_entries eid with
  | none => exact ⟨h1, h2⟩
  | some entry =>
    constructor
    · intro g b hb
      have hb' : mapGet S.tags_to_tasks g = some b := hb
      obtain ⟨hne, hlive⟩ := h1 g b hb'
      exact ⟨hne, fun x hx => hlive x hx⟩
    · intro g b hb
      have hb' : mapGet (pruneKeysMap S.tags_to_log_entries entry.tags eid) g =
          some b := hb
      rw [pruneKeysMap_get] at hb'
      by_cases hcnt : entry.tags.count g = 0
      · rw [if_pos hcnt] at hb'
        obtain ⟨hne, hlive⟩ := h2 g b hb'
        refine ⟨hne, ?_⟩
        intro x hx
        obtain ⟨e, heg, het⟩ := hlive x hx
        refine ⟨e, ?_, het⟩
        show mapGet (mapRemove S.log_entries eid) x = some e
        rw [mapGet_remove]
        by_cases hxx : eid = x
        · exfalso
          rw [hxx] at hget
          rw [hget] at heg
          have heq : entry = e := by
            injection heg
          have hnot : g ∉ entry.tags := List.count_eq_zero.mp hcnt
          exact hnot (by rw [heq]; exact het)
        · rw [if_neg hxx]
          exact heg
      · rw [if_neg hcnt] at hb'
        cases hbg : mapGet S.tags_to_log_entries g with
        | none =>
          rw [hbg] at hb'
          exact Option.noConfusion hb'
        | some l =>
          rw [hbg] at hb'
          unfold pruneVal at hb'
          dsimp only at hb'
          by_cases hfe : l.filter (fun i => ¬ i = eid) = []
          · rw [if_pos hfe] at hb'
            exact Option.noConfusion hb'
          · rw [if_neg hfe] at hb'
            have hbeq : b = l.filter (fun i => ¬ i = eid) := by
              injection hb' with hh
              exact hh.symm
            obtain ⟨hne0, hlive⟩ := h2 g l hbg
            constructor
            · rw [hbeq]
              exact hfe
            · intro x hx
              rw [hbeq] at hx
              have hxl : x ∈ l := List.mem_of_mem_filter hx
              have hxt : ¬ x = eid := by
                have hf2 := (List.mem_filter.mp hx).2
                simpa using hf2
              obtain ⟨e, heg, het⟩ := hlive x hxl
              refine ⟨e, ?_, het⟩
              show mapGet (mapRemove S.log_entries eid) x = some e
              rw [mapGet_remove, if_neg (fun hh => hxt hh.symm)]
              exact heg

/-- Folding task removal preserves tag liveness. -/
theorem tagInv_tasksFold (ids : List Str) (S : VaultIndex) (h : TagInv S) :
    TagInv (ids.foldl removeTaskInternal S) := by
  induction ids generalizing S with
  | nil => exact h
  | cons i ids ih =>
    show TagInv (ids.foldl removeTaskInternal (removeTaskInternal S i))
    exact ih _ (tagInv_removeTaskInternal S i h)

/-- Folding log-entry removal preserves tag liveness. -/
theorem tagInv_entriesFold (ids : List Str) (S : VaultIndex) (h : TagInv S) :
    TagInv (ids.foldl removeLogEntryInternal S) := by
  induction ids generalizing S with
  | nil => exact h
  | cons i ids ih =>
    show TagInv (ids.foldl removeLogEntryInternal (removeLogEntryInternal S i))
    exact ih _ (tagInv_removeLogEntryInternal S i h)

/-- `remove_note` preserves tag liveness. -/
theorem tagInv_removeNote (S : VaultIndex) (nid : Str) (h : TagInv S) :
    TagInv (removeNote S nid) := by
  rw [removeNote_eq_phases, removeNotePhases_phases]
  show TagInv (phaseD S nid ((mapGet S.note_to_task_ids nid).getD [])
      ((mapGet
          (phaseB S nid ((mapGet S.note_to_task_ids nid).getD [])).note_to_log_entry_ids
          nid).getD []))
  exact tagInv_entriesFold
    ((mapGet
        (phaseB S nid ((mapGet S.note_to_task_ids nid).getD [])).note_to_log_entry_ids
        nid).getD [])
    (phaseC S nid ((mapGet S.note_to_task_ids nid).getD []))
    (tagInv_tasksFold ((mapGet S.note_to_task_ids nid).getD []) (phaseA S nid) h)

/-- `upsert_parsed_note` preserves tag liveness, provided the parsed
note's task and entry ids are pairwise distinct and fresh: after its own
previous copy is removed, none of the new ids already belongs to another
note. -/
theorem tagInv_upsert (S : VaultIndex) (p : ParsedNote)
    (ht : (p.tasks.map (·.id)).Nodup)
    (he : (p.log_entries.map (·.id)).Nodup)
    (hfT : ∀ t ∈ p.tasks, mapGet (removeNote S p.note.id).tasks t.id = none)
    (hfE : ∀ e ∈ p.log_entries, mapGet (removeNote S p.note.id).log_entries e.id = none)
    (h : TagInv S) :
    TagInv (upsertParsedNote S p) := by
  obtain ⟨hR1, hR2⟩ := tagInv_removeNote S p.note.id h
  rw [upsert_eq]
  constructor
  · intro g b hb
    have hb' : mapGet (pushTaskTags (removeNote S p.note.id).tags_to_tasks p.tasks) g =
        some b := hb
    rw [pushTaskTags_eq, pushItems_get] at hb'
    by_cases hg : gbucket (p.tasks.map fun t => (t.id, t.tags)) g = []
    · rw [if_pos hg] at hb'
      obtain ⟨hne, hlive⟩ := hR1 g b hb'
      refine ⟨hne, ?_⟩
      intro x hx
      obtain ⟨t, htg, htt⟩ := hlive x hx
      refine ⟨t, ?_, htt⟩
      show mapGet (insTasks (removeNote S p.note.id).tasks p.tasks) x = some t
      rw [insTasks_get _ _ _ ht]
      cases hf : findTask p.tasks x with
      | none => exact htg
      | some t' =>
        exfalso
        have hp : t' ∈ p.tasks := List.mem_of_find?_eq_some hf
        have hid : t'.id = x := by
          have hq := List.find?_some hf
          simpa using hq
        have hfr := hfT t' hp
        rw [hid] at hfr
        rw [hfr] at htg
        exact Option.noConfusion htg
    · rw [if_neg hg] at hb'
      have hbeq : b =
          (mapGet (removeNote S p.note.id).tags_to_tasks g).getD [] ++
            gbucket (p.tasks.map fun t => (t.id, t.tags)) g := by
        injection hb' with hh
        exact hh.symm
      constructor
      · rw [hbeq]
        intro hnil
        rw [List.append_eq_nil] at hnil
        exact hg hnil.2
      · intro x hx
        rw [hbeq, List.mem_append] at hx
        cases hx with
        | inr hxg =>
          obtain ⟨it, hit, hitid, hitcnt⟩ := gbucket_mem_keys _ _ _ hxg
          rw [List.mem_map] at hit
          obtain ⟨t', ht', hteq⟩ := hit
          have hcnt2 : t'.tags.count g ≠ 0 := by
            rw [← hteq] at hitcnt
            exact hitcnt
          have hgt : g ∈ t'.tags := by
            by_contra hgg
            exact hcnt2 (List.count_eq_zero.mpr hgg)
          have hidx : t'.id = x := by
            rw [← hteq] at hitid
            exact hitid
          refine ⟨t', ?_, hgt⟩
          show mapGet (insTasks (removeNote S p.note.id).tasks p.tasks) x = some t'
          rw [insTasks_get _ _ _ ht]
          cases hf : findTask p.tasks x with
          | none =>
            exfalso
            have hno := List.find?_eq_none.mp hf t' ht'
            exact hno (by simp [hidx])
          | some t'' =>
            have hp'' : t'' ∈ p.tasks := List.mem_of_find?_eq_some hf
            have hid'' : t''.id = x := by
              have hq := List.find?_some hf
              simpa using hq
            have heq2 : t'' = t' :=
              List.inj_on_of_nodup_map ht hp'' ht' (by rw [hid'', hidx])
            rw [heq2]
        | inl hxo =>
          cases hbg : mapGet (removeNote S p.note.id).tags_to_tasks g with
          | none =>
            rw [hbg] at hxo
            simp at hxo
          | some l =>
            rw [hbg] at hxo
            have hxl : x ∈ l := hxo
            obtain ⟨hne0, hlive⟩ := hR1 g l hbg
            obtain ⟨t, htg, htt⟩ := hlive x hxl
            refine ⟨t, ?_, htt⟩
            show mapGet (insTasks (removeNote S p.note.id).tasks p.tasks) x = some t
            rw [insTasks_get _ _ _ ht]
            cases hf : findTask p.tasks x with
            | none => exact htg
            | some t' =>
              exfalso
              have hp : t' ∈ p.tasks := List.mem_of_find?_eq_some hf
              have hid : t'.id = x := by
                have hq := List.find?_some hf
                simpa using hq
              have hfr := hfT t' hp
              rw [hid] at hfr
              rw [hfr] at htg
              exact Option.noConfusion htg
  · intro g b hb
    have hb' : mapGet
        (pushEntryTags (removeNote S p.note.id).tags_to_log_entries p.log_entries) g =
        some b := hb
    rw [pushEntryTags_eq, pushItems_get] at hb'
    by_cases hg : gbucket (p.log_entries.map fun e => (e.id, e.tags)) g = []
    · rw [if_pos hg] at hb'
      obtain ⟨hne, hlive⟩ := hR2 g b hb'
      refine ⟨hne, ?_⟩
      intro x hx
      obtain ⟨e, heg, het⟩ := hlive x hx
      refine ⟨e, ?_, het⟩
      show mapGet (insEntries (removeNote S p.note.id).log_entries p.log_entries) x =
        some e
      rw [insEntries_get _ _ _ he]
      cases hf : findEntry p.log_entries x with
      | none => exact heg
      | some e' =>
        exfalso
        have hp : e' ∈ p.log_entries := List.mem_of_find?_eq_some hf
        have hid : e'.id = x := by
          have hq := List.find?_some hf
          simpa using hq
        have hfr := hfE e' hp
        rw [hid] at hfr
        rw [hfr] at heg
        exact Option.noConfusion heg
    · rw [if_neg hg] at hb'
      have hbeq : b =
          (mapGet (removeNote S p.note.id).tags_to_log_entries g).getD [] ++
            gbucket (p.log_entries.map fun e => (e.id, e.tags)) g := by
        injection hb' with hh
        exact hh.symm
      constructor
      · rw [hbeq]
        intro hnil
        rw [List.append_eq_nil] at hnil
        exact hg hnil.2
      · intro x hx
        rw [hbeq, List.mem_append] at hx
        cases hx with
        | inr hxg =>
          obtain ⟨it, hit, hitid, hitcnt⟩ := gbucket_mem_keys _ _ _ hxg
          rw [List.mem_map] at hit
          obtain ⟨e', he', heteq⟩ := hit
          have hcnt2 : e'.tags.count g ≠ 0 := by
            rw [← heteq] at hitcnt
            exact hitcnt
          have hgt : g ∈ e'.tags := by
            by_contra hgg
            exact hcnt2 (List.count_eq_zero.mpr hgg)
          have hidx : e'.id = x := by
            rw [← heteq] at hitid
            exact hitid
          refine ⟨e', ?_, hgt⟩
          show mapGet (insEntries (removeNote S p.note.id).log_entries p.log_entries) x =
            some e'
          rw [insEntries_get _ _ _ he]
          cases hf : findEntry p.log_entries x with
          | none =>
            exfalso
            have hno := List.find?_eq_none.mp hf e' he'
            exact hno (by simp [hidx])
          | some e'' =>
            have hp'' : e'' ∈ p.log_entries := List.mem_of_find?_eq_some hf
            have hid'' : e''.id = x := by
              have hq := List.find?_some hf
              simpa using hq
            have heq2 : e'' = e' :=
              List.inj_on_of_nodup_map he hp'' he' (by rw [hid'', hidx])
            rw [heq2]
        | inl hxo =>
          cases hbg : mapGet (removeNote S p.note.id).tags_to_log_entries g with
          | none =>
            rw [hbg] at hxo
            simp at hxo
          | some l =>
            rw [hbg] at hxo
            have hxl : x ∈ l := hxo
            obtain ⟨hne0, hlive⟩ := hR2 g l hbg
            obtain ⟨e, heg, het⟩ := hlive x hxl
            refine ⟨e, ?_, het⟩
            show mapGet (insEntries (removeNote S p.note.id).log_entries p.log_entries)
                x = some e
            rw [insEntries_get _ _ _ he]
            cases hf : findEntry p.log_entries x with
            | none => exact heg
            | some e' =>
              exfalso
              have hp : e' ∈ p.log_entries := List.mem_of_find?_eq_some hf
              have hid : e'.id = x := by
                have hq := List.find?_some hf
                simpa using hq
              have hfr := hfE e' hp
              rw [hid] at hfr
              rw [hfr] at heg
              exact Option.noConfusion heg

/-- Under tag liveness, every tag listed by `list_tags` has a live
carrier: some stored task or log entry carrying it. -/
theorem listTags_carrier (S : VaultIndex) (h : TagInv S) (g : Str)
    (hg : g ∈ listTags S) :
    (∃ tid t, mapGet S.tasks tid = some t ∧ g ∈ t.tags) ∨
    (∃ eid e, mapGet S.log_entries eid = some e ∧ g ∈ e.tags) := by
  obtain ⟨h1, h2⟩ := h
  unfold listTags at hg
  have hg1 := mem_sortStrs _ _ hg
  have hg2 := mem_eraseDups _ _ hg1
  rw [List.mem_append] at hg2
  cases hg2 with
  | inl hk =>
    obtain ⟨b, hb⟩ := mapGet_some_of_mem_keys _ _ hk
    obtain ⟨hne, hlive⟩ := h1 g b hb
    obtain ⟨tid, htid⟩ := List.exists_mem_of_ne_nil b hne
    obtain ⟨t, htg, htt⟩ := hlive tid htid
    exact Or.inl ⟨tid, t, htg, htt⟩
  | inr hk =>
    obtain ⟨b, hb⟩ := mapGet_some_of_mem_keys _ _ hk
    obtain ⟨hne, hlive⟩ := h2 g b hb
    obtain ⟨eid, heid⟩ := List.exists_mem_of_ne_nil b hne
    obtain ⟨e, heg, het⟩ := hlive eid heid
    exact Or.inr ⟨eid, e, heg, het⟩

/-- C6 (corrected): the tag-liveness invariant — every bucket key of
`tags_to_tasks`/`tags_to_log_entries` maps to a nonempty list of live
ids carrying that tag — is preserved by `remove_note` unconditionally
and by `upsert_parsed_note` whenever the parsed note's task and entry
ids are pairwise distinct and not already used by other notes; under the
invariant every tag returned by `list_tags` has a live carrier, so
removing the last carrier of a tag removes the tag from `list_tags`.
(Unconditional preservation under `upsert_parsed_note` is refuted by
`c6_duplicate_ids_break_tag_liveness`.) -/
theorem c6_tag_liveness_amended (S : VaultIndex) (p : ParsedNote) (nid : Str)
    (hInv : TagInv S)
    (ht : (p.tasks.map (·.id)).Nodup)
    (he : (p.log_entries.map (·.id)).Nodup)
    (hfT : ∀ t ∈ p.tasks, mapGet (removeNote S p.note.id).tasks t.id = none)
    (hfE : ∀ e ∈ p.log_entries,
      mapGet (removeNote S p.note.id).log_entries e.id = none) :
    TagInv (removeNote S nid) ∧
    TagInv (upsertParsedNote S p) ∧
    (∀ g ∈ listTags (removeNote S nid),
      (∃ tid t, mapGet (removeNote S nid).tasks tid = some t ∧ g ∈ t.tags) ∨
      (∃ eid e, mapGet (removeNote S nid).log_entries eid = some e ∧ g ∈ e.tags)) :=
  ⟨tagInv_removeNote S nid hInv,
   tagInv_upsert S p ht he hfT hfE hInv,
   fun g hg => listTags_carrier _ (tagInv_removeNote S nid hInv) g hg⟩

/-- Concrete instantiation of the amended tag-liveness theorem: the
empty store satisfies the invariant, note `A`'s parsed form satisfies
the id-discipline hypotheses, and both resulting stores satisfy the
invariant. -/
theorem c6_tag_liveness_amended_witness :
    TagInv emptyIndex ∧
    (parsedA.tasks.map (·.id)).Nodup ∧
    (parsedA.log_entries.map (·.id)).Nodup ∧
    (∀ t ∈ parsedA.tasks, mapGet (removeNote emptyIndex parsedA.note.id).tasks t.id =
      none) ∧
    (∀ e ∈ parsedA.log_entries,
      mapGet (removeNote emptyIndex parsedA.note.id).log_entries e.id = none) ∧
    TagInv (upsertParsedNote emptyIndex parsedA) :=
  ⟨tagInv_empty, by decide, by decide, by decide, by decide,
    (c6_tag_liveness_amended emptyIndex parsedA parsedA.note.id tagInv_empty
      (by decide) (by decide) (by decide) (by decide)).2.1⟩

end Yapper